import Mathlib

/-!
Shallow embedding of the snake-tron simulation core
(`src/snaketron/back/world.py`, `src/snaketron/back/agent.py`,
`src/snaketron/back/direction.py`) and of the prototype A* search
(`src/a_star.py`), together with proofs about the properties claimed of them.

Conventions of the embedding:
* Python integers are `ℤ`/`ℕ`; the numpy `uint8` obstacle grid is modelled as a
  `Pos → ℤ` function (counter overflow never matters for the states considered).
* Python `deque`s are Lean `List`s with index 0 at the left end of the deque.
* Python `float('inf')` cooldowns and path-length bounds are modelled with `ℕ∞`.
* The sources of nondeterminism of `SnakeWorld.simulate` (`random.randrange`,
  `random.shuffle`, and the scipy Voronoi construction in
  `back/voronoi.furthest_voronoi_vertex`, which is continuous floating-point
  geometry) are abstracted into an explicit `Oracle` argument.
* Fallible operations (the `AttributeError` raised by dereferencing a `None`
  `event_sender`) return `Except SimError`.
-/

set_option maxRecDepth 10000

namespace Snaketron

/-- Grid positions are integer pairs `(x, y)`, as in the Python tuples. -/
abbrev Pos := ℤ × ℤ

/-- Directions are integer unit vectors, as in `back/direction.py`. -/
abbrev Dir := ℤ × ℤ

/-- Direction constant `UP = (0, -1)` from `back/direction.py`. -/
def UP : Dir := (0, -1)

/-- Direction constant `DOWN = (0, 1)` from `back/direction.py`. -/
def DOWN : Dir := (0, 1)

/-- Direction constant `LEFT = (-1, 0)` from `back/direction.py`. -/
def LEFT : Dir := (-1, 0)

/-- Direction constant `RIGHT = (1, 0)` from `back/direction.py`. -/
def RIGHT : Dir := (1, 0)

/-- Embedding of `direction.opposite_dir`. -/
def opposite_dir (d : Dir) : Dir := (-d.1, -d.2)

/-- Embedding of `direction.toward_center`.  The Python code compares
`y > height/width * x` and `y > -height/width * (x - width)` with float
division; here the comparisons are cross-multiplied by `width > 0`, which is
the exact rational comparison the float code approximates. -/
def toward_center (x y : ℤ) (width height : ℕ) : Dir :=
  let above_diag_0 : Bool := decide ((height : ℤ) * x < y * width)
  let above_diag_1 : Bool := decide ((height : ℤ) * width - height * x < y * width)
  if above_diag_0 && above_diag_1 then UP
  else if above_diag_0 && !above_diag_1 then RIGHT
  else if !above_diag_0 && above_diag_1 then LEFT
  else DOWN

/-- The three heuristic classes of `back/world.py`
(`EuclidianDistanceHeuristic`, `ManhattanDistanceHeuristic`,
`EuclidianDistancePeriodicHeuristic`), as a tag each AI agent stores in place
of Python's `heuristic_type` class object. -/
inductive HeurKind
  | euclid
  | manhattan
  | periodicEuclid
deriving DecidableEq

/-- Evaluation of a heuristic bound to destination `dst` at a point `p`
(the `__call__` methods in `back/world.py`).  All three values are
non-negative, so they are returned in `ℕ`. -/
def heurEval (k : HeurKind) (width height : ℕ) (dst : Pos) (p : Pos) : ℕ :=
  match k with
  | .euclid =>
      (dst.1 - p.1).natAbs * (dst.1 - p.1).natAbs +
        (dst.2 - p.2).natAbs * (dst.2 - p.2).natAbs
  | .manhattan => (dst.1 - p.1).natAbs + (dst.2 - p.2).natAbs
  | .periodicEuclid =>
      let dx := min (dst.1 - p.1).natAbs (width - (dst.1 - p.1).natAbs)
      let dy := min (dst.2 - p.2).natAbs (height - (dst.2 - p.2).natAbs)
      dx * dx + dy * dy

/-- The three concrete agent classes of `back/agent.py`: `PlayerSnakeAgent`,
`AStarSnakeAgent`, `AStarOffensiveSnakeAgent`. -/
inductive Policy
  | player
  | astar
  | offensive
deriving DecidableEq

/-- State of one snake agent: the fields of `AbstractSnakeAgent` and of the
concrete subclasses of `back/agent.py` flattened into one record (fields not
belonging to an agent's class are simply unused for that policy).
`pos` is the body deque with index 0 the left (tail) end and the last element
the head (`pos[-1]`). -/
structure Agent where
  agent_id : ℕ
  policy : Policy
  initial_pos : List Pos
  initial_dir : Dir
  pos : List Pos
  last_tail_pos : Option Pos
  alive : Bool
  dir : Dir
  dir_requests : List Dir
  x_path : List ℤ
  y_path : List ℤ
  dir_path : List Dir
  heuristic_kind : HeurKind
  latency : ℕ
  cooldown : ℕ
  caution_radius : ℕ
  attack_anticipation : ℕ
  target : Option ℕ
  opponents : List ℕ

instance : Inhabited Agent :=
  ⟨{ agent_id := 0, policy := .player, initial_pos := [], initial_dir := (0, 0),
     pos := [], last_tail_pos := none, alive := false, dir := (0, 0),
     dir_requests := [], x_path := [], y_path := [], dir_path := [],
     heuristic_kind := .euclid, latency := 0, cooldown := 0, caution_radius := 0,
     attack_anticipation := 0, target := none, opponents := [] }⟩

/-- Arena events from `back/events.py`. -/
inductive ArenaEvent
  | foodCreated (p : Pos)
  | foodConsumed (p : Pos)
deriving DecidableEq

/-- The state of `SnakeWorld` (`back/world.py`).  Agents are held in a registry
list `agents` and referenced by their index (Python's object references);
`alive_agents` and `dead_agents` are lists of such indices.  `event_sender` is
`some log` when an `EventSender` is attached (the log stands for its effect)
and `none` for the default `event_sender=None`. -/
structure SnakeWorld where
  width : ℕ
  height : ℕ
  initial_n_food : ℕ
  initial_respawn_cooldown : ℕ∞
  obstacle_count : Pos → ℤ
  food_pos : List Pos
  respawn_cooldown : ℕ∞
  alive_agents : List ℕ
  dead_agents : List ℕ
  agents : List Agent
  event_sender : Option (List ArenaEvent)

/-- Registry lookup standing for a Python object reference to an agent. -/
def getAgent (w : SnakeWorld) (i : ℕ) : Agent := w.agents.getD i default

/-- Registry write-back of a mutated agent. -/
def setAgent (w : SnakeWorld) (i : ℕ) (a : Agent) : SnakeWorld :=
  { w with agents := w.agents.set i a }

/-- Mutation of a single agent in place. -/
def updAgent (w : SnakeWorld) (i : ℕ) (f : Agent → Agent) : SnakeWorld :=
  setAgent w i (f (getAgent w i))

/-- Modelled from the spec: `SnakeWorld.get_obstacle_count` is called
throughout `back/agent.py` but its definition is not in `back/world.py`
(the file in src still has the older `pos_is_free` interface); the spec's
obstacle-counter reads give the obvious meaning. -/
def get_obstacle_count (w : SnakeWorld) (p : Pos) : ℤ := w.obstacle_count p

/-- Modelled from the spec: `SnakeWorld.incr_obstacle_count(p, k)` is called
throughout `back/agent.py` but its definition is not in `back/world.py`;
per the spec's obstacle-counter discipline it adds `k` to the counter at `p`. -/
def incr_obstacle_count (w : SnakeWorld) (p : Pos) (k : ℤ) : SnakeWorld :=
  { w with obstacle_count := Function.update w.obstacle_count p (w.obstacle_count p + k) }

/-- Embedding of `SnakeWorld.get_neighbor`: toroidal wrap by `%`
(Python `%` on a positive modulus agrees with `Int.emod`). -/
def get_neighbor (w : SnakeWorld) (p : Pos) (d : Dir) : Pos :=
  ((p.1 + d.1) % (w.width : ℤ), (p.2 + d.2) % (w.height : ℤ))

/-- Embedding of `SnakeWorld.iter_free_neighbors`, in the source's yield order
up, down, left, right. -/
def iter_free_neighbors (w : SnakeWorld) (p : Pos) : List (Pos × Dir) :=
  let un : Pos := (p.1, (p.2 - 1) % (w.height : ℤ))
  let dn : Pos := (p.1, (p.2 + 1) % (w.height : ℤ))
  let ln : Pos := ((p.1 - 1) % (w.width : ℤ), p.2)
  let rn : Pos := ((p.1 + 1) % (w.width : ℤ), p.2)
  (if w.obstacle_count un = 0 then [(un, UP)] else []) ++
    (if w.obstacle_count dn = 0 then [(dn, DOWN)] else []) ++
    (if w.obstacle_count ln = 0 then [(ln, LEFT)] else []) ++
    (if w.obstacle_count rn = 0 then [(rn, RIGHT)] else [])

/-- Embedding of `AbstractSnakeAgent.get_head` (`self.pos[-1]`). -/
def get_head (a : Agent) : Pos := a.pos.getLastD (0, 0)

/-- Embedding of `AbstractSnakeAgent.move`: push the new head (incrementing its
counter), pop the tail (decrementing its counter), remembering it in
`last_tail_pos`.  The Python order append-then-popleft is kept exactly. -/
def agentMove (w : SnakeWorld) (i : ℕ) (d : Dir) : SnakeWorld :=
  let a := getAgent w i
  let new_head := get_neighbor w (get_head a) d
  let w1 := incr_obstacle_count w new_head 1
  let appended := a.pos ++ [new_head]
  let lt := appended.headD (0, 0)
  let w2 := setAgent w1 i { a with pos := appended.drop 1, last_tail_pos := some lt }
  incr_obstacle_count w2 lt (-1)

/-- Embedding of `AbstractSnakeAgent.check_self_collision`: the cut length
`(self.pos.index(head) + 1) % len(self.pos)` when the head cell's counter
exceeds 1, else 0. -/
def check_self_collision (w : SnakeWorld) (i : ℕ) : ℕ :=
  let a := getAgent w i
  let hd := get_head a
  if 1 < get_obstacle_count w hd then (a.pos.indexOf hd + 1) % a.pos.length else 0

/-- Embedding of `AbstractSnakeAgent.cut`: pop `n` cells from the tail end,
decrementing each popped cell's counter. -/
def agentCut (w : SnakeWorld) (i : ℕ) (n : ℕ) : SnakeWorld :=
  let a := getAgent w i
  let w1 := (a.pos.take n).foldl (fun wa p => incr_obstacle_count wa p (-1)) w
  setAgent w1 i { a with pos := a.pos.drop n }

/-- Embedding of `AbstractSnakeAgent.grow`: re-insert `last_tail_pos` at the
tail if it is set.  (The Python signature declares an unused `growth` argument
which `SnakeWorld.simulate` does not pass; the body never reads it.) -/
def agentGrow (w : SnakeWorld) (i : ℕ) : SnakeWorld :=
  let a := getAgent w i
  match a.last_tail_pos with
  | none => w
  | some t =>
      let w1 := setAgent w i { a with pos := t :: a.pos, last_tail_pos := none }
      incr_obstacle_count w1 t 1

/-- Embedding of `AbstractSnakeAgent.collides_another` reduced to its truth
value in `SnakeWorld.simulate`'s `if agent.collides_another():` — true iff the
head counter exceeds 1 and some other alive agent's body contains the head
(`self is not other` is the id test; a returned snake always has non-zero
length, hence is truthy). -/
def collides_another (w : SnakeWorld) (i : ℕ) : Bool :=
  let a := getAgent w i
  let hd := get_head a
  if 1 < get_obstacle_count w hd then
    w.alive_agents.any (fun j => !(j == i) && (getAgent w j).pos.contains hd)
  else false

/-- Embedding of `AbstractSnakeAgent.die` plus the `AbstractAISnakeAgent.die`
override (which additionally clears the cached path). -/
def agentDie (w : SnakeWorld) (i : ℕ) : SnakeWorld :=
  let a := getAgent w i
  let w1 := setAgent w i { a with alive := false }
  let w2 := a.pos.foldl (fun wa p => incr_obstacle_count wa p (-1)) w1
  match a.policy with
  | .player => w2
  | _ => updAgent w2 i fun b => { b with x_path := [], y_path := [], dir_path := [] }

/-- Embedding of `reset` with its subclass overrides (`PlayerSnakeAgent.reset`,
`AStarSnakeAgent` via `AbstractAISnakeAgent.reset`,
`AStarOffensiveSnakeAgent.reset`).  `deque.extendleft` reverses its argument,
which is kept faithfully. -/
def agentReset (w : SnakeWorld) (i : ℕ) (pos? : Option (List Pos)) (d? : Option Dir) :
    SnakeWorld :=
  let a := getAgent w i
  let newPos := (pos?.getD a.initial_pos).reverse
  let newDir := d?.getD a.initial_dir
  match a.policy with
  | .player =>
      setAgent w i { a with alive := true, pos := newPos, dir := newDir, dir_requests := [] }
  | .astar =>
      setAgent w i { a with alive := true, pos := newPos, dir := newDir,
                            x_path := [], y_path := [], dir_path := [], cooldown := 0 }
  | .offensive =>
      setAgent w i { a with alive := true, pos := newPos, dir := newDir,
                            x_path := [], y_path := [], dir_path := [], cooldown := 0,
                            target := none }

/-- Embedding of `PlayerSnakeAgent.add_dir_request`: reject when the bounded
deque (maxlen 5) is full or when the request reverses the last queued (or
current) direction. -/
def add_dir_request (w : SnakeWorld) (i : ℕ) (request : Dir) : SnakeWorld :=
  let a := getAgent w i
  if a.dir_requests.length < 5 then
    let last_dir := a.dir_requests.getLastD a.dir
    if request ≠ opposite_dir last_dir then
      setAgent w i { a with dir_requests := a.dir_requests ++ [request] }
    else w
  else w

/-- Result of the agents' pathfinder `back.a_star.shortest_path`: the three
parallel lists `x_path, y_path, dir_path`, ordered with the destination at
index 0 and the step adjacent to the source last (consumed by `pop()` from
the right). -/
structure SPath where
  xs : List ℤ
  ys : List ℤ
  ds : List Dir
deriving DecidableEq

/-- Search state of the modelled pathfinder: distance map, per-cell parent
direction, frontier and closed set. -/
structure BAState where
  dist : Pos → ℕ∞
  par : Pos → Option Dir
  opened : List Pos
  closed : List Pos

/-- Modelled from the spec: frontier selection of `back.a_star`
("select from the frontier the position minimizing dist + heuristic;
tie-break by lower heuristic value").  `back/a_star.py` is not in src; only
its callers (`back/agent.py`) and the spec describe it. -/
def spSelect (ps : List Pos) (dist : Pos → ℕ∞) (heu : Pos → ℕ) : Option Pos :=
  let pick := ps.foldl
    (fun (acc : Option Pos × ℕ∞ × ℕ∞) p =>
      let c : ℕ∞ := dist p + (heu p : ℕ∞)
      if c < acc.2.1 then (some p, c, (heu p : ℕ∞))
      else if c = acc.2.1 ∧ ((heu p : ℕ∞)) < acc.2.2 then (some p, c, (heu p : ℕ∞))
      else acc)
    (none, ⊤, ⊤)
  pick.1

/-- Modelled from the spec: neighbor relaxation of `back.a_star` — expand the
free neighbors of `cur`, relax distances, record the parent direction, and add
improved cells to the frontier. -/
def spRelax (w : SnakeWorld) (st : BAState) (cur : Pos) : BAState :=
  (iter_free_neighbors w cur).foldl
    (fun s nd =>
      if s.dist cur + 1 < s.dist nd.1 then
        { s with dist := Function.update s.dist nd.1 (s.dist cur + 1),
                 par := Function.update s.par nd.1 (some nd.2),
                 opened := if nd.1 ∈ s.opened then s.opened else s.opened ++ [nd.1] }
      else s)
    st

/-- Modelled from the spec: the main loop of `back.a_star.shortest_path`,
fuelled by the maximum-iteration cap.  It stops when the destination is
selected, the frontier empties, or the cap runs out, and returns the final
state and the last selected node.  A node already closed is not re-expanded. -/
def spLoop (w : SnakeWorld) (dst : Pos) (heu : Pos → ℕ) :
    ℕ → BAState → Pos → BAState × Pos
  | 0, st, cur => (st, cur)
  | fuel + 1, st, cur =>
      if cur = dst then (st, cur)
      else
        let st1 := if cur ∈ st.closed then st else spRelax w st cur
        let st2 := { st1 with opened := st1.opened.erase cur,
                              closed := if cur ∈ st1.closed then st1.closed
                                        else cur :: st1.closed }
        match spSelect st2.opened st2.dist heu with
        | none => (st2, cur)
        | some nxt => spLoop w dst heu fuel st2 nxt

/-- Modelled from the spec: path reconstruction of `back.a_star` — walk the
parent directions backward from the last selected node to the source,
recording coordinates and directions destination-first. -/
def spWalk (w : SnakeWorld) (src : Pos) (par : Pos → Option Dir) :
    ℕ → Pos → SPath
  | 0, _ => ⟨[], [], []⟩
  | fuel + 1, cur =>
      if cur = src then ⟨[], [], []⟩
      else
        match par cur with
        | none => ⟨[], [], []⟩
        | some d =>
            let rest := spWalk w src par fuel (get_neighbor w cur (opposite_dir d))
            ⟨cur.1 :: rest.xs, cur.2 :: rest.ys, d :: rest.ds⟩

/-- Modelled from the spec: `back.a_star.shortest_path(world, src, dst,
heuristic, max_iteraton)` — A* over the world's free cells with uniform step
cost, iteration cap, and parent-direction path reconstruction. -/
def shortest_path (w : SnakeWorld) (src dst : Pos) (heu : Pos → ℕ)
    (max_iteration : ℕ) : SPath :=
  let st0 : BAState :=
    { dist := Function.update (fun _ => (⊤ : ℕ∞)) src 0,
      par := fun _ => none, opened := [src], closed := [] }
  let r := spLoop w dst heu max_iteration st0 src
  spWalk w src r.1.par (w.width * w.height + max_iteration + 1) r.2

/-- Type of the pathfinder parameter of `compute_shortest_path`: the world, the
source (the agent's head), a destination, and the heuristic bound to that
destination. -/
abbrev PathFinder := SnakeWorld → Pos → Pos → (Pos → ℕ) → SPath

/-- The pathfinder the agents actually call:
`shortest_path(self.world, head, dst, heuristic, max_iteraton=450)`. -/
def spA : PathFinder := fun w src dst heu => shortest_path w src dst heu 450

/-- Body of the destination loop of
`AbstractAISnakeAgent.compute_shortest_path`: skip obstructed destinations;
run the pathfinder; keep the candidate when its length is strictly between
`inf_len` and `min(current_min, sup_len)` and its first reconstructed
coordinates equal the destination. -/
def cSP_step (sp : PathFinder) (w : SnakeWorld) (head : Pos) (infL : ℤ)
    (sup_len : ℕ∞) (acc : Option ℕ × ℕ∞ × Agent) (idst : ℕ × Pos) :
    Option ℕ × ℕ∞ × Agent :=
  let dst := idst.2
  if get_obstacle_count w dst = 0 then
    let heu := heurEval acc.2.2.heuristic_kind w.width w.height dst
    let p := sp w head dst heu
    let plen := p.ds.length
    if infL < (plen : ℤ) ∧ (plen : ℕ∞) < min acc.2.1 sup_len ∧
        p.xs.head? = some dst.1 ∧ p.ys.head? = some dst.2 then
      (some idst.1, (plen : ℕ∞),
       { acc.2.2 with x_path := p.xs, y_path := p.ys, dir_path := p.ds })
    else acc
  else acc

/-- Embedding of `AbstractAISnakeAgent.compute_shortest_path`, parameterized by
the pathfinder `sp` (the call to the missing `back.a_star.shortest_path`).
Iterates over the destinations, keeping the shortest candidate path whose
length is acceptable; installs the winning path in the agent's cached path and
returns the selected destination's index. -/
def compute_shortest_path (sp : PathFinder) (w : SnakeWorld) (i : ℕ)
    (dsts : List Pos) (inf_len : ℤ) (sup_len : ℕ∞) : Option ℕ × SnakeWorld :=
  let a := getAgent w i
  let head := get_head a
  let infL : ℤ := max inf_len 0
  let fin := dsts.enum.foldl (cSP_step sp w head infL sup_len) (none, ⊤, a)
  (fin.1, setAgent w i fin.2.2)

/-- Embedding of `AStarSnakeAgent.compute_path_to_nearest_food`. -/
def compute_path_to_nearest_food (w : SnakeWorld) (i : ℕ) : Bool × SnakeWorld :=
  let r := compute_shortest_path spA w i w.food_pos 0 ⊤
  (r.1.isSome, r.2)

/-- One ring expansion inside `AStarSnakeAgent.start_avoid`: for every position
of the current layer, increment every currently-free neighbor and record it in
the new layer. -/
def ring_step (w : SnakeWorld) (layer : List Pos) : SnakeWorld × List Pos :=
  layer.foldl
    (fun acc p =>
      (iter_free_neighbors acc.1 p).foldl
        (fun acc2 nd => (incr_obstacle_count acc2.1 nd.1 1, acc2.2 ++ [nd.1]))
        acc)
    (w, [])

/-- The `for _ in range(self.caution_radius)` loop of `start_avoid` for one
dangerous agent, appending each new ring to the accumulated danger layers. -/
def avoid_rings (w : SnakeWorld) (layer : List Pos) (acc : List (List Pos)) :
    ℕ → SnakeWorld × List (List Pos)
  | 0 => (w, acc)
  | n + 1 =>
      let r := ring_step w layer
      avoid_rings r.1 r.2 (acc ++ [r.2]) n

/-- Embedding of `AStarSnakeAgent.start_avoid`: BFS-expand `caution_radius`
rings of virtual obstacles outward from every dangerous agent's head,
returning the recorded danger layers. -/
def start_avoid (w : SnakeWorld) (i : ℕ) (dangerous : List ℕ) :
    SnakeWorld × List (List Pos) :=
  dangerous.foldl
    (fun acc j =>
      avoid_rings acc.1 [get_head (getAgent acc.1 j)] acc.2
        (getAgent acc.1 i).caution_radius)
    (w, [])

/-- Embedding of `AStarSnakeAgent.stop_avoid`: decrement every recorded cell of
every danger layer once. -/
def stop_avoid (w : SnakeWorld) (layers : List (List Pos)) : SnakeWorld :=
  layers.foldl (fun wa layer => layer.foldl (fun wb p => incr_obstacle_count wb p (-1)) wa) w

/-- Embedding of `AStarSnakeAgent.update_path`: plan to the nearest food under
the danger layers (scoped start/stop avoid), retrying without caution if that
fails. -/
def update_path_astar (w : SnakeWorld) (i : ℕ) : SnakeWorld :=
  let dangerous := w.alive_agents.filter (fun j => j ≠ i)
  let r := start_avoid w i dangerous
  let c := compute_path_to_nearest_food r.1 i
  let w3 := stop_avoid c.2 r.2
  if c.1 then w3 else (compute_path_to_nearest_food w3 i).2

/-- The inner `for agent in potential_targets:` loop of
`AStarOffensiveSnakeAgent.compute_attack_path` — each iteration performs the
same `compute_shortest_path` call (the loop variable is unused in the source),
returning at the first success; a failed call leaves every state unchanged. -/
def attack_inner (w : SnakeWorld) (i : ℕ) (impacts : List Pos) (infL : ℤ)
    (supL : ℕ∞) : List ℕ → Option (ℕ × SnakeWorld)
  | [] => none
  | _ :: rest =>
      let r := compute_shortest_path spA w i impacts infL supL
      match r.1 with
      | some k => some (k, r.2)
      | none => attack_inner w i impacts infL supL rest

/-- The `for impact_delay in range(1, self.attack_anticipation+1)` loop of
`compute_attack_path`: advance every surviving rival's projected head along
its current direction, drop rivals whose projected cell is obstructed, and
try an intercept path of length in
`(impact_delay - len(self), impact_delay)` to a projected cell. -/
def attack_delays (w : SnakeWorld) (i : ℕ) :
    ℕ → ℕ → List ℕ → List Pos → SnakeWorld × Bool
  | _, 0, _, _ => (updAgent w i fun a => { a with target := none }, false)
  | delay, rem + 1, targets, impacts =>
      let advanced := (targets.zip impacts).filterMap
        (fun jp =>
          let p' := get_neighbor w jp.2 (getAgent w jp.1).dir
          if get_obstacle_count w p' = 0 then some (jp.1, p') else none)
      let targets' := advanced.map Prod.fst
      let impacts' := advanced.map Prod.snd
      match attack_inner w i impacts' ((delay : ℤ) - (getAgent w i).pos.length)
          (delay : ℕ∞) targets' with
      | some r =>
          (updAgent r.2 i fun a => { a with target := some (targets'.getD r.1 0) }, true)
      | none => attack_delays w i (delay + 1) rem targets' impacts'

/-- Embedding of `AStarOffensiveSnakeAgent.compute_attack_path`. -/
def compute_attack_path (w : SnakeWorld) (i : ℕ) (targets0 : List ℕ) :
    SnakeWorld × Bool :=
  let impacts0 := targets0.map (fun j => get_head (getAgent w j))
  attack_delays w i 1 (getAgent w i).attack_anticipation targets0 impacts0

/-- Embedding of `AStarOffensiveSnakeAgent.update_path`: sticky targeting of a
surviving rival, else all surviving registered opponents; fall back to the
food-seeking behavior when no intercept is found. -/
def update_path_off (w : SnakeWorld) (i : ℕ) : SnakeWorld :=
  let a := getAgent w i
  let r :=
    match a.target with
    | some t =>
        if (getAgent w t).alive then compute_attack_path w i [t]
        else compute_attack_path w i (a.opponents.filter fun j => (getAgent w j).alive)
    | none => compute_attack_path w i (a.opponents.filter fun j => (getAgent w j).alive)
  if r.2 then r.1 else update_path_astar r.1 i

/-- Embedding of `decide_direction` (`PlayerSnakeAgent` pops one queued
request; `AbstractAISnakeAgent` replans when the cooldown hits zero or the
cached path is exhausted, then consumes one step of the cached path). -/
def decide_direction (w : SnakeWorld) (i : ℕ) : SnakeWorld :=
  let a := getAgent w i
  match a.policy with
  | .player =>
      match a.dir_requests with
      | [] => w
      | d :: rest => setAgent w i { a with dir := d, dir_requests := rest }
  | .astar | .offensive =>
      let w1 :=
        if a.cooldown = 0 ∨ a.dir_path = [] then
          let w' := if a.policy = .astar then update_path_astar w i else update_path_off w i
          updAgent w' i fun b => { b with cooldown := b.latency }
        else updAgent w i fun b => { b with cooldown := b.cooldown - 1 }
      let b := getAgent w1 i
      if b.dir_path = [] then w1
      else
        setAgent w1 i { b with x_path := b.x_path.dropLast, y_path := b.y_path.dropLast,
                               dir_path := b.dir_path.dropLast,
                               dir := b.dir_path.getLastD b.dir }

/-- Error raised by the embedding when Python would raise: dereferencing the
default `event_sender=None` (`AttributeError`). -/
inductive SimError
  | noneEventSender
deriving DecidableEq

/-- Explicit source of the nondeterminism inside `SnakeWorld.simulate` and
`SnakeWorld.reset`: the `random.randrange` draws of `_find_available_food_pos`
(as a stream indexed by how many draws happened so far), the `random.shuffle`
of the death list, and the result of the scipy-based
`furthest_voronoi_vertex` (already truncated to ints as in
`_find_agent_spawn_pos`). -/
structure Oracle where
  rand_pos : ℕ → Pos
  shuffle : List ℕ → List ℕ
  spawn_vertex : Option Pos

/-- Event dispatch: `self.event_sender.send_arena_event(e)` appends to the
sender's log, or raises when the sender is `None`. -/
def send_arena_event (w : SnakeWorld) (e : ArenaEvent) : Except SimError SnakeWorld :=
  match w.event_sender with
  | none => .error .noneEventSender
  | some log => .ok { w with event_sender := some (log ++ [e]) }

/-- Embedding of `SnakeWorld._consume_food`: despawn the food at `p` iff a food
is there and exactly one alive agent's head is at `p`. -/
def consume_food (w : SnakeWorld) (p : Pos) : Except SimError (Bool × SnakeWorld) :=
  if p ∈ w.food_pos then
    if (w.alive_agents.filter fun j => get_head (getAgent w j) = p).length = 1 then do
      let w2 ← send_arena_event { w with food_pos := w.food_pos.erase p } (.foodConsumed p)
      return (true, w2)
    else return (false, w)
  else return (false, w)

/-- Embedding of `SnakeWorld._find_available_food_pos` (max_try random draws,
stopping at the first free non-food cell); the second result is the advanced
random-stream index. -/
def find_available_food_pos (o : Oracle) (w : SnakeWorld) :
    ℕ → ℕ → Option Pos × ℕ
  | 0, k => (none, k)
  | t + 1, k =>
      let p := o.rand_pos k
      if w.obstacle_count p = 0 ∧ p ∉ w.food_pos then (some p, k + 1)
      else find_available_food_pos o w t (k + 1)

/-- The loop body of `SnakeWorld._spawn_missing_food` with a fixed iteration
count (Python's `range(self.initial_n_food - len(self.food_pos))` is computed
once at loop entry). -/
def spawn_food_go (o : Oracle) : ℕ → SnakeWorld → ℕ → Except SimError (SnakeWorld × ℕ)
  | 0, w, k => .ok (w, k)
  | n + 1, w, k =>
      match find_available_food_pos o w 20 k with
      | (none, k') => .ok (w, k')
      | (some p, k') => do
          let w2 ← send_arena_event { w with food_pos := w.food_pos ++ [p] } (.foodCreated p)
          spawn_food_go o n w2 k'

/-- Embedding of `SnakeWorld._spawn_missing_food`. -/
def spawn_missing_food (o : Oracle) (w : SnakeWorld) (k : ℕ) :
    Except SimError (SnakeWorld × ℕ) :=
  spawn_food_go o (w.initial_n_food - w.food_pos.length) w k

/-- Embedding of `SnakeWorld._kill_agents`: move each dead agent from
`alive_agents` (removing the first occurrence, Python `list.remove`) to the
back of the `dead_agents` queue. -/
def kill_agents (w : SnakeWorld) (deads : List ℕ) : SnakeWorld :=
  deads.foldl
    (fun wa j =>
      { wa with alive_agents := wa.alive_agents.erase j,
                dead_agents := wa.dead_agents ++ [j] })
    w

/-- Embedding of `SnakeWorld._find_agent_spawn_pos` with the scipy Voronoi
construction abstracted by the oracle: the chosen vertex (if any) is used only
if its cell is unobstructed. -/
def find_agent_spawn_pos (o : Oracle) (w : SnakeWorld) : Option Pos :=
  match o.spawn_vertex with
  | none => none
  | some v => if w.obstacle_count v = 0 then some v else none

/-- Embedding of `SnakeWorld._respawn_dead_agent`: return if the dead queue is
empty; decrement a positive cooldown; otherwise attempt one placement, and on
success reset the oldest dead agent onto `spawn_length` copies of the spawn
cell facing `toward_center`, append it to the alive list, bump the counter by
the body length, and add back the full configured cooldown. -/
def respawn_dead_agent (o : Oracle) (w : SnakeWorld) : SnakeWorld :=
  match w.dead_agents with
  | [] => w
  | j :: restDead =>
      if 0 < w.respawn_cooldown then
        { w with respawn_cooldown := w.respawn_cooldown - 1 }
      else
        match find_agent_spawn_pos o w with
        | none => w
        | some v =>
            let a := getAgent w j
            let L := a.initial_pos.length
            let d := toward_center v.1 v.2 w.width w.height
            let w2 := agentReset { w with dead_agents := restDead } j
              (some (List.replicate L v)) (some d)
            let w3 := { w2 with alive_agents := w2.alive_agents ++ [j] }
            let w4 := incr_obstacle_count w3 v (L : ℤ)
            { w4 with respawn_cooldown := w4.respawn_cooldown + w4.initial_respawn_cooldown }

/-- Embedding of `SnakeWorld.reset`: zero the grid, clear and refill the food,
restore the cooldown, move every dead agent back to alive, and reset each
alive agent, re-counting its cells. -/
def world_reset (o : Oracle) (w : SnakeWorld) (k : ℕ) :
    Except SimError (SnakeWorld × ℕ) := do
  let w1 := { w with obstacle_count := fun _ => 0, food_pos := [] }
  let (w3, k') ← spawn_missing_food o w1 k
  let w4 := { w3 with respawn_cooldown := w3.initial_respawn_cooldown,
                      alive_agents := w3.alive_agents ++ w3.dead_agents,
                      dead_agents := [] }
  let w5 := w4.alive_agents.foldl
    (fun wa j =>
      let wb := agentReset wa j none none
      ((getAgent wb j).pos).foldl (fun wc p => incr_obstacle_count wc p 1) wb)
    w4
  return (w5, k')

/-- Decide phase of `SnakeWorld.simulate`: every alive agent decides, and its
direction is recorded immediately after its own decision. -/
def decide_phase (w : SnakeWorld) : SnakeWorld × List Dir :=
  w.alive_agents.foldl
    (fun acc j =>
      let w' := decide_direction acc.1 j
      (w', acc.2 ++ [(getAgent w' j).dir]))
    (w, [])

/-- Move phase of `SnakeWorld.simulate`: apply every decided direction. -/
def move_phase (w : SnakeWorld) (dirs : List Dir) : SnakeWorld :=
  (w.alive_agents.zip dirs).foldl (fun wa jd => agentMove wa jd.1 jd.2) w

/-- Self-collision phase of `SnakeWorld.simulate`: compute every cut length
against the post-move grid, then apply all the cuts. -/
def cut_phase (w : SnakeWorld) : SnakeWorld :=
  let cuts := w.alive_agents.map (fun j => check_self_collision w j)
  (w.alive_agents.zip cuts).foldl (fun wa jc => agentCut wa jc.1 jc.2) w

/-- Food phase of `SnakeWorld.simulate`: try to consume a food under every
alive agent's head, collecting the agents that ate. -/
def food_phase (w : SnakeWorld) : Except SimError (SnakeWorld × List ℕ) :=
  w.alive_agents.foldlM
    (fun (acc : SnakeWorld × List ℕ) j => do
      let r ← consume_food acc.1 (get_head (getAgent acc.1 j))
      return (r.2, if r.1 then acc.2 ++ [j] else acc.2))
    (w, [])

/-- Growth phase of `SnakeWorld.simulate`. -/
def grow_phase (w : SnakeWorld) (growing : List ℕ) : SnakeWorld :=
  growing.foldl (fun wa j => agentGrow wa j) w

/-- Cross-agent collision phase of `SnakeWorld.simulate`: in list order, each
agent whose `collides_another()` is truthy dies on the spot (decrementing its
cells) and is appended to the death list. -/
def kill_phase (w : SnakeWorld) : SnakeWorld × List ℕ :=
  w.alive_agents.foldl
    (fun acc j => if collides_another acc.1 j then (agentDie acc.1 j, acc.2 ++ [j]) else acc)
    (w, [])

/-- Embedding of `SnakeWorld.simulate`: the fixed phase order decide, move,
self-collision, food and growth, cross-agent collision (with the death list
shuffled by the oracle before `_kill_agents`), food respawn, agent respawn;
returns the agents which died during the step. -/
def simulate (o : Oracle) (w : SnakeWorld) (k : ℕ) :
    Except SimError (List ℕ × SnakeWorld × ℕ) := do
  let dp := decide_phase w
  let w2 := move_phase dp.1 dp.2
  let w3 := cut_phase w2
  let (w4, growing) ← food_phase w3
  let w5 := grow_phase w4 growing
  let kp := kill_phase w5
  let deads := o.shuffle kp.2
  let w7 := kill_agents kp.1 deads
  let (w8, k') ← spawn_missing_food o w7 k
  let w9 := respawn_dead_agent o w8
  return (deads, w9, k')

/-- Embedding of the prototype `GridGraph` of `src/a_star.py`: a toroidal grid
whose `vertices` array marks free positions with `True`. -/
structure GridGraph where
  width : ℕ
  height : ℕ
  vertices : Pos → Bool

/-- Embedding of `GridGraph.iter_neighbors`: the wrapped up, down, left, right
neighbors that are free, in the source's yield order. -/
def gg_neighbors (g : GridGraph) (p : Pos) : List Pos :=
  let un : Pos := (p.1, (p.2 - 1) % (g.height : ℤ))
  let dn : Pos := (p.1, (p.2 + 1) % (g.height : ℤ))
  let ln : Pos := ((p.1 - 1) % (g.width : ℤ), p.2)
  let rn : Pos := ((p.1 + 1) % (g.width : ℤ), p.2)
  (if g.vertices un then [un] else []) ++ (if g.vertices dn then [dn] else []) ++
    (if g.vertices ln then [ln] else []) ++ (if g.vertices rn then [rn] else [])

/-- Embedding of `_minimizing_cost_position` of `src/a_star.py`: the frontier
position minimizing `dist + heuristic`, ties broken by lower heuristic, first
seen wins (the Python set's iteration order is modelled by the list order);
`none` models the `NO_PATH_FOUND` sentinel. -/
def minCostPos (ps : List Pos) (dist : Pos → ℕ∞) (heu : Pos → ℕ) : Option Pos :=
  (ps.foldl
    (fun (acc : Option Pos × ℕ∞ × ℕ∞) p =>
      let c : ℕ∞ := dist p + (heu p : ℕ∞)
      if c < acc.2.1 then (some p, c, (heu p : ℕ∞))
      else if c = acc.2.1 ∧ ((heu p : ℕ∞)) < acc.2.2 then (some p, c, (heu p : ℕ∞))
      else acc)
    (none, ⊤, ⊤)).1

/-- Search state of `_shortest_path` of `src/a_star.py`: `np.inf`-initialized
distances as `ℕ∞`, the (position-valued) parent array — whose `np.empty`
garbage initialization is modelled by the identity — the opened set as a list
in insertion order, the closed set, and the current position. -/
structure SAState where
  dist : Pos → ℕ∞
  par : Pos → Pos
  opened : List Pos
  closed : List Pos
  current : Pos

/-- Neighbor relaxation of one iteration of `_shortest_path`'s while loop. -/
def saRelax (g : GridGraph) (st : SAState) : SAState :=
  (gg_neighbors g st.current).foldl
    (fun s nb =>
      if s.dist st.current + 1 < s.dist nb then
        { s with dist := Function.update s.dist nb (s.dist st.current + 1),
                 par := Function.update s.par nb st.current,
                 opened := if nb ∈ s.opened then s.opened else s.opened ++ [nb] }
      else s)
    st

/-- The while loop of `_shortest_path` of `src/a_star.py`, fuelled (`none`
models a non-terminating run; it is proved below that the canonical fuel
always suffices).  A current node found in the closed set skips the relaxation
(the `if current in closed_positions: continue` guard). -/
def saLoop (g : GridGraph) (dst : Pos) (heu : Pos → ℕ) :
    ℕ → SAState → Option SAState
  | 0, _ => none
  | fuel + 1, st =>
      if st.current = dst then some st
      else
        let st1 := if st.current ∈ st.closed then st else saRelax g st
        let st2 := { st1 with
                     opened := st1.opened.erase st.current,
                     closed := if st.current ∈ st1.closed then st1.closed
                               else st.current :: st1.closed }
        match minCostPos st2.opened st2.dist heu with
        | none => some st2
        | some nxt => saLoop g dst heu fuel { st2 with current := nxt }

/-- Embedding of `_get_path` of `src/a_star.py`: walk the parent positions
backward from `cur` to the source, collecting coordinates destination-first;
fuelled (`none` models a walk that never reaches the source). -/
def saGetPath (src : Pos) (par : Pos → Pos) : ℕ → Pos → Option (List ℤ × List ℤ)
  | 0, _ => none
  | fuel + 1, cur =>
      if cur = src then some ([], [])
      else
        match saGetPath src par fuel (par cur) with
        | none => none
        | some r => some (cur.1 :: r.1, cur.2 :: r.2)

/-- In-bounds cells of the prototype grid, as a finite set. -/
def saCells (g : GridGraph) : Finset Pos :=
  (Finset.range g.width ×ˢ Finset.range g.height).image fun q => ((q.1 : ℤ), (q.2 : ℤ))

/-- Universe of positions the search can ever touch: the grid cells plus the
caller-supplied source. -/
def saUniv (g : GridGraph) (src : Pos) : Finset Pos := insert src (saCells g)

/-- Canonical fuel for `saLoop`, strictly dominating its loop measure. -/
def saFuel (g : GridGraph) (src : Pos) : ℕ :=
  ((saUniv g src).card + 1) * ((saUniv g src).card + 2) + 1

/-- Embedding of `_shortest_path` of `src/a_star.py` run with the canonical
fuels, returning the final search state together with the reconstructed
`(path_x, path_y)`. -/
def sa_shortest_path (g : GridGraph) (src dst : Pos) (heu : Pos → ℕ) :
    Option (SAState × List ℤ × List ℤ) :=
  let st0 : SAState :=
    { dist := Function.update (fun _ => (⊤ : ℕ∞)) src 0, par := fun p => p,
      opened := [src], closed := [], current := src }
  match saLoop g dst heu (saFuel g src) st0 with
  | none => none
  | some st =>
      match saGetPath src st.par (saFuel g src + 2) st.current with
      | none => none
      | some p => some (st, p)

/-- One step of the reachable-set closure: add every free neighbor. -/
def saStep (g : GridGraph) (s : Finset Pos) : Finset Pos :=
  s ∪ s.biUnion fun p => (gg_neighbors g p).toFinset

/-- The set of positions reachable from `src` along free neighbors (the
prototype searcher can only ever assign finite distances inside it). -/
def saReach (g : GridGraph) (src : Pos) : Finset Pos :=
  (saStep g)^[g.width * g.height + 1] {src}

/-! Concrete worlds, agents and oracles used as test inputs. -/

/-- Deterministic oracle: constant random stream, identity shuffle, no Voronoi
vertex. -/
def oId : Oracle := { rand_pos := fun _ => (0, 0), shuffle := id, spawn_vertex := none }

/-- Projection of `simulate`: the surviving body of agent `i`. -/
def simAgentPos (o : Oracle) (w : SnakeWorld) (k i : ℕ) : Option (List Pos) :=
  match simulate o w k with
  | .ok r => some ((getAgent r.2.1 i).pos)
  | .error _ => none

/-- Projection of `simulate`: the returned death list. -/
def simDeads (o : Oracle) (w : SnakeWorld) (k : ℕ) : Option (List ℕ) :=
  match simulate o w k with
  | .ok r => some r.1
  | .error _ => none

/-- Projection of `simulate`: the raised error, if any. -/
def simError (o : Oracle) (w : SnakeWorld) (k : ℕ) : Option SimError :=
  match simulate o w k with
  | .ok _ => none
  | .error e => some e

/-- Length-3 manual snake for the self-collision scenario: body (tail to head)
`(1,2), (2,2), (2,3)` facing up, so its move lands the head on `(2,2)`, the
body cell at index 1 from the head. -/
def cw6agent : Agent :=
  { (default : Agent) with
    policy := .player,
    initial_pos := [(1,2),(2,2),(2,3)],
    initial_dir := UP,
    pos := [(1,2),(2,2),(2,3)],
    alive := true,
    dir := UP }

/-- A 5×5 arena holding only `cw6agent`. -/
def cw6 : SnakeWorld :=
  { width := 5, height := 5, initial_n_food := 0, initial_respawn_cooldown := ⊤,
    obstacle_count := fun p => if p = (1,2) ∨ p = (2,2) ∨ p = (2,3) then 1 else 0,
    food_pos := [], respawn_cooldown := ⊤, alive_agents := [0], dead_agents := [],
    agents := [cw6agent], event_sender := none }

/-- First length-4 manual snake of the head-to-head scenario, heading right
into `(3,3)`. -/
def c1agentA : Agent :=
  { (default : Agent) with
    policy := .player,
    initial_pos := [(6,3),(0,3),(1,3),(2,3)],
    initial_dir := RIGHT,
    pos := [(6,3),(0,3),(1,3),(2,3)],
    alive := true,
    dir := RIGHT }

/-- Second length-4 manual snake of the head-to-head scenario, heading down
into `(3,3)`. -/
def c1agentB : Agent :=
  { (default : Agent) with
    policy := .player,
    initial_pos := [(3,6),(3,0),(3,1),(3,2)],
    initial_dir := DOWN,
    pos := [(3,6),(3,0),(3,1),(3,2)],
    alive := true,
    dir := DOWN }

/-- A 7×7 arena in which both snakes' decided moves land on the free cell
`(3,3)` in the same tick. -/
def cw1 : SnakeWorld :=
  { width := 7, height := 7, initial_n_food := 0, initial_respawn_cooldown := ⊤,
    obstacle_count := fun p =>
      if p ∈ ([(6,3),(0,3),(1,3),(2,3),(3,6),(3,0),(3,1),(3,2)] : List Pos) then 1 else 0,
    food_pos := [], respawn_cooldown := ⊤, alive_agents := [0, 1], dead_agents := [],
    agents := [c1agentA, c1agentB], event_sender := none }

/-- Length-4 AI snake with head `(1,0)`, used against a destination at exact
shortest-path distance 2. -/
def c3agent : Agent :=
  { (default : Agent) with
    policy := .astar,
    pos := [(0,0),(0,1),(1,1),(1,0)],
    alive := true,
    dir := RIGHT,
    heuristic_kind := .euclid }

/-- A 6×6 arena holding only `c3agent`; the cell `(3,0)` is free and exactly
two steps from the agent's head. -/
def cw3 : SnakeWorld :=
  { width := 6, height := 6, initial_n_food := 0, initial_respawn_cooldown := ⊤,
    obstacle_count := fun p => if p ∈ ([(0,0),(0,1),(1,1),(1,0)] : List Pos) then 1 else 0,
    food_pos := [], respawn_cooldown := ⊤, alive_agents := [0], dead_agents := [],
    agents := [c3agent], event_sender := none }

/-- Manual rival of the decide-order scenario: currently facing right with a
queued request to turn up. -/
def c5P : Agent :=
  { (default : Agent) with
    policy := .player,
    pos := [(2,2),(3,2)],
    alive := true,
    dir := RIGHT,
    dir_requests := [UP] }

/-- Offensive agent of the decide-order scenario, watching the manual rival. -/
def c5O : Agent :=
  { (default : Agent) with
    policy := .offensive,
    pos := [(4,1),(4,0)],
    alive := true,
    dir := UP,
    heuristic_kind := .euclid,
    latency := 0,
    cooldown := 0,
    caution_radius := 0,
    attack_anticipation := 2,
    target := none,
    opponents := [0] }

/-- The decide-order arena with the manual rival processed first. -/
def cw5base : SnakeWorld :=
  { width := 7, height := 7, initial_n_food := 0, initial_respawn_cooldown := ⊤,
    obstacle_count := fun p => if p ∈ ([(2,2),(3,2),(4,1),(4,0)] : List Pos) then 1 else 0,
    food_pos := [], respawn_cooldown := ⊤, alive_agents := [0, 1], dead_agents := [],
    agents := [c5P, c5O], event_sender := none }

/-- The same arena with the offensive agent processed first. -/
def cw5swap : SnakeWorld := { cw5base with alive_agents := [1, 0] }

/-- Manual snake one step away from a food cell, for the `None` event-sender
scenario. -/
def c9agent : Agent :=
  { (default : Agent) with
    policy := .player,
    initial_pos := [(1,3),(2,3)],
    initial_dir := RIGHT,
    pos := [(1,3),(2,3)],
    alive := true,
    dir := RIGHT }

/-- A 7×7 arena with `event_sender = none` whose only snake steps onto the food
at `(3,3)` this tick. -/
def cw9 : SnakeWorld :=
  { width := 7, height := 7, initial_n_food := 1, initial_respawn_cooldown := ⊤,
    obstacle_count := fun p => if p = (1,3) ∨ p = (2,3) then 1 else 0,
    food_pos := [(3,3)], respawn_cooldown := ⊤, alive_agents := [0], dead_agents := [],
    agents := [c9agent], event_sender := none }

/-- An arena with an empty dead queue and a positive respawn cooldown. -/
def cw8 : SnakeWorld :=
  { width := 5, height := 5, initial_n_food := 0, initial_respawn_cooldown := 10,
    obstacle_count := fun _ => 0,
    food_pos := [], respawn_cooldown := 5, alive_agents := [], dead_agents := [],
    agents := [], event_sender := none }

/-- A dead two-cell manual snake awaiting respawn. -/
def c10agent : Agent :=
  { (default : Agent) with
    policy := .player,
    initial_pos := [(1,1),(1,2)],
    initial_dir := RIGHT,
    pos := [],
    alive := false,
    dir := RIGHT }

/-- An arena ready to respawn `c10agent` this tick. -/
def cw10 : SnakeWorld :=
  { width := 5, height := 5, initial_n_food := 0, initial_respawn_cooldown := 10,
    obstacle_count := fun _ => 0,
    food_pos := [], respawn_cooldown := 0, alive_agents := [], dead_agents := [0],
    agents := [c10agent], event_sender := none }

/-- Oracle whose Voronoi construction yields the vertex `(2,2)`. -/
def o10 : Oracle := { rand_pos := fun _ => (0, 0), shuffle := id, spawn_vertex := some (2, 2) }

/-- Manual snake whose head already sits on the food cell `(3,3)`. -/
def c9bagent : Agent :=
  { (default : Agent) with
    policy := .player,
    initial_pos := [(2,3),(3,3)],
    initial_dir := RIGHT,
    pos := [(2,3),(3,3)],
    alive := true,
    dir := RIGHT }

/-- An arena with `event_sender = none` in which exactly one alive head sits on
the food at `(3,3)`. -/
def cw9b : SnakeWorld :=
  { width := 7, height := 7, initial_n_food := 1, initial_respawn_cooldown := ⊤,
    obstacle_count := fun p => if p = (2,3) ∨ p = (3,3) then 1 else 0,
    food_pos := [(3,3)], respawn_cooldown := ⊤, alive_agents := [0], dead_agents := [],
    agents := [c9bagent], event_sender := none }

/-- A length-3 snake just after moving its head onto its own body cell
`(2,2)` (the deque is `[(2,2),(2,3),(2,2)]`, so the head cell's counter is 2). -/
def cw6bagent : Agent :=
  { (default : Agent) with
    policy := .player,
    initial_pos := [(1,2),(2,2),(2,3)],
    initial_dir := UP,
    pos := [(2,2),(2,3),(2,2)],
    alive := true,
    dir := UP }

/-- The post-move arena of the self-collision scenario. -/
def cw6b : SnakeWorld :=
  { width := 5, height := 5, initial_n_food := 0, initial_respawn_cooldown := ⊤,
    obstacle_count := fun p => if p = (2,2) then 2 else if p = (2,3) then 1 else 0,
    food_pos := [], respawn_cooldown := ⊤, alive_agents := [0], dead_agents := [],
    agents := [cw6bagent], event_sender := none }

/-- Pointwise body load: the number of body cells (counting duplicates) that
the agents listed in `l` hold at the cell `p`. -/
def bodySum (l : List ℕ) (w : SnakeWorld) (p : Pos) : ℤ :=
  (l.map fun i => (((getAgent w i).pos.count p : ℕ) : ℤ)).sum

/-- Pointwise grid conservation: every cell's obstacle counter equals the
number of alive body cells lying on it. -/
def conserved (w : SnakeWorld) : Prop :=
  ∀ p, w.obstacle_count p = bodySum w.alive_agents w p

/-- A cell lies on the `width × height` board. -/
abbrev inGrid (w : SnakeWorld) (p : Pos) : Prop :=
  0 ≤ p.1 ∧ p.1 < (w.width : ℤ) ∧ 0 ≤ p.2 ∧ p.2 < (w.height : ℤ)

/-- Structural well-formedness of an arena state (true of every state the game
constructs): the alive and dead queues share no index and hold only registered
agents, alive snakes are non-empty, and the board is non-degenerate. -/
abbrev wfWorld (w : SnakeWorld) : Prop :=
  (w.alive_agents ++ w.dead_agents).Nodup ∧
    (∀ i ∈ w.alive_agents ++ w.dead_agents, i < w.agents.length) ∧
    (∀ i ∈ w.alive_agents, (getAgent w i).pos ≠ []) ∧
    0 < w.width ∧ 0 < w.height

/-- Every alive body cell lies on the board. -/
abbrev cellsInGrid (w : SnakeWorld) : Prop :=
  ∀ i ∈ w.alive_agents, ∀ p ∈ (getAgent w i).pos, inGrid w p

/-- Every alive agent's remembered popped tail lies on the board. -/
abbrev tailsInGrid (w : SnakeWorld) : Prop :=
  ∀ i ∈ w.alive_agents, ∀ t, (getAgent w i).last_tail_pos = some t → inGrid w t

/-- The board's cells as a finite set. -/
def gridCells (w : SnakeWorld) : Finset Pos :=
  (Finset.range w.width ×ˢ Finset.range w.height).image fun q => ((q.1 : ℤ), (q.2 : ℤ))

/-- Total obstacle mass over the whole board. -/
def sumGrid (w : SnakeWorld) : ℤ := (gridCells w).sum fun p => w.obstacle_count p

/-- Total body length of the alive agents. -/
def aliveLen (w : SnakeWorld) : ℤ :=
  (w.alive_agents.map fun i => (((getAgent w i).pos.length : ℕ) : ℤ)).sum

/-- Projection of `simulate`: the post-tick world (the pre-tick world if the
tick raised). -/
def simWorld (o : Oracle) (w : SnakeWorld) (k : ℕ) : SnakeWorld :=
  match simulate o w k with
  | .ok r => r.2.1
  | .error _ => w

/-- Length-2 manual snake on a 3×3 board for the conservation scenario. -/
def c2agent : Agent :=
  { (default : Agent) with
    policy := .player,
    initial_pos := [(0,1),(1,1)],
    initial_dir := RIGHT,
    pos := [(0,1),(1,1)],
    alive := true,
    dir := RIGHT }

/-- A 3×3 arena holding only `c2agent`. -/
def cw2 : SnakeWorld :=
  { width := 3, height := 3, initial_n_food := 0, initial_respawn_cooldown := ⊤,
    obstacle_count := fun p => if p = (0,1) ∨ p = (1,1) then 1 else 0,
    food_pos := [], respawn_cooldown := ⊤, alive_agents := [0], dead_agents := [],
    agents := [c2agent], event_sender := none }

/-- A 2x2 prototype grid whose only free vertex is the origin, so that the
opposite corner is unreachable from it. -/
def cw7g : GridGraph :=
  { width := 2, height := 2, vertices := fun p => decide (p = (0, 0)) }

/-- Proof invariant of the `_shortest_path` while loop (`src/a_star.py`): the
current node is an in-grid member of the opened set with a finite distance,
the opened and closed sets hold in-grid nodes without duplicates, every opened
node has a finite distance, parent links strictly decrease the distance, only
the source has distance zero, and every finite distance is at most one more
than the number of closed nodes. -/
def saInv (g : GridGraph) (src : Pos) (st : SAState) : Prop :=
  st.current ∈ saCells g ∧
  st.current ∈ st.opened ∧
  st.dist st.current < ⊤ ∧
  st.opened.Nodup ∧
  (∀ p ∈ st.opened, p ∈ saCells g ∧ st.dist p < ⊤) ∧
  st.closed.Nodup ∧
  (∀ p ∈ st.closed, p ∈ saCells g) ∧
  (∀ n, n ≠ src → st.dist n < ⊤ → st.dist (st.par n) < st.dist n) ∧
  (∀ n, st.dist n = 0 → n = src) ∧
  (∀ n, st.dist n < ⊤ → st.dist n ≤ (st.closed.length : ℕ∞) + 1)

/-- Termination measure of the `_shortest_path` while loop: nodes still to be
closed, weighted, plus the size of the opened set. -/
def saMeasure (g : GridGraph) (src : Pos) (st : SAState) : ℕ :=
  ((saUniv g src).card - st.closed.length) * ((saUniv g src).card + 2) +
    st.opened.length

/-! General lemmas about the embedding. -/

lemma getAgent_setAgent_self (w : SnakeWorld) (i : ℕ) (a : Agent)
    (h : i < w.agents.length) : getAgent (setAgent w i a) i = a := by
  simp [getAgent, setAgent, List.getD_eq_getElem?_getD, List.getElem?_set_self, h]

lemma setAgent_agents_length (w : SnakeWorld) (i : ℕ) (a : Agent) :
    (setAgent w i a).agents.length = w.agents.length := by
  simp [setAgent]

lemma incr_obstacle_count_apply (w : SnakeWorld) (p : Pos) (k : ℤ) (q : Pos) :
    (incr_obstacle_count w p k).obstacle_count q =
      if q = p then w.obstacle_count q + k else w.obstacle_count q := by
  simp only [incr_obstacle_count, Function.update_apply]
  split <;> simp_all

lemma agentReset_alive_agents (w : SnakeWorld) (i : ℕ) (p? : Option (List Pos))
    (d? : Option Dir) : (agentReset w i p? d?).alive_agents = w.alive_agents := by
  cases h : (getAgent w i).policy <;> simp [agentReset, h, setAgent]

lemma agentReset_dead_agents (w : SnakeWorld) (i : ℕ) (p? : Option (List Pos))
    (d? : Option Dir) : (agentReset w i p? d?).dead_agents = w.dead_agents := by
  cases h : (getAgent w i).policy <;> simp [agentReset, h, setAgent]

lemma agentReset_obstacle_count (w : SnakeWorld) (i : ℕ) (p? : Option (List Pos))
    (d? : Option Dir) : (agentReset w i p? d?).obstacle_count = w.obstacle_count := by
  cases h : (getAgent w i).policy <;> simp [agentReset, h, setAgent]

lemma agentReset_respawn_cooldown (w : SnakeWorld) (i : ℕ) (p? : Option (List Pos))
    (d? : Option Dir) : (agentReset w i p? d?).respawn_cooldown = w.respawn_cooldown := by
  cases h : (getAgent w i).policy <;> simp [agentReset, h, setAgent]

lemma agentReset_agents_length (w : SnakeWorld) (i : ℕ) (p? : Option (List Pos))
    (d? : Option Dir) : (agentReset w i p? d?).agents.length = w.agents.length := by
  cases h : (getAgent w i).policy <;> simp [agentReset, h, setAgent]

lemma agentReset_initial_respawn_cooldown (w : SnakeWorld) (i : ℕ)
    (p? : Option (List Pos)) (d? : Option Dir) :
    (agentReset w i p? d?).initial_respawn_cooldown = w.initial_respawn_cooldown := by
  cases h : (getAgent w i).policy <;> simp [agentReset, h, setAgent]

lemma agentReset_pos (w : SnakeWorld) (i : ℕ) (p? : Option (List Pos))
    (d? : Option Dir) (h : i < w.agents.length) :
    (getAgent (agentReset w i p? d?) i).pos = (p?.getD (getAgent w i).initial_pos).reverse := by
  cases hp : (getAgent w i).policy <;> simp [agentReset, hp, getAgent_setAgent_self, h]

lemma agentReset_dir (w : SnakeWorld) (i : ℕ) (p? : Option (List Pos))
    (d? : Option Dir) (h : i < w.agents.length) :
    (getAgent (agentReset w i p? d?) i).dir = d?.getD (getAgent w i).initial_dir := by
  cases hp : (getAgent w i).policy <;> simp [agentReset, hp, getAgent_setAgent_self, h]

lemma respawn_success_eq (o : Oracle) (w : SnakeWorld) (j : ℕ) (rest : List ℕ) (v : Pos)
    (h : w.dead_agents = j :: rest) (hzero : w.respawn_cooldown = 0)
    (hsome : find_agent_spawn_pos o w = some v) :
    respawn_dead_agent o w =
      (fun w4 : SnakeWorld =>
          { w4 with respawn_cooldown := w4.respawn_cooldown + w4.initial_respawn_cooldown })
        (incr_obstacle_count
          { agentReset { w with dead_agents := rest } j
              (some (List.replicate (getAgent w j).initial_pos.length v))
              (some (toward_center v.1 v.2 w.width w.height)) with
            alive_agents := (agentReset { w with dead_agents := rest } j
              (some (List.replicate (getAgent w j).initial_pos.length v))
              (some (toward_center v.1 v.2 w.width w.height))).alive_agents ++ [j] }
          v ((getAgent w j).initial_pos.length : ℤ)) := by
  have hnot : ¬ 0 < w.respawn_cooldown := by simp [hzero]
  simp only [respawn_dead_agent, h, if_neg hnot, hsome]

/-! Claim theorems. -/

/-- Claim C8 (amended): in the agent-respawn phase, the cooldown is decremented
when it is positive **and the dead queue is non-empty** (with an empty dead
queue the phase returns immediately, leaving the positive cooldown untouched);
when it is zero and the dead queue is non-empty one respawn is attempted — on
success the oldest dead agent moves to the alive list and the cooldown is
reset to the full configured interval, and on failure (or with an empty dead
queue) the state is completely unchanged, so the attempt repeats next tick
with no cooldown penalty. -/
theorem respawn_phase_behavior (o : Oracle) (w : SnakeWorld) :
    (w.dead_agents = [] → respawn_dead_agent o w = w) ∧
    (∀ j rest, w.dead_agents = j :: rest → 0 < w.respawn_cooldown →
      respawn_dead_agent o w = { w with respawn_cooldown := w.respawn_cooldown - 1 }) ∧
    (∀ j rest, w.dead_agents = j :: rest → w.respawn_cooldown = 0 →
      find_agent_spawn_pos o w = none → respawn_dead_agent o w = w) ∧
    (∀ j rest v, w.dead_agents = j :: rest → w.respawn_cooldown = 0 →
      find_agent_spawn_pos o w = some v →
      (respawn_dead_agent o w).respawn_cooldown = w.initial_respawn_cooldown ∧
      (respawn_dead_agent o w).dead_agents = rest ∧
      (respawn_dead_agent o w).alive_agents = w.alive_agents ++ [j]) := by
  refine ⟨fun h => by simp [respawn_dead_agent, h], ?_, ?_, ?_⟩
  · intro j rest h hpos
    simp [respawn_dead_agent, h, hpos]
  · intro j rest h hzero hnone
    have hnot : ¬ 0 < w.respawn_cooldown := by simp [hzero]
    simp [respawn_dead_agent, h, if_neg hnot, hnone]
  · intro j rest v h hzero hsome
    rw [respawn_success_eq o w j rest v h hzero hsome]
    refine ⟨?_, ?_, ?_⟩
    · simp [incr_obstacle_count, agentReset_respawn_cooldown,
        agentReset_initial_respawn_cooldown, hzero]
    · simp [incr_obstacle_count, agentReset_dead_agents]
    · simp [incr_obstacle_count, agentReset_alive_agents]

/-- Witness for `respawn_phase_behavior` at the concrete arena `cw10`. -/
theorem respawn_phase_behavior_witness :
    cw10.dead_agents = [0] ∧ cw10.respawn_cooldown = 0 ∧
      find_agent_spawn_pos o10 cw10 = some (2, 2) ∧
      (respawn_dead_agent o10 cw10).respawn_cooldown = cw10.initial_respawn_cooldown ∧
      (respawn_dead_agent o10 cw10).dead_agents = [] ∧
      (respawn_dead_agent o10 cw10).alive_agents = [0] :=
  ⟨rfl, rfl, by decide,
    ((respawn_phase_behavior o10 cw10).2.2.2 0 [] (2, 2) rfl rfl (by decide)).1,
    ((respawn_phase_behavior o10 cw10).2.2.2 0 [] (2, 2) rfl rfl (by decide)).2.1,
    ((respawn_phase_behavior o10 cw10).2.2.2 0 [] (2, 2) rfl rfl (by decide)).2.2⟩

/-- Counterexample to claim C8 as stated: with an empty dead queue the phase
does not decrement a positive cooldown (here it stays 5 instead of dropping
to 4). -/
theorem respawn_no_decrement_empty_queue :
    0 < cw8.respawn_cooldown ∧ cw8.dead_agents = [] ∧
      (respawn_dead_agent oId cw8).respawn_cooldown ≠ cw8.respawn_cooldown - 1 := by
  refine ⟨by decide, rfl, ?_⟩
  have h : respawn_dead_agent oId cw8 = cw8 := by rfl
  rw [h]
  decide

/-- Claim C9: with the default `event_sender=None`, `reset()` errors whenever
it would create a food (always, when the configured food count is positive),
`_consume_food` errors whenever a food is actually consumed, and a concrete
`simulate()` in which a snake eats a food errors as well — a non-`None` sender
is a precondition of the public operations whenever food can spawn or be
eaten. -/
theorem none_event_sender_faults :
    (∀ (o : Oracle) (w : SnakeWorld) (k : ℕ), w.event_sender = none →
      0 < w.initial_n_food → world_reset o w k = .error .noneEventSender) ∧
    (∀ (w : SnakeWorld) (p : Pos), w.event_sender = none → p ∈ w.food_pos →
      (w.alive_agents.filter fun j => get_head (getAgent w j) = p).length = 1 →
      consume_food w p = .error .noneEventSender) ∧
    simError oId cw9 0 = some .noneEventSender := by
  refine ⟨?_, ?_, by decide⟩
  · intro o w k hs hn
    obtain ⟨n, hn'⟩ : ∃ n, w.initial_n_food = n + 1 :=
      ⟨w.initial_n_food - 1, by omega⟩
    have h20 : (20 : ℕ) = 19 + 1 := rfl
    simp only [world_reset, spawn_missing_food, List.length_nil, Nat.sub_zero, hn', h20,
      spawn_food_go, find_available_food_pos, List.not_mem_nil, not_false_iff, and_true,
      if_pos rfl, send_arena_event, hs]
    rfl
  · intro w p hs hmem hcount
    simp only [consume_food, if_pos hmem, hcount, if_pos rfl, send_arena_event, hs]
    rfl

/-- Witness for `none_event_sender_faults` at the concrete arenas `cw9`,
`cw9b`. -/
theorem none_event_sender_faults_witness :
    world_reset oId cw9 0 = .error .noneEventSender ∧
      consume_food cw9b (3, 3) = .error .noneEventSender :=
  ⟨none_event_sender_faults.1 oId cw9 0 rfl (by decide),
   none_event_sender_faults.2.1 cw9b (3, 3) rfl (by decide) (by decide)⟩

/-- Claim C10: a successful respawn gives the agent a body of
`get_initial_length()` copies of the chosen spawn cell, adds the full body
length to that cell's obstacle counter, and faces the agent in the
`toward_center` quadrant direction of that cell. -/
theorem respawn_success_shape (o : Oracle) (w : SnakeWorld) (j : ℕ) (rest : List ℕ)
    (v : Pos) (h1 : w.dead_agents = j :: rest) (h2 : w.respawn_cooldown = 0)
    (h3 : find_agent_spawn_pos o w = some v) (h5 : j < w.agents.length) :
    (getAgent (respawn_dead_agent o w) j).pos =
        List.replicate (getAgent w j).initial_pos.length v ∧
      (respawn_dead_agent o w).obstacle_count v =
        w.obstacle_count v + (getAgent w j).initial_pos.length ∧
      (getAgent (respawn_dead_agent o w) j).dir =
        toward_center v.1 v.2 w.width w.height := by
  have hbound : j < ({ w with dead_agents := rest } : SnakeWorld).agents.length := h5
  have hred : getAgent (respawn_dead_agent o w) j =
      getAgent (agentReset { w with dead_agents := rest } j
        (some (List.replicate (getAgent w j).initial_pos.length v))
        (some (toward_center v.1 v.2 w.width w.height))) j := by
    rw [respawn_success_eq o w j rest v h1 h2 h3]
    rfl
  have hred2 : (respawn_dead_agent o w).obstacle_count =
      Function.update (agentReset { w with dead_agents := rest } j
        (some (List.replicate (getAgent w j).initial_pos.length v))
        (some (toward_center v.1 v.2 w.width w.height))).obstacle_count v
        ((agentReset { w with dead_agents := rest } j
          (some (List.replicate (getAgent w j).initial_pos.length v))
          (some (toward_center v.1 v.2 w.width w.height))).obstacle_count v +
          ((getAgent w j).initial_pos.length : ℤ)) := by
    rw [respawn_success_eq o w j rest v h1 h2 h3]
    rfl
  refine ⟨?_, ?_, ?_⟩
  · rw [hred, agentReset_pos _ _ _ _ hbound]
    simp
  · rw [hred2, Function.update_same, agentReset_obstacle_count]
  · rw [hred, agentReset_dir _ _ _ _ hbound]
    simp

lemma foldl_decr_obstacle (l : List Pos) (w : SnakeWorld) (q : Pos) :
    (l.foldl (fun wb p => incr_obstacle_count wb p (-1)) w).obstacle_count q =
      w.obstacle_count q - l.count q := by
  induction l generalizing w with
  | nil => simp
  | cons p rest ih =>
      rw [List.foldl_cons, ih, List.count_cons, incr_obstacle_count_apply]
      rcases eq_or_ne q p with hqp | hqp
      · subst hqp
        simp only [if_pos rfl, beq_self_eq_true, if_true]
        push_cast
        ring
      · have hb : (p == q) = false := beq_eq_false_iff_ne.mpr (Ne.symm hqp)
        simp only [if_neg hqp, hb, Bool.false_eq_true, if_false]
        push_cast
        ring

lemma stop_avoid_obstacle (layers : List (List Pos)) (w : SnakeWorld) (q : Pos) :
    (stop_avoid w layers).obstacle_count q =
      w.obstacle_count q - (layers.map fun l => (l.count q : ℤ)).sum := by
  induction layers generalizing w with
  | nil => simp [stop_avoid]
  | cons l rest ih =>
      show (stop_avoid (l.foldl (fun wb p => incr_obstacle_count wb p (-1)) w)
        rest).obstacle_count q = _
      rw [ih, foldl_decr_obstacle]
      simp only [List.map_cons, List.sum_cons]
      ring

lemma ring_inner_spec (nbrs : List (Pos × Dir)) (acc : SnakeWorld × List Pos) :
    ∃ Δ : List Pos,
      (nbrs.foldl (fun acc2 nd => (incr_obstacle_count acc2.1 nd.1 1, acc2.2 ++ [nd.1]))
          acc).2 = acc.2 ++ Δ ∧
      ∀ q, ((nbrs.foldl (fun acc2 nd => (incr_obstacle_count acc2.1 nd.1 1, acc2.2 ++ [nd.1]))
          acc).1).obstacle_count q = acc.1.obstacle_count q + Δ.count q := by
  induction nbrs generalizing acc with
  | nil => exact ⟨[], by simp, fun q => by simp⟩
  | cons nd rest ih =>
      obtain ⟨Δ', h1, h2⟩ := ih (incr_obstacle_count acc.1 nd.1 1, acc.2 ++ [nd.1])
      refine ⟨nd.1 :: Δ', ?_, fun q => ?_⟩
      · rw [List.foldl_cons, h1]
        simp
      · rw [List.foldl_cons, h2, incr_obstacle_count_apply, List.count_cons]
        rcases eq_or_ne q nd.1 with hq | hq
        · subst hq
          simp only [if_pos rfl, beq_self_eq_true, if_true]
          push_cast
          ring
        · have hb : (nd.1 == q) = false := beq_eq_false_iff_ne.mpr (Ne.symm hq)
          simp only [if_neg hq, hb, Bool.false_eq_true, if_false]
          push_cast
          ring

lemma ring_outer_spec (layer : List Pos) (acc : SnakeWorld × List Pos) :
    ∃ Δ : List Pos,
      (layer.foldl
          (fun a p => (iter_free_neighbors a.1 p).foldl
            (fun acc2 nd => (incr_obstacle_count acc2.1 nd.1 1, acc2.2 ++ [nd.1])) a)
          acc).2 = acc.2 ++ Δ ∧
      ∀ q, ((layer.foldl
          (fun a p => (iter_free_neighbors a.1 p).foldl
            (fun acc2 nd => (incr_obstacle_count acc2.1 nd.1 1, acc2.2 ++ [nd.1])) a)
          acc).1).obstacle_count q = acc.1.obstacle_count q + Δ.count q := by
  induction layer generalizing acc with
  | nil => exact ⟨[], by simp, fun q => by simp⟩
  | cons p rest ih =>
      obtain ⟨Δ1, hi1, hi2⟩ := ring_inner_spec (iter_free_neighbors acc.1 p) acc
      obtain ⟨Δ2, ho1, ho2⟩ := ih ((iter_free_neighbors acc.1 p).foldl
        (fun acc2 nd => (incr_obstacle_count acc2.1 nd.1 1, acc2.2 ++ [nd.1])) acc)
      refine ⟨Δ1 ++ Δ2, ?_, fun q => ?_⟩
      · rw [List.foldl_cons, ho1, hi1, List.append_assoc]
      · rw [List.foldl_cons, ho2 q, hi2 q, List.count_append]
        push_cast
        ring

lemma ring_step_spec (w : SnakeWorld) (layer : List Pos) :
    ∀ q, ((ring_step w layer).1).obstacle_count q =
      w.obstacle_count q + ((ring_step w layer).2).count q := by
  intro q
  obtain ⟨Δ, h1, h2⟩ := ring_outer_spec layer (w, [])
  have e1 : (ring_step w layer).2 = Δ := by
    unfold ring_step
    rw [h1]
    rfl
  have e2 : ((ring_step w layer).1).obstacle_count q =
      w.obstacle_count q + (Δ.count q : ℤ) := by
    unfold ring_step
    simpa using h2 q
  rw [e2, e1]

lemma avoid_rings_spec (n : ℕ) :
    ∀ (w : SnakeWorld) (layer : List Pos) (acc : List (List Pos)),
      ∃ Δ : List (List Pos),
        (avoid_rings w layer acc n).2 = acc ++ Δ ∧
        ∀ q, ((avoid_rings w layer acc n).1).obstacle_count q =
          w.obstacle_count q + (Δ.map fun l => (l.count q : ℤ)).sum := by
  induction n with
  | zero => exact fun w layer acc => ⟨[], by simp [avoid_rings], fun q => by simp [avoid_rings]⟩
  | succ n ih =>
      intro w layer acc
      obtain ⟨Δ, h1, h2⟩ := ih (ring_step w layer).1 (ring_step w layer).2
        (acc ++ [(ring_step w layer).2])
      refine ⟨(ring_step w layer).2 :: Δ, ?_, fun q => ?_⟩
      · show (avoid_rings (ring_step w layer).1 (ring_step w layer).2
          (acc ++ [(ring_step w layer).2]) n).2 = _
        rw [h1]
        simp
      · show ((avoid_rings (ring_step w layer).1 (ring_step w layer).2
          (acc ++ [(ring_step w layer).2]) n).1).obstacle_count q = _
        rw [h2 q, ring_step_spec w layer q]
        simp only [List.map_cons, List.sum_cons]
        ring

lemma start_avoid_fold_spec (dangerous : List ℕ) (i : ℕ) :
    ∀ (acc : SnakeWorld × List (List Pos)),
      ∃ Δ : List (List Pos),
        (dangerous.foldl
            (fun a j => avoid_rings a.1 [get_head (getAgent a.1 j)] a.2
              (getAgent a.1 i).caution_radius)
            acc).2 = acc.2 ++ Δ ∧
        ∀ q, ((dangerous.foldl
            (fun a j => avoid_rings a.1 [get_head (getAgent a.1 j)] a.2
              (getAgent a.1 i).caution_radius)
            acc).1).obstacle_count q =
          acc.1.obstacle_count q + (Δ.map fun l => (l.count q : ℤ)).sum := by
  induction dangerous with
  | nil => exact fun acc => ⟨[], by simp, fun q => by simp⟩
  | cons j rest ih =>
      intro acc
      obtain ⟨Δ1, h11, h12⟩ := avoid_rings_spec (getAgent acc.1 i).caution_radius acc.1
        [get_head (getAgent acc.1 j)] acc.2
      obtain ⟨Δ2, h21, h22⟩ := ih (avoid_rings acc.1 [get_head (getAgent acc.1 j)] acc.2
        (getAgent acc.1 i).caution_radius)
      refine ⟨Δ1 ++ Δ2, ?_, fun q => ?_⟩
      · rw [List.foldl_cons, h21, h11, List.append_assoc]
      · rw [List.foldl_cons, h22 q, h12 q, List.map_append, List.sum_append]
        ring

lemma start_avoid_obstacle (w : SnakeWorld) (i : ℕ) (dangerous : List ℕ) (q : Pos) :
    ((start_avoid w i dangerous).1).obstacle_count q =
      w.obstacle_count q +
        (((start_avoid w i dangerous).2).map fun l => (l.count q : ℤ)).sum := by
  obtain ⟨Δ, h1, h2⟩ := start_avoid_fold_spec dangerous i (w, [])
  have e1 : (start_avoid w i dangerous).2 = Δ := by
    unfold start_avoid
    rw [h1]
    rfl
  have e2 : ((start_avoid w i dangerous).1).obstacle_count q =
      w.obstacle_count q + (Δ.map fun l => (l.count q : ℤ)).sum := by
    unfold start_avoid
    simpa using h2 q
  rw [e2, e1]

/-- Claim C4: for any agent and any arena state, `start_avoid` immediately
followed by `stop_avoid` on the returned danger layers leaves the
obstacle-count grid exactly equal, cell by cell, to its value before the call,
for every set of dangerous agents and every caution radius. -/
theorem start_stop_avoid_roundtrip (w : SnakeWorld) (i : ℕ) (dangerous : List ℕ)
    (p : Pos) :
    (stop_avoid (start_avoid w i dangerous).1
        (start_avoid w i dangerous).2).obstacle_count p = w.obstacle_count p := by
  rw [stop_avoid_obstacle, start_avoid_obstacle]
  ring

/-- Witness for `respawn_success_shape` at the concrete arena `cw10`. -/
theorem respawn_success_shape_witness :
    (getAgent (respawn_dead_agent o10 cw10) 0).pos = [(2, 2), (2, 2)] ∧
      (respawn_dead_agent o10 cw10).obstacle_count (2, 2) = 2 ∧
      (getAgent (respawn_dead_agent o10 cw10) 0).dir =
        toward_center 2 2 cw10.width cw10.height := by
  have h := respawn_success_shape o10 cw10 0 [] (2, 2) rfl rfl (by decide) (by decide)
  exact ⟨h.1, by rw [h.2.1]; rfl, h.2.2⟩

lemma foldl_decr_agents (l : List Pos) (w : SnakeWorld) :
    (l.foldl (fun wb p => incr_obstacle_count wb p (-1)) w).agents = w.agents := by
  induction l generalizing w with
  | nil => rfl
  | cons p rest ih => simpa using ih (incr_obstacle_count w p (-1))

lemma agentCut_pos (w : SnakeWorld) (i : ℕ) (n : ℕ) (hi : i < w.agents.length) :
    (getAgent (agentCut w i n) i).pos = (getAgent w i).pos.drop n := by
  unfold agentCut
  rw [getAgent_setAgent_self]
  rw [foldl_decr_agents]
  exact hi

lemma check_self_collision_of_collision (w : SnakeWorld) (i : ℕ)
    (hcol : 1 < get_obstacle_count w (get_head (getAgent w i))) :
    check_self_collision w i =
      ((getAgent w i).pos.indexOf (get_head (getAgent w i)) + 1) %
        (getAgent w i).pos.length := by
  simp [check_self_collision, hcol]

/-- Claim C6: the concrete length-3 snake on the 5×5 toroidal arena whose move
lands its head on its own body cell is cut to length 2 by `simulate`; and in
general, when the post-move head cell's counter exceeds 1 the cut removes
`(index_of_head_in_body + 1) % body_length` cells from the tail end of the
deque. -/
theorem self_collision_cut :
    simAgentPos oId cw6 0 0 = some [(2, 3), (2, 2)] ∧
    (∀ (w : SnakeWorld) (i : ℕ), i < w.agents.length →
      1 < get_obstacle_count w (get_head (getAgent w i)) →
      (getAgent (agentCut w i (check_self_collision w i)) i).pos =
        (getAgent w i).pos.drop
          (((getAgent w i).pos.indexOf (get_head (getAgent w i)) + 1) %
            (getAgent w i).pos.length) ∧
      (getAgent (agentCut w i (check_self_collision w i)) i).pos.length =
        (getAgent w i).pos.length -
          (((getAgent w i).pos.indexOf (get_head (getAgent w i)) + 1) %
            (getAgent w i).pos.length)) := by
  refine ⟨by decide, fun w i hi hcol => ?_⟩
  rw [check_self_collision_of_collision w i hcol]
  have h1 := agentCut_pos w i
    (((getAgent w i).pos.indexOf (get_head (getAgent w i)) + 1) % (getAgent w i).pos.length) hi
  exact ⟨h1, by rw [h1, List.length_drop]⟩

/-- Witness for the universally quantified part of `self_collision_cut` at the
post-move arena `cw6b`. -/
theorem self_collision_cut_witness :
    (0 : ℕ) < cw6b.agents.length ∧
      1 < get_obstacle_count cw6b (get_head (getAgent cw6b 0)) ∧
      (getAgent (agentCut cw6b 0 (check_self_collision cw6b 0)) 0).pos = [(2, 3), (2, 2)] := by
  refine ⟨by decide, by decide, ?_⟩
  rw [(self_collision_cut.2 cw6b 0 (by decide) (by decide)).1]
  rfl

lemma cSP_step_cache (sp : PathFinder) (w : SnakeWorld) (i : ℕ) (dsts : List Pos)
    (head : Pos) (infL : ℤ) (sup_len : ℕ∞) (x : ℕ × Pos)
    (hx : dsts.get? x.1 = some x.2) (acc : Option ℕ × ℕ∞ × Agent)
    (h1 : acc.1 = none → acc.2.2 = getAgent w i)
    (h2 : ∀ j, acc.1 = some j → ∃ d, dsts.get? j = some d ∧
      acc.2.2.x_path.head? = some d.1 ∧ acc.2.2.y_path.head? = some d.2) :
    ((cSP_step sp w head infL sup_len acc x).1 = none →
      (cSP_step sp w head infL sup_len acc x).2.2 = getAgent w i) ∧
    (∀ j, (cSP_step sp w head infL sup_len acc x).1 = some j →
      ∃ d, dsts.get? j = some d ∧
        (cSP_step sp w head infL sup_len acc x).2.2.x_path.head? = some d.1 ∧
        (cSP_step sp w head infL sup_len acc x).2.2.y_path.head? = some d.2) := by
  simp only [cSP_step]
  split
  · split
    · rename_i hcond
      constructor
      · intro h
        simp at h
      · intro j hj
        have hxj : x.1 = j := by simpa using hj
        subst hxj
        exact ⟨x.2, hx, hcond.2.2.1, hcond.2.2.2⟩
    · exact ⟨h1, h2⟩
  · exact ⟨h1, h2⟩

lemma cSP_fold_cache (sp : PathFinder) (w : SnakeWorld) (i : ℕ) (dsts : List Pos)
    (head : Pos) (infL : ℤ) (sup_len : ℕ∞) :
    ∀ (l : List (ℕ × Pos)) (acc : Option ℕ × ℕ∞ × Agent),
      (∀ x ∈ l, dsts.get? x.1 = some x.2) →
      (acc.1 = none → acc.2.2 = getAgent w i) →
      (∀ j, acc.1 = some j → ∃ d, dsts.get? j = some d ∧
        acc.2.2.x_path.head? = some d.1 ∧ acc.2.2.y_path.head? = some d.2) →
      ((l.foldl (cSP_step sp w head infL sup_len) acc).1 = none →
        (l.foldl (cSP_step sp w head infL sup_len) acc).2.2 = getAgent w i) ∧
      (∀ j, (l.foldl (cSP_step sp w head infL sup_len) acc).1 = some j →
        ∃ d, dsts.get? j = some d ∧
          (l.foldl (cSP_step sp w head infL sup_len) acc).2.2.x_path.head? = some d.1 ∧
          (l.foldl (cSP_step sp w head infL sup_len) acc).2.2.y_path.head? = some d.2) := by
  intro l
  induction l with
  | nil => exact fun acc _ h1 h2 => ⟨h1, h2⟩
  | cons x rest ih =>
      intro acc hmem h1 h2
      rw [List.foldl_cons]
      obtain ⟨g1, g2⟩ := cSP_step_cache sp w i dsts head infL sup_len x
        (hmem x (List.mem_cons_self x rest)) acc h1 h2
      exact ih (cSP_step sp w head infL sup_len acc x)
        (fun y hy => hmem y (List.mem_cons_of_mem x hy)) g1 g2

lemma compute_shortest_path_cache (sp : PathFinder) (w : SnakeWorld) (i : ℕ)
    (dsts : List Pos) (inf_len : ℤ) (sup_len : ℕ∞) :
    ((compute_shortest_path sp w i dsts inf_len sup_len).1 = none →
      getAgent (compute_shortest_path sp w i dsts inf_len sup_len).2 i = getAgent w i) ∧
    (i < w.agents.length →
      ∀ j, (compute_shortest_path sp w i dsts inf_len sup_len).1 = some j →
        ∃ d, dsts.get? j = some d ∧
          (getAgent (compute_shortest_path sp w i dsts inf_len sup_len).2 i).x_path.head? =
            some d.1 ∧
          (getAgent (compute_shortest_path sp w i dsts inf_len sup_len).2 i).y_path.head? =
            some d.2) := by
  obtain ⟨g1, g2⟩ := cSP_fold_cache sp w i dsts (get_head (getAgent w i))
    (max inf_len 0) sup_len dsts.enum (none, ⊤, getAgent w i)
    (fun x hx => by simpa using (List.mem_enum_iff_getElem?.mp hx))
    (fun _ => rfl) (fun j h => by simp at h)
  constructor
  · intro hnone
    have h := g1 hnone
    show getAgent (setAgent w i ((dsts.enum.foldl
      (cSP_step sp w (get_head (getAgent w i)) (max inf_len 0) sup_len)
      (none, ⊤, getAgent w i)).2.2)) i = getAgent w i
    rw [h]
    rcases lt_or_ge i w.agents.length with hlt | hge
    · exact getAgent_setAgent_self w i _ hlt
    · simp [getAgent, setAgent, List.set_eq_of_length_le hge]
  · intro hi j hsome
    obtain ⟨d, hd, hx, hy⟩ := g2 j hsome
    have hag : getAgent (compute_shortest_path sp w i dsts inf_len sup_len).2 i =
        (dsts.enum.foldl (cSP_step sp w (get_head (getAgent w i)) (max inf_len 0) sup_len)
          (none, ⊤, getAgent w i)).2.2 :=
      getAgent_setAgent_self w i _ hi
    rw [hag]
    exact ⟨d, hd, hx, hy⟩

/-- Claim C3 (amended): at impact delay `k`, for an agent of length `L`, a
candidate path to a projected impact cell `d` is accepted exactly when the
cell is free, the reconstructed path reaches `d`, and its length lies in the
OPEN interval `(max(k − L, 0), k)` — the source comparison
`path_len < min(current_min, sup_len)` is strict, so a path of length exactly
`k` is rejected, not accepted. -/
theorem attack_window_acceptance (sp : PathFinder) (w : SnakeWorld) (i : ℕ)
    (d : Pos) (k : ℕ) :
    (compute_shortest_path sp w i [d] ((k : ℤ) - (getAgent w i).pos.length)
        (k : ℕ∞)).1 = some 0 ↔
      (get_obstacle_count w d = 0 ∧
        max ((k : ℤ) - (getAgent w i).pos.length) 0 <
          ((sp w (get_head (getAgent w i)) d
            (heurEval (getAgent w i).heuristic_kind w.width w.height d)).ds.length : ℤ) ∧
        (sp w (get_head (getAgent w i)) d
            (heurEval (getAgent w i).heuristic_kind w.width w.height d)).ds.length < k ∧
        (sp w (get_head (getAgent w i)) d
            (heurEval (getAgent w i).heuristic_kind w.width w.height d)).xs.head? =
          some d.1 ∧
        (sp w (get_head (getAgent w i)) d
            (heurEval (getAgent w i).heuristic_kind w.width w.height d)).ys.head? =
          some d.2) := by
  have hred : (compute_shortest_path sp w i [d] ((k : ℤ) - (getAgent w i).pos.length)
      (k : ℕ∞)).1 =
      (cSP_step sp w (get_head (getAgent w i))
        (max ((k : ℤ) - (getAgent w i).pos.length) 0) (k : ℕ∞)
        (none, ⊤, getAgent w i) (0, d)).1 := rfl
  rw [hred]
  simp only [cSP_step]
  split
  · rename_i hob
    split
    · rename_i hcond
      constructor
      · intro _
        refine ⟨hob, hcond.1, ?_, hcond.2.2.1, hcond.2.2.2⟩
        have h2 := hcond.2.1
        rw [min_top_left] at h2
        exact_mod_cast h2
      · intro _
        rfl
    · rename_i hcond
      constructor
      · intro h
        simp at h
      · rintro ⟨-, h2, h3, h4, h5⟩
        exact absurd ⟨h2, by rw [min_top_left]; exact_mod_cast h3, h4, h5⟩ hcond
  · rename_i hob
    constructor
    · intro h
      simp at h
    · rintro ⟨h1, -⟩
      exact absurd h1 hob

/-- Counterexample to claim C3 as stated: in the arena `cw3` the length-4
agent evaluates the free cell `(3,0)` at impact delay `k = 2`; the pathfinder
returns a valid path of length exactly `k`, yet `compute_shortest_path`
rejects it (exclusive upper bound). -/
theorem attack_window_rejects_exact_delay :
    (compute_shortest_path spA cw3 0 [(3, 0)] ((2 : ℤ) - 4) (2 : ℕ∞)).1 = none ∧
      (getAgent cw3 0).pos.length = 4 ∧
      get_obstacle_count cw3 (3, 0) = 0 ∧
      (spA cw3 (get_head (getAgent cw3 0)) (3, 0)
        (heurEval (getAgent cw3 0).heuristic_kind cw3.width cw3.height (3, 0))).ds.length = 2 ∧
      (spA cw3 (get_head (getAgent cw3 0)) (3, 0)
        (heurEval (getAgent cw3 0).heuristic_kind cw3.width cw3.height (3, 0))).xs.head? =
        some 3 ∧
      (spA cw3 (get_head (getAgent cw3 0)) (3, 0)
        (heurEval (getAgent cw3 0).heuristic_kind cw3.width cw3.height (3, 0))).ys.head? =
        some 0 := by
  decide

/-- Witness for `attack_window_acceptance`: a strictly shorter path (length 1
at impact delay 2) is accepted in the arena `cw5base`.  The theorem itself has
no propositional hypotheses; this instantiates it at a concrete accepting
input. -/
theorem attack_window_acceptance_witness :
    (compute_shortest_path spA cw5base 1 [(3, 0)]
        (((2 : ℕ) : ℤ) - (getAgent cw5base 1).pos.length) (((2 : ℕ)) : ℕ∞)).1 = some 0 :=
  (attack_window_acceptance spA cw5base 1 (3, 0) 2).mpr (by decide)

/-- Invariant of AI planning calls: the agent registry's bodies, the alive and
dead lists and the food set are untouched (only direction/path/cooldown/target
fields and, transiently, the grid change). -/
def shapeInv (w w' : SnakeWorld) : Prop :=
  w'.alive_agents = w.alive_agents ∧ w'.dead_agents = w.dead_agents ∧
    w'.food_pos = w.food_pos ∧ w'.agents.length = w.agents.length ∧
    (∀ j, (getAgent w' j).pos = (getAgent w j).pos) ∧
    (∀ j, (getAgent w' j).last_tail_pos = (getAgent w j).last_tail_pos) ∧
    w'.width = w.width ∧ w'.height = w.height

/-- Full decide-phase invariant: `shapeInv` plus pointwise grid preservation. -/
def decideInv (w w' : SnakeWorld) : Prop :=
  shapeInv w w' ∧ ∀ p, w'.obstacle_count p = w.obstacle_count p

lemma shapeInv_refl (w : SnakeWorld) : shapeInv w w :=
  ⟨rfl, rfl, rfl, rfl, fun _ => rfl, fun _ => rfl, rfl, rfl⟩

lemma shapeInv_trans {w1 w2 w3 : SnakeWorld} (h1 : shapeInv w1 w2)
    (h2 : shapeInv w2 w3) : shapeInv w1 w3 :=
  ⟨h2.1.trans h1.1, h2.2.1.trans h1.2.1, h2.2.2.1.trans h1.2.2.1,
   h2.2.2.2.1.trans h1.2.2.2.1, fun j => (h2.2.2.2.2.1 j).trans (h1.2.2.2.2.1 j),
   fun j => (h2.2.2.2.2.2.1 j).trans (h1.2.2.2.2.2.1 j),
   h2.2.2.2.2.2.2.1.trans h1.2.2.2.2.2.2.1, h2.2.2.2.2.2.2.2.trans h1.2.2.2.2.2.2.2⟩

lemma decideInv_refl (w : SnakeWorld) : decideInv w w :=
  ⟨shapeInv_refl w, fun _ => rfl⟩

lemma decideInv_trans {w1 w2 w3 : SnakeWorld} (h1 : decideInv w1 w2)
    (h2 : decideInv w2 w3) : decideInv w1 w3 :=
  ⟨shapeInv_trans h1.1 h2.1, fun p => (h2.2 p).trans (h1.2 p)⟩

lemma getAgent_setAgent_ne (w : SnakeWorld) (i j : ℕ) (a : Agent) (h : j ≠ i) :
    getAgent (setAgent w i a) j = getAgent w j := by
  simp [getAgent, setAgent, List.getD_eq_getElem?_getD,
    List.getElem?_set_ne (Ne.symm h)]

lemma getAgent_pos_setAgent (w : SnakeWorld) (i : ℕ) (a : Agent)
    (h : a.pos = (getAgent w i).pos) (j : ℕ) :
    (getAgent (setAgent w i a) j).pos = (getAgent w j).pos := by
  rcases eq_or_ne j i with rfl | hne
  · rcases lt_or_ge j w.agents.length with hlt | hge
    · rw [getAgent_setAgent_self w j a hlt, h]
    · simp [getAgent, setAgent, List.set_eq_of_length_le hge]
  · rw [getAgent_setAgent_ne w i j a hne]

lemma getAgent_tail_setAgent (w : SnakeWorld) (i : ℕ) (a : Agent)
    (h : a.last_tail_pos = (getAgent w i).last_tail_pos) (j : ℕ) :
    (getAgent (setAgent w i a) j).last_tail_pos = (getAgent w j).last_tail_pos := by
  rcases eq_or_ne j i with rfl | hne
  · rcases lt_or_ge j w.agents.length with hlt | hge
    · rw [getAgent_setAgent_self w j a hlt, h]
    · simp [getAgent, setAgent, List.set_eq_of_length_le hge]
  · rw [getAgent_setAgent_ne w i j a hne]

lemma setAgent_shape (w : SnakeWorld) (i : ℕ) (a : Agent)
    (h : a.pos = (getAgent w i).pos)
    (ht : a.last_tail_pos = (getAgent w i).last_tail_pos) : shapeInv w (setAgent w i a) :=
  ⟨rfl, rfl, rfl, by simp [setAgent], getAgent_pos_setAgent w i a h,
   getAgent_tail_setAgent w i a ht, rfl, rfl⟩

lemma incr_shape (w : SnakeWorld) (p : Pos) (k : ℤ) :
    shapeInv w (incr_obstacle_count w p k) :=
  ⟨rfl, rfl, rfl, rfl, fun _ => rfl, fun _ => rfl, rfl, rfl⟩

lemma ring_inner_shape (nbrs : List (Pos × Dir)) (acc : SnakeWorld × List Pos) :
    shapeInv acc.1
      ((nbrs.foldl (fun acc2 nd => (incr_obstacle_count acc2.1 nd.1 1, acc2.2 ++ [nd.1]))
        acc).1) := by
  induction nbrs generalizing acc with
  | nil => exact shapeInv_refl acc.1
  | cons nd rest ih =>
      rw [List.foldl_cons]
      exact shapeInv_trans (incr_shape acc.1 nd.1 1)
        (ih (incr_obstacle_count acc.1 nd.1 1, acc.2 ++ [nd.1]))

lemma ring_outer_shape (layer : List Pos) (acc : SnakeWorld × List Pos) :
    shapeInv acc.1
      ((layer.foldl
        (fun a p => (iter_free_neighbors a.1 p).foldl
          (fun acc2 nd => (incr_obstacle_count acc2.1 nd.1 1, acc2.2 ++ [nd.1])) a)
        acc).1) := by
  induction layer generalizing acc with
  | nil => exact shapeInv_refl acc.1
  | cons p rest ih =>
      rw [List.foldl_cons]
      exact shapeInv_trans (ring_inner_shape (iter_free_neighbors acc.1 p) acc) (ih _)

lemma avoid_rings_shape (n : ℕ) :
    ∀ (w : SnakeWorld) (layer : List Pos) (acc : List (List Pos)),
      shapeInv w ((avoid_rings w layer acc n).1) := by
  induction n with
  | zero => exact fun w _ _ => shapeInv_refl w
  | succ n ih =>
      intro w layer acc
      exact shapeInv_trans (ring_outer_shape layer (w, []))
        (ih (ring_step w layer).1 (ring_step w layer).2 (acc ++ [(ring_step w layer).2]))

lemma start_avoid_shape (w : SnakeWorld) (i : ℕ) (dangerous : List ℕ) :
    shapeInv w ((start_avoid w i dangerous).1) := by
  suffices h : ∀ (l : List ℕ) (acc : SnakeWorld × List (List Pos)),
      shapeInv acc.1 ((l.foldl
        (fun a j => avoid_rings a.1 [get_head (getAgent a.1 j)] a.2
          (getAgent a.1 i).caution_radius) acc).1) from h dangerous (w, [])
  intro l
  induction l with
  | nil => exact fun acc => shapeInv_refl acc.1
  | cons j rest ih =>
      intro acc
      rw [List.foldl_cons]
      exact shapeInv_trans
        (avoid_rings_shape (getAgent acc.1 i).caution_radius acc.1
          [get_head (getAgent acc.1 j)] acc.2) (ih _)

lemma stop_avoid_shape (w : SnakeWorld) (layers : List (List Pos)) :
    shapeInv w (stop_avoid w layers) := by
  induction layers generalizing w with
  | nil => exact shapeInv_refl w
  | cons l rest ih =>
      have hinner : ∀ (l' : List Pos) (w' : SnakeWorld),
          shapeInv w' (l'.foldl (fun wb p => incr_obstacle_count wb p (-1)) w') := by
        intro l'
        induction l' with
        | nil => exact fun w' => shapeInv_refl w'
        | cons p ps ihp =>
            intro w'
            rw [List.foldl_cons]
            exact shapeInv_trans (incr_shape w' p (-1)) (ihp _)
      exact shapeInv_trans (hinner l w) (ih _)

lemma cSP_fold_pos_alive (sp : PathFinder) (w : SnakeWorld) (head : Pos) (infL : ℤ)
    (sup_len : ℕ∞) (l : List (ℕ × Pos)) :
    ∀ acc : Option ℕ × ℕ∞ × Agent,
      (l.foldl (cSP_step sp w head infL sup_len) acc).2.2.pos = acc.2.2.pos := by
  induction l with
  | nil => exact fun _ => rfl
  | cons x rest ih =>
      intro acc
      rw [List.foldl_cons, ih]
      simp only [cSP_step]
      split
      · split
        · rfl
        · rfl
      · rfl

lemma cSP_fold_tail_alive (sp : PathFinder) (w : SnakeWorld) (head : Pos) (infL : ℤ)
    (sup_len : ℕ∞) (l : List (ℕ × Pos)) :
    ∀ acc : Option ℕ × ℕ∞ × Agent,
      (l.foldl (cSP_step sp w head infL sup_len) acc).2.2.last_tail_pos =
        acc.2.2.last_tail_pos := by
  induction l with
  | nil => exact fun _ => rfl
  | cons x rest ih =>
      intro acc
      rw [List.foldl_cons, ih]
      simp only [cSP_step]
      split
      · split
        · rfl
        · rfl
      · rfl

lemma compute_shortest_path_shape (sp : PathFinder) (w : SnakeWorld) (i : ℕ)
    (dsts : List Pos) (inf_len : ℤ) (sup_len : ℕ∞) :
    decideInv w (compute_shortest_path sp w i dsts inf_len sup_len).2 := by
  refine ⟨setAgent_shape w i _ ?_ ?_, fun _ => rfl⟩
  · exact cSP_fold_pos_alive sp w (get_head (getAgent w i)) (max inf_len 0) sup_len
      dsts.enum (none, ⊤, getAgent w i)
  · exact cSP_fold_tail_alive sp w (get_head (getAgent w i)) (max inf_len 0) sup_len
      dsts.enum (none, ⊤, getAgent w i)

lemma update_path_astar_inv (w : SnakeWorld) (i : ℕ) :
    decideInv w (update_path_astar w i) := by
  have hstart := start_avoid_shape w i (w.alive_agents.filter fun j => j ≠ i)
  have hcomp := compute_shortest_path_shape spA (start_avoid w i
    (w.alive_agents.filter fun j => j ≠ i)).1 i ((start_avoid w i
    (w.alive_agents.filter fun j => j ≠ i)).1).food_pos 0 ⊤
  have hstop := stop_avoid_shape (compute_path_to_nearest_food
    (start_avoid w i (w.alive_agents.filter fun j => j ≠ i)).1 i).2
    (start_avoid w i (w.alive_agents.filter fun j => j ≠ i)).2
  have hgrid : ∀ p, (stop_avoid (compute_path_to_nearest_food
      (start_avoid w i (w.alive_agents.filter fun j => j ≠ i)).1 i).2
      (start_avoid w i (w.alive_agents.filter fun j => j ≠ i)).2).obstacle_count p =
      w.obstacle_count p := by
    intro p
    rw [stop_avoid_obstacle]
    have hco : (compute_path_to_nearest_food
        (start_avoid w i (w.alive_agents.filter fun j => j ≠ i)).1 i).2.obstacle_count p =
        ((start_avoid w i (w.alive_agents.filter fun j => j ≠ i)).1).obstacle_count p := rfl
    rw [hco, start_avoid_obstacle]
    ring
  have hshape : shapeInv w (stop_avoid (compute_path_to_nearest_food
      (start_avoid w i (w.alive_agents.filter fun j => j ≠ i)).1 i).2
      (start_avoid w i (w.alive_agents.filter fun j => j ≠ i)).2) :=
    shapeInv_trans hstart (shapeInv_trans hcomp.1 hstop)
  show decideInv w
    (if (compute_path_to_nearest_food
        (start_avoid w i (w.alive_agents.filter fun j => j ≠ i)).1 i).1 = true then
      stop_avoid (compute_path_to_nearest_food
        (start_avoid w i (w.alive_agents.filter fun j => j ≠ i)).1 i).2
        (start_avoid w i (w.alive_agents.filter fun j => j ≠ i)).2
    else (compute_path_to_nearest_food (stop_avoid (compute_path_to_nearest_food
        (start_avoid w i (w.alive_agents.filter fun j => j ≠ i)).1 i).2
        (start_avoid w i (w.alive_agents.filter fun j => j ≠ i)).2) i).2)
  split
  · exact ⟨hshape, hgrid⟩
  · refine decideInv_trans (⟨hshape, hgrid⟩ : decideInv w _) ?_
    exact compute_shortest_path_shape spA _ i _ 0 ⊤

lemma updAgent_inv (w : SnakeWorld) (i : ℕ) (f : Agent → Agent)
    (h : ∀ a, (f a).pos = a.pos)
    (ht : ∀ a, (f a).last_tail_pos = a.last_tail_pos) : decideInv w (updAgent w i f) :=
  ⟨setAgent_shape w i _ (h (getAgent w i)) (ht (getAgent w i)), fun _ => rfl⟩

lemma attack_inner_inv (w : SnakeWorld) (i : ℕ) (impacts : List Pos) (infL : ℤ)
    (supL : ℕ∞) (ts : List ℕ) (r : ℕ × SnakeWorld)
    (h : attack_inner w i impacts infL supL ts = some r) : decideInv w r.2 := by
  induction ts with
  | nil => simp [attack_inner] at h
  | cons t rest ih =>
      rw [attack_inner] at h
      rcases hc : (compute_shortest_path spA w i impacts infL supL).1 with - | k
      · rw [hc] at h
        exact ih h
      · rw [hc] at h
        obtain rfl : (k, (compute_shortest_path spA w i impacts infL supL).2) = r := by
          simpa using h
        exact compute_shortest_path_shape spA w i impacts infL supL

lemma attack_delays_inv (w : SnakeWorld) (i : ℕ) :
    ∀ (rem delay : ℕ) (targets : List ℕ) (impacts : List Pos),
      decideInv w (attack_delays w i delay rem targets impacts).1 := by
  intro rem
  induction rem with
  | zero =>
      intro delay targets impacts
      exact updAgent_inv w i _ (fun _ => rfl) fun _ => rfl
  | succ n ih =>
      intro delay targets impacts
      rw [attack_delays]
      rcases ha : attack_inner w i
        (((targets.zip impacts).filterMap fun jp =>
          let p' := get_neighbor w jp.2 (getAgent w jp.1).dir
          if get_obstacle_count w p' = 0 then some (jp.1, p') else none).map Prod.snd)
        ((delay : ℤ) - (getAgent w i).pos.length) (delay : ℕ∞)
        (((targets.zip impacts).filterMap fun jp =>
          let p' := get_neighbor w jp.2 (getAgent w jp.1).dir
          if get_obstacle_count w p' = 0 then some (jp.1, p') else none).map Prod.fst)
        with - | r
      · rw [ha]
        exact ih (delay + 1) _ _
      · rw [ha]
        refine decideInv_trans (attack_inner_inv w i _ _ _ _ r ha) ?_
        exact updAgent_inv r.2 i _ (fun _ => rfl) fun _ => rfl

lemma compute_attack_path_inv (w : SnakeWorld) (i : ℕ) (targets0 : List ℕ) :
    decideInv w (compute_attack_path w i targets0).1 :=
  attack_delays_inv w i (getAgent w i).attack_anticipation 1 targets0
    (targets0.map fun j => get_head (getAgent w j))

lemma attack_then_fallback_inv (w : SnakeWorld) (i : ℕ) (r : SnakeWorld × Bool)
    (hr : decideInv w r.1) :
    decideInv w (if r.2 = true then r.1 else update_path_astar r.1 i) := by
  split
  · exact hr
  · exact decideInv_trans hr (update_path_astar_inv r.1 i)

lemma update_path_off_inv (w : SnakeWorld) (i : ℕ) :
    decideInv w (update_path_off w i) := by
  simp only [update_path_off]
  rcases hcase : (getAgent w i).target with - | t
  · simp only [hcase]
    exact attack_then_fallback_inv w i _ (compute_attack_path_inv w i _)
  · simp only [hcase]
    split
    · exact attack_then_fallback_inv w i _ (compute_attack_path_inv w i _)
    · exact attack_then_fallback_inv w i _ (compute_attack_path_inv w i _)

lemma decide_ai_head_inv (w : SnakeWorld) (i : ℕ) (w' : SnakeWorld)
    (hupd : decideInv w w') :
    decideInv w
      (if (getAgent w i).cooldown = 0 ∨ (getAgent w i).dir_path = [] then
        updAgent w' i fun b => { b with cooldown := b.latency }
      else updAgent w i fun b => { b with cooldown := b.cooldown - 1 }) := by
  split
  · exact decideInv_trans hupd (updAgent_inv _ i _ (fun _ => rfl) fun _ => rfl)
  · exact updAgent_inv w i _ (fun _ => rfl) fun _ => rfl

lemma decide_ai_tail_inv (w : SnakeWorld) (i : ℕ) (w1 : SnakeWorld)
    (h : decideInv w w1) :
    decideInv w
      (if (getAgent w1 i).dir_path = [] then w1
       else setAgent w1 i
        { getAgent w1 i with
          x_path := (getAgent w1 i).x_path.dropLast,
          y_path := (getAgent w1 i).y_path.dropLast,
          dir_path := (getAgent w1 i).dir_path.dropLast,
          dir := (getAgent w1 i).dir_path.getLastD (getAgent w1 i).dir }) := by
  split
  · exact h
  · exact decideInv_trans h ⟨setAgent_shape w1 i _ rfl rfl, fun _ => rfl⟩

lemma decide_direction_inv (w : SnakeWorld) (i : ℕ) :
    decideInv w (decide_direction w i) := by
  simp only [decide_direction]
  rcases hp : (getAgent w i).policy with - | - | -
  all_goals simp only [hp]
  · rcases hr : (getAgent w i).dir_requests with - | ⟨d, rest⟩
    · exact decideInv_refl w
    · exact ⟨setAgent_shape w i _ rfl rfl, fun _ => rfl⟩
  · simp only [if_true]
    exact decide_ai_tail_inv w i _
      (decide_ai_head_inv w i _ (update_path_astar_inv w i))
  · rw [if_neg (by decide : ¬ (Policy.offensive = Policy.astar))]
    exact decide_ai_tail_inv w i _
      (decide_ai_head_inv w i _ (update_path_off_inv w i))

lemma decide_phase_inv (w : SnakeWorld) : decideInv w (decide_phase w).1 := by
  suffices h : ∀ (l : List ℕ) (acc : SnakeWorld × List Dir),
      decideInv acc.1 ((l.foldl (fun acc j =>
        ((decide_direction acc.1 j), acc.2 ++ [(getAgent (decide_direction acc.1 j) j).dir]))
        acc).1) by
    exact h w.alive_agents (w, [])
  intro l
  induction l with
  | nil => exact fun acc => decideInv_refl acc.1
  | cons j rest ih =>
      intro acc
      rw [List.foldl_cons]
      exact decideInv_trans (decide_direction_inv acc.1 j) (ih _)

/-- Claim C5 (amended): during the decide phase of `simulate` no agent's body
moves and the grid is restored after every planning call, so each decision is
computed against the pre-tick grid and bodies; but an agent's decision may
observe another agent's **same-tick decided direction** (via the
`agent.get_direction()` reads of `compute_attack_path`), so processing order
can change an offensive agent's decision. -/
theorem decide_phase_preserves_arena (w : SnakeWorld) :
    (∀ p, ((decide_phase w).1).obstacle_count p = w.obstacle_count p) ∧
    (∀ j, (getAgent (decide_phase w).1 j).pos = (getAgent w j).pos) ∧
    ((decide_phase w).1).alive_agents = w.alive_agents ∧
    ((decide_phase w).1).food_pos = w.food_pos := by
  obtain ⟨⟨h1, h2, h3, h4, h5, h5t, h7, h8⟩, h6⟩ := decide_phase_inv w
  exact ⟨h6, h5, h1, h3⟩

/-- Counterexample to claim C5 as stated: `cw5swap` is `cw5base` with its two
alive agents processed in the opposite order, yet the offensive agent (index
1) decides a different direction in the two runs — its `compute_attack_path`
reads the manual rival's direction, which the rival's own same-tick decision
has already changed when the rival is processed first. -/
theorem decide_order_dependence :
    cw5swap = { cw5base with alive_agents := [1, 0] } ∧
      cw5base.alive_agents = [0, 1] ∧
      (getAgent (decide_phase cw5base).1 1).dir ≠ (getAgent (decide_phase cw5swap).1 1).dir :=
  ⟨rfl, rfl, by decide⟩

lemma getAgent_congr (w w' : SnakeWorld) (k : ℕ) (h : w'.agents = w.agents) :
    getAgent w' k = getAgent w k := by
  simp [getAgent, h]

lemma setAgent_getAgent_eq (w : SnakeWorld) (i : ℕ) :
    setAgent w i (getAgent w i) = w := by
  have hl : w.agents.set i (w.agents.getD i default) = w.agents := by
    apply List.ext_getElem?
    intro n
    rcases eq_or_ne n i with rfl | hne
    · rcases lt_or_ge n w.agents.length with hlt | hge
      · rw [List.getElem?_set_self', List.getD_eq_getElem?_getD,
          List.getElem?_eq_getElem hlt]
        simp
      · rw [List.getElem?_set_self', List.getElem?_eq_none hge]
        simp
    · rw [List.getElem?_set_ne (Ne.symm hne)]
  show { w with agents := w.agents.set i (w.agents.getD i default) } = w
  rw [hl]

lemma agentCut_zero_eq (w : SnakeWorld) (i : ℕ) : agentCut w i 0 = w :=
  setAgent_getAgent_eq w i

lemma agentMove_agent_self (w : SnakeWorld) (i : ℕ) (d : Dir)
    (hi : i < w.agents.length) :
    getAgent (agentMove w i d) i =
      { getAgent w i with
        pos := ((getAgent w i).pos ++ [get_neighbor w (get_head (getAgent w i)) d]).drop 1,
        last_tail_pos :=
          some (((getAgent w i).pos ++
            [get_neighbor w (get_head (getAgent w i)) d]).headD (0, 0)) } :=
  getAgent_setAgent_self _ i _ hi

lemma agentMove_agent_ne (w : SnakeWorld) (i k : ℕ) (d : Dir) (hne : k ≠ i) :
    getAgent (agentMove w i d) k = getAgent w k :=
  getAgent_setAgent_ne _ i k _ hne

lemma agentMove_obstacle (w : SnakeWorld) (i : ℕ) (d : Dir) (q : Pos) :
    (agentMove w i d).obstacle_count q =
      w.obstacle_count q +
        (if q = get_neighbor w (get_head (getAgent w i)) d then 1 else 0) -
        (if q = ((getAgent w i).pos ++
            [get_neighbor w (get_head (getAgent w i)) d]).headD (0, 0) then 1 else 0) := by
  show (incr_obstacle_count _ _ (-1)).obstacle_count q = _
  rw [incr_obstacle_count_apply]
  have hmid : (setAgent (incr_obstacle_count w
      (get_neighbor w (get_head (getAgent w i)) d) 1) i
      { getAgent w i with
        pos := ((getAgent w i).pos ++ [get_neighbor w (get_head (getAgent w i)) d]).drop 1,
        last_tail_pos := some (((getAgent w i).pos ++
          [get_neighbor w (get_head (getAgent w i)) d]).headD (0, 0)) }).obstacle_count q =
      (incr_obstacle_count w (get_neighbor w (get_head (getAgent w i)) d) 1).obstacle_count
        q := rfl
  rw [hmid, incr_obstacle_count_apply]
  split_ifs <;> ring

lemma agentMove_agents_length (w : SnakeWorld) (i : ℕ) (d : Dir) :
    (agentMove w i d).agents.length = w.agents.length := by
  show (setAgent (incr_obstacle_count w _ 1) i _).agents.length = _
  rw [setAgent_agents_length]
  rfl

lemma agentMove_food (w : SnakeWorld) (i : ℕ) (d : Dir) :
    (agentMove w i d).food_pos = w.food_pos := rfl

lemma agentMove_n_food (w : SnakeWorld) (i : ℕ) (d : Dir) :
    (agentMove w i d).initial_n_food = w.initial_n_food := rfl

lemma get_neighbor_congr (w w' : SnakeWorld) (hw : w'.width = w.width)
    (hh : w'.height = w.height) (p : Pos) (d : Dir) :
    get_neighbor w' p d = get_neighbor w p d := by
  simp [get_neighbor, hw, hh]

lemma agentDie_obstacle (w : SnakeWorld) (i : ℕ) (q : Pos) :
    (agentDie w i).obstacle_count q =
      w.obstacle_count q - (getAgent w i).pos.count q := by
  simp only [agentDie]
  rcases hpol : (getAgent w i).policy with - | - | -
  all_goals simp only [hpol]
  · rw [foldl_decr_obstacle]
    rfl
  all_goals
    show ((getAgent w i).pos.foldl (fun wa p => incr_obstacle_count wa p (-1)) _).obstacle_count
      q = _
  all_goals rw [foldl_decr_obstacle]; rfl

lemma agentDie_agent_ne (w : SnakeWorld) (i k : ℕ) (hne : k ≠ i) :
    getAgent (agentDie w i) k = getAgent w k := by
  simp only [agentDie]
  rcases hpol : (getAgent w i).policy with - | - | -
  all_goals simp only [hpol]
  · exact (getAgent_congr _ _ k (foldl_decr_agents _ _)).trans
      (getAgent_setAgent_ne w i k _ hne)
  all_goals
    exact (getAgent_setAgent_ne _ i k _ hne).trans
      ((getAgent_congr _ _ k (foldl_decr_agents _ _)).trans
        (getAgent_setAgent_ne w i k _ hne))

lemma kill_phase_two (w : SnakeWorld) (i j : ℕ)
    (halive : w.alive_agents = [i, j])
    (h1 : collides_another w i = true)
    (h2 : collides_another (agentDie w i) j = false) :
    kill_phase w = (agentDie w i, [i]) := by
  simp [kill_phase, halive, h1, h2]

lemma cut_phase_zero_two (w : SnakeWorld) (i j : ℕ)
    (halive : w.alive_agents = [i, j])
    (h1 : check_self_collision w i = 0)
    (h2 : check_self_collision w j = 0) :
    cut_phase w = w := by
  simp [cut_phase, halive, h1, h2, agentCut_zero_eq]

lemma food_phase_none_two (w : SnakeWorld) (i j : ℕ)
    (halive : w.alive_agents = [i, j])
    (hni : get_head (getAgent w i) ∉ w.food_pos)
    (hnj : get_head (getAgent w j) ∉ w.food_pos) :
    food_phase w = .ok (w, []) := by
  simp [food_phase, halive, consume_food, hni, hnj]
  rfl

lemma kill_agents_food (w : SnakeWorld) (deads : List ℕ) :
    (kill_agents w deads).food_pos = w.food_pos ∧
      (kill_agents w deads).initial_n_food = w.initial_n_food := by
  induction deads generalizing w with
  | nil => exact ⟨rfl, rfl⟩
  | cons x rest ih =>
      rw [kill_agents, List.foldl_cons]
      exact ih _

lemma spawn_missing_food_noop (o : Oracle) (w : SnakeWorld) (k : ℕ)
    (h : w.initial_n_food ≤ w.food_pos.length) :
    spawn_missing_food o w k = .ok (w, k) := by
  unfold spawn_missing_food
  rw [Nat.sub_eq_zero_of_le h]
  rfl

lemma foldl_decr_food (l : List Pos) (w : SnakeWorld) :
    (l.foldl (fun wb p => incr_obstacle_count wb p (-1)) w).food_pos = w.food_pos := by
  induction l generalizing w with
  | nil => rfl
  | cons p rest ih => simpa using ih (incr_obstacle_count w p (-1))

lemma foldl_decr_n_food (l : List Pos) (w : SnakeWorld) :
    (l.foldl (fun wb p => incr_obstacle_count wb p (-1)) w).initial_n_food =
      w.initial_n_food := by
  induction l generalizing w with
  | nil => rfl
  | cons p rest ih => simpa using ih (incr_obstacle_count w p (-1))

lemma agentDie_food_pos (w : SnakeWorld) (i : ℕ) :
    (agentDie w i).food_pos = w.food_pos := by
  simp only [agentDie]
  rcases hpol : (getAgent w i).policy with - | - | -
  all_goals simp only [hpol]
  · rw [foldl_decr_food]
    rfl
  all_goals
    show (List.foldl (fun wa p => incr_obstacle_count wa p (-1)) _ _).food_pos = _
  all_goals rw [foldl_decr_food]
  all_goals rfl

lemma agentDie_initial_n_food (w : SnakeWorld) (i : ℕ) :
    (agentDie w i).initial_n_food = w.initial_n_food := by
  simp only [agentDie]
  rcases hpol : (getAgent w i).policy with - | - | -
  all_goals simp only [hpol]
  · rw [foldl_decr_n_food]
    rfl
  all_goals
    show (List.foldl (fun wa p => incr_obstacle_count wa p (-1)) _ _).initial_n_food = _
  all_goals rw [foldl_decr_n_food]
  all_goals rfl

set_option maxHeartbeats 1000000 in
/-- Claim C1 (amended): when two manual length-4 snakes' decided moves land
both heads on the same previously free cell in the same tick, the list
returned by `simulate` contains exactly the agent that occurs first in
`alive_agents`; the second agent survives, because the first agent's death
decrements drop the shared head cell's counter back to 1 before the second
agent's collision check runs. -/
theorem head_to_head_first_dies
    (o : Oracle) (w : SnakeWorld) (i j : ℕ) (a0 a1 a2 a3 b0 b1 b2 b3 c : Pos)
    (hij : i ≠ j)
    (halive : w.alive_agents = [i, j])
    (hi : i < w.agents.length) (hj : j < w.agents.length)
    (hApol : (getAgent w i).policy = .player)
    (hAreq : (getAgent w i).dir_requests = [])
    (hApos : (getAgent w i).pos = [a0, a1, a2, a3])
    (hBpol : (getAgent w j).policy = .player)
    (hBreq : (getAgent w j).dir_requests = [])
    (hBpos : (getAgent w j).pos = [b0, b1, b2, b3])
    (hc1 : get_neighbor w a3 (getAgent w i).dir = c)
    (hc2 : get_neighbor w b3 (getAgent w j).dir = c)
    (hfree : w.obstacle_count c = 0)
    (hcA : c ∉ [a0, a1, a2, a3]) (hcB : c ∉ [b0, b1, b2, b3])
    (hcf : c ∉ w.food_pos)
    (hnf : w.initial_n_food ≤ w.food_pos.length)
    (hshuf : ∀ l, (o.shuffle l).Perm l) :
    simDeads o w 0 = some [i] := by
  have hji : j ≠ i := Ne.symm hij
  have hca0 : c ≠ a0 := fun h => hcA (by simp [h])
  have hca1 : c ≠ a1 := fun h => hcA (by simp [h])
  have hca2 : c ≠ a2 := fun h => hcA (by simp [h])
  have hca3 : c ≠ a3 := fun h => hcA (by simp [h])
  have hcb0 : c ≠ b0 := fun h => hcB (by simp [h])
  have hcb1 : c ≠ b1 := fun h => hcB (by simp [h])
  have hcb2 : c ≠ b2 := fun h => hcB (by simp [h])
  have hcb3 : c ≠ b3 := fun h => hcB (by simp [h])
  -- decide phase: both players keep their current direction
  have hdeci : decide_direction w i = w := by
    simp [decide_direction, hApol, hAreq]
  have hdecj : decide_direction w j = w := by
    simp [decide_direction, hBpol, hBreq]
  have hdec : decide_phase w = (w, [(getAgent w i).dir, (getAgent w j).dir]) := by
    simp [decide_phase, halive, hdeci, hdecj]
  -- move phase
  have hmv : move_phase w [(getAgent w i).dir, (getAgent w j).dir] =
      agentMove (agentMove w i (getAgent w i).dir) j (getAgent w j).dir := by
    simp [move_phase, halive]
  have hheadA : get_head (getAgent w i) = a3 := by
    rw [get_head, hApos]
    rfl
  have hnh1 : get_neighbor w (get_head (getAgent w i)) (getAgent w i).dir = c := by
    rw [hheadA, hc1]
  have hA1 : getAgent (agentMove w i (getAgent w i).dir) i =
      { getAgent w i with pos := [a1, a2, a3, c], last_tail_pos := some a0 } := by
    rw [agentMove_agent_self w i _ hi, hnh1, hApos]
    rfl
  have hB1 : getAgent (agentMove w i (getAgent w i).dir) j = getAgent w j :=
    agentMove_agent_ne w i j _ hji
  have hlen1 : (agentMove w i (getAgent w i).dir).agents.length = w.agents.length :=
    agentMove_agents_length w i _
  have hheadB1 : get_head (getAgent (agentMove w i (getAgent w i).dir) j) = b3 := by
    rw [hB1, get_head, hBpos]
    rfl
  have hnh2 : get_neighbor (agentMove w i (getAgent w i).dir)
      (get_head (getAgent (agentMove w i (getAgent w i).dir) j)) (getAgent w j).dir = c := by
    rw [hheadB1, get_neighbor_congr w (agentMove w i (getAgent w i).dir) rfl rfl, hc2]
  have hA2 : getAgent (agentMove (agentMove w i (getAgent w i).dir) j (getAgent w j).dir) i =
      { getAgent w i with pos := [a1, a2, a3, c], last_tail_pos := some a0 } := by
    rw [agentMove_agent_ne _ j i _ hij, hA1]
  have hB2 : getAgent (agentMove (agentMove w i (getAgent w i).dir) j (getAgent w j).dir) j =
      { getAgent w j with pos := [b1, b2, b3, c], last_tail_pos := some b0 } := by
    rw [agentMove_agent_self _ j _ (hlen1 ▸ hj), hnh2, hB1, hBpos]
    rfl
  -- grid values at the shared cell
  have hg1c : (agentMove w i (getAgent w i).dir).obstacle_count c = 1 := by
    rw [agentMove_obstacle, hnh1, hApos, hfree]
    have hhd : ([a0, a1, a2, a3] ++ [c]).headD ((0 : ℤ), (0 : ℤ)) = a0 := rfl
    rw [hhd, if_pos rfl, if_neg hca0]
    ring
  have hg2c : (agentMove (agentMove w i (getAgent w i).dir) j
      (getAgent w j).dir).obstacle_count c = 2 := by
    rw [agentMove_obstacle, hnh2, hB1, hBpos, hg1c]
    have hhd : ([b0, b1, b2, b3] ++ [c]).headD ((0 : ℤ), (0 : ℤ)) = b0 := rfl
    rw [hhd, if_pos rfl, if_neg hcb0]
    ring
  -- self-collision checks: both heads are fresh cells, crossing counts 2, cut 0
  have hhead2i : get_head (getAgent (agentMove (agentMove w i (getAgent w i).dir) j
      (getAgent w j).dir) i) = c := by
    rw [hA2, get_head]
    rfl
  have hhead2j : get_head (getAgent (agentMove (agentMove w i (getAgent w i).dir) j
      (getAgent w j).dir) j) = c := by
    rw [hB2, get_head]
    rfl
  have hidxA : ([a1, a2, a3, c] : List Pos).indexOf c = 3 := by
    have e1 : (a1 == c) = false := beq_eq_false_iff_ne.mpr (Ne.symm hca1)
    have e2 : (a2 == c) = false := beq_eq_false_iff_ne.mpr (Ne.symm hca2)
    have e3 : (a3 == c) = false := beq_eq_false_iff_ne.mpr (Ne.symm hca3)
    simp [List.indexOf_cons, e1, e2, e3]
  have hidxB : ([b1, b2, b3, c] : List Pos).indexOf c = 3 := by
    have e1 : (b1 == c) = false := beq_eq_false_iff_ne.mpr (Ne.symm hcb1)
    have e2 : (b2 == c) = false := beq_eq_false_iff_ne.mpr (Ne.symm hcb2)
    have e3 : (b3 == c) = false := beq_eq_false_iff_ne.mpr (Ne.symm hcb3)
    simp [List.indexOf_cons, e1, e2, e3]
  have hchki : check_self_collision (agentMove (agentMove w i (getAgent w i).dir) j
      (getAgent w j).dir) i = 0 := by
    simp only [check_self_collision, hhead2i, get_obstacle_count, hg2c]
    rw [hA2]
    show (([a1, a2, a3, c] : List Pos).indexOf c + 1) % ([a1, a2, a3, c] : List Pos).length = 0
    rw [hidxA]
    simp
  have hchkj : check_self_collision (agentMove (agentMove w i (getAgent w i).dir) j
      (getAgent w j).dir) j = 0 := by
    simp only [check_self_collision, hhead2j, get_obstacle_count, hg2c]
    rw [hB2]
    show (([b1, b2, b3, c] : List Pos).indexOf c + 1) % ([b1, b2, b3, c] : List Pos).length = 0
    rw [hidxB]
    simp
  have halive2 : (agentMove (agentMove w i (getAgent w i).dir) j
      (getAgent w j).dir).alive_agents = [i, j] := halive
  have hcut : cut_phase (agentMove (agentMove w i (getAgent w i).dir) j
      (getAgent w j).dir) = agentMove (agentMove w i (getAgent w i).dir) j
      (getAgent w j).dir :=
    cut_phase_zero_two _ i j halive2 hchki hchkj
  -- food phase: the shared cell holds no food
  have hfood : food_phase (agentMove (agentMove w i (getAgent w i).dir) j
      (getAgent w j).dir) = .ok (agentMove (agentMove w i (getAgent w i).dir) j
      (getAgent w j).dir, []) := by
    refine food_phase_none_two _ i j halive2 ?_ ?_
    · rw [hhead2i, agentMove_food, agentMove_food]
      exact hcf
    · rw [hhead2j, agentMove_food, agentMove_food]
      exact hcf
  -- kill phase: the first agent dies, its decrements hide the collision from
  -- the second agent
  have hcolli : collides_another (agentMove (agentMove w i (getAgent w i).dir) j
      (getAgent w j).dir) i = true := by
    simp only [collides_another, hhead2i, get_obstacle_count, hg2c]
    rw [halive2]
    have hjc : (getAgent (agentMove (agentMove w i (getAgent w i).dir) j
        (getAgent w j).dir) j).pos.contains c = true := by
      rw [hB2]
      exact List.elem_eq_true_of_mem (by simp)
    simp only [List.any_cons, List.any_nil, beq_self_eq_true, Bool.not_true,
      Bool.false_and, Bool.false_or, Bool.or_false, beq_eq_false_iff_ne.mpr hji,
      Bool.not_false, Bool.true_and]
    exact hjc
  have hcntA : (([a1, a2, a3, c] : List Pos).count c : ℤ) = 1 := by
    have h1 : (a1 == c) = false := beq_eq_false_iff_ne.mpr (Ne.symm hca1)
    have h2 : (a2 == c) = false := beq_eq_false_iff_ne.mpr (Ne.symm hca2)
    have h3 : (a3 == c) = false := beq_eq_false_iff_ne.mpr (Ne.symm hca3)
    simp [List.count_cons, h1, h2, h3]
  have hgdiec : (agentDie (agentMove (agentMove w i (getAgent w i).dir) j
      (getAgent w j).dir) i).obstacle_count c = 1 := by
    rw [agentDie_obstacle, hg2c, hA2]
    show 2 - (([a1, a2, a3, c] : List Pos).count c : ℤ) = 1
    rw [hcntA]
    ring
  have hcollj : collides_another (agentDie (agentMove (agentMove w i
      (getAgent w i).dir) j (getAgent w j).dir) i) j = false := by
    simp only [collides_another]
    rw [agentDie_agent_ne _ i j hji, hhead2j, get_obstacle_count, hgdiec]
    rw [if_neg (by norm_num : ¬ (1 : ℤ) < 1)]
  have hkill : kill_phase (agentMove (agentMove w i (getAgent w i).dir) j
      (getAgent w j).dir) = (agentDie (agentMove (agentMove w i (getAgent w i).dir) j
      (getAgent w j).dir) i, [i]) :=
    kill_phase_two _ i j halive2 hcolli hcollj
  have hshufi : o.shuffle [i] = [i] := List.perm_singleton.mp (hshuf [i])
  have hW7f : (kill_agents (agentDie (agentMove (agentMove w i (getAgent w i).dir) j
      (getAgent w j).dir) i) [i]).food_pos = w.food_pos := by
    rw [(kill_agents_food _ _).1, agentDie_food_pos, agentMove_food, agentMove_food]
  have hW7n : (kill_agents (agentDie (agentMove (agentMove w i (getAgent w i).dir) j
      (getAgent w j).dir) i) [i]).initial_n_food = w.initial_n_food := by
    rw [(kill_agents_food _ _).2, agentDie_initial_n_food, agentMove_n_food, agentMove_n_food]
  have hspawn : spawn_missing_food o (kill_agents (agentDie (agentMove (agentMove w i
      (getAgent w i).dir) j (getAgent w j).dir) i) [i]) 0 =
      .ok (kill_agents (agentDie (agentMove (agentMove w i (getAgent w i).dir) j
        (getAgent w j).dir) i) [i], 0) := by
    apply spawn_missing_food_noop
    rw [hW7f, hW7n]
    exact hnf
  -- assemble the whole tick
  have hsim : simulate o w 0 = .ok ([i], respawn_dead_agent o
      (kill_agents (agentDie (agentMove (agentMove w i (getAgent w i).dir) j
        (getAgent w j).dir) i) [i]), 0) := by
    simp only [simulate, hdec]
    rw [hmv, hcut, hfood]
    show Except.bind _ _ = _
    rw [Except.bind]
    simp only [grow_phase, List.foldl_nil, hkill, hshufi, hspawn]
    show Except.bind _ _ = _
    rw [Except.bind]
    rfl
  simp [simDeads, hsim]

theorem head_to_head_first_dies_witness :
    simDeads oId cw1 0 = some [0] :=
  head_to_head_first_dies oId cw1 0 1 (6, 3) (0, 3) (1, 3) (2, 3) (3, 6) (3, 0) (3, 1) (3, 2)
    (3, 3) (by decide) (by decide) (by decide) (by decide) (by decide) (by decide) (by decide)
    (by decide) (by decide) (by decide) (by decide) (by decide) (by decide) (by decide)
    (by decide) (by decide) (by decide) (fun l => List.Perm.refl l)

/-- Counterexample to claim C1 as stated: on the 7×7 arena `cw1` both snakes'
decided moves land their heads on the same previously free cell `(3,3)` in the
same tick, yet the death list returned by `simulate` is `[0]`: it does not
contain agent `1`, so the two agents do not both die. -/
theorem head_to_head_second_survives :
    get_neighbor cw1 (get_head (getAgent cw1 0)) (getAgent cw1 0).dir = (3, 3) ∧
    get_neighbor cw1 (get_head (getAgent cw1 1)) (getAgent cw1 1).dir = (3, 3) ∧
    cw1.obstacle_count (3, 3) = 0 ∧
    simDeads oId cw1 0 = some [0] ∧ ¬ (1 : ℕ) ∈ ([0] : List ℕ) := by
  decide

/-! Grid-conservation bookkeeping (claim C2). -/

lemma bodySum_congr (l : List ℕ) (w w' : SnakeWorld)
    (h : ∀ i ∈ l, (getAgent w' i).pos = (getAgent w i).pos) (p : Pos) :
    bodySum l w' p = bodySum l w p := by
  unfold bodySum
  congr 1
  exact List.map_congr_left fun i hi => by rw [h i hi]

lemma bodySum_perm (l l' : List ℕ) (w : SnakeWorld) (h : l.Perm l') (p : Pos) :
    bodySum l w p = bodySum l' w p :=
  (h.map _).sum_eq

lemma bodySum_cons (i : ℕ) (l : List ℕ) (w : SnakeWorld) (p : Pos) :
    bodySum (i :: l) w p = (((getAgent w i).pos.count p : ℕ) : ℤ) + bodySum l w p := by
  simp [bodySum]

lemma bodySum_append (l1 l2 : List ℕ) (w : SnakeWorld) (p : Pos) :
    bodySum (l1 ++ l2) w p = bodySum l1 w p + bodySum l2 w p := by
  simp [bodySum]

lemma bodySum_erase (l : List ℕ) (j : ℕ) (w : SnakeWorld) (hj : j ∈ l) (p : Pos) :
    bodySum (l.erase j) w p = bodySum l w p - (((getAgent w j).pos.count p : ℕ) : ℤ) := by
  rw [bodySum_perm l (j :: l.erase j) w (List.perm_cons_erase hj) p, bodySum_cons]
  ring

lemma agentMove_alive (w : SnakeWorld) (i : ℕ) (d : Dir) :
    (agentMove w i d).alive_agents = w.alive_agents := rfl

lemma agentMove_dead (w : SnakeWorld) (i : ℕ) (d : Dir) :
    (agentMove w i d).dead_agents = w.dead_agents := rfl

lemma agentMove_width (w : SnakeWorld) (i : ℕ) (d : Dir) :
    (agentMove w i d).width = w.width := rfl

lemma agentMove_height (w : SnakeWorld) (i : ℕ) (d : Dir) :
    (agentMove w i d).height = w.height := rfl

lemma count_move (x : Pos) (t : List Pos) (nh p : Pos) :
    (((t ++ [nh]).count p : ℕ) : ℤ) =
      (((x :: t).count p : ℕ) : ℤ) + (if p = nh then 1 else 0) -
        (if p = x then 1 else 0) := by
  have h1 : ([nh] : List Pos).count p = if p = nh then 1 else 0 := by
    rcases eq_or_ne p nh with rfl | hnh
    · simp
    · rw [List.count_eq_zero.mpr (by simp [hnh]), if_neg hnh]
  have h2 : ((x :: t) : List Pos).count p = t.count p + if p = x then 1 else 0 := by
    rcases eq_or_ne p x with rfl | hx
    · simp [List.count_cons]
    · simp [List.count_cons, hx]
  rw [List.count_append, h1, h2]
  split_ifs <;> push_cast <;> ring

lemma agentMove_conserved (w : SnakeWorld) (i : ℕ) (d : Dir)
    (hi : i < w.agents.length) (hnd : w.alive_agents.Nodup)
    (hmem : i ∈ w.alive_agents) (hne : (getAgent w i).pos ≠ [])
    (hc : conserved w) : conserved (agentMove w i d) := by
  intro p
  obtain ⟨x, t, hxt⟩ : ∃ x t, (getAgent w i).pos = x :: t := by
    cases hp : (getAgent w i).pos with
    | nil => exact absurd hp hne
    | cons x t => exact ⟨x, t, rfl⟩
  have hperm := List.perm_cons_erase hmem
  have herase : bodySum (w.alive_agents.erase i) (agentMove w i d) p =
      bodySum (w.alive_agents.erase i) w p := by
    refine bodySum_congr _ _ _ (fun k hk => ?_) p
    rw [agentMove_agent_ne w i k d ((hnd.mem_erase_iff.mp hk).1)]
  have hpos' : (getAgent (agentMove w i d) i).pos =
      t ++ [get_neighbor w (get_head (getAgent w i)) d] := by
    rw [agentMove_agent_self w i d hi]
    show ((getAgent w i).pos ++ [get_neighbor w (get_head (getAgent w i)) d]).drop 1 =
      t ++ [get_neighbor w (get_head (getAgent w i)) d]
    rw [hxt]
    rfl
  have hhd : ((getAgent w i).pos ++
      [get_neighbor w (get_head (getAgent w i)) d]).headD ((0 : ℤ), (0 : ℤ)) = x := by
    rw [hxt]
    rfl
  rw [show (agentMove w i d).alive_agents = w.alive_agents from rfl,
    bodySum_perm _ _ _ hperm, bodySum_cons, herase, hpos', agentMove_obstacle, hhd, hc p,
    bodySum_perm _ _ _ hperm, bodySum_cons, hxt,
    count_move x t (get_neighbor w (get_head (getAgent w i)) d) p]
  ring

lemma agentMove_pos_self (w : SnakeWorld) (i : ℕ) (d : Dir) (hi : i < w.agents.length)
    (x : Pos) (t : List Pos) (hxt : (getAgent w i).pos = x :: t) :
    (getAgent (agentMove w i d) i).pos =
      t ++ [get_neighbor w (get_head (getAgent w i)) d] := by
  rw [agentMove_agent_self w i d hi]
  show ((getAgent w i).pos ++ [get_neighbor w (get_head (getAgent w i)) d]).drop 1 =
    t ++ [get_neighbor w (get_head (getAgent w i)) d]
  rw [hxt]
  rfl

lemma agentMove_tail_self (w : SnakeWorld) (i : ℕ) (d : Dir) (hi : i < w.agents.length)
    (x : Pos) (t : List Pos) (hxt : (getAgent w i).pos = x :: t) :
    (getAgent (agentMove w i d) i).last_tail_pos = some x := by
  rw [agentMove_agent_self w i d hi]
  show some (((getAgent w i).pos ++
    [get_neighbor w (get_head (getAgent w i)) d]).headD ((0 : ℤ), (0 : ℤ))) = some x
  rw [hxt]
  rfl

lemma get_neighbor_inGrid (w : SnakeWorld) (p : Pos) (d : Dir)
    (hw : 0 < w.width) (hh : 0 < w.height) : inGrid w (get_neighbor w p d) := by
  have hw' : ((w.width : ℤ)) ≠ 0 := by exact_mod_cast hw.ne'
  have hh' : ((w.height : ℤ)) ≠ 0 := by exact_mod_cast hh.ne'
  exact ⟨Int.emod_nonneg _ hw', Int.emod_lt_of_pos _ (by exact_mod_cast hw),
    Int.emod_nonneg _ hh', Int.emod_lt_of_pos _ (by exact_mod_cast hh)⟩

lemma agentMove_good (w : SnakeWorld) (i : ℕ) (d : Dir)
    (hwf : wfWorld w) (hmem : i ∈ w.alive_agents) (hc : conserved w)
    (hcg : cellsInGrid w) (htg : tailsInGrid w) :
    wfWorld (agentMove w i d) ∧ conserved (agentMove w i d) ∧
      cellsInGrid (agentMove w i d) ∧ tailsInGrid (agentMove w i d) := by
  obtain ⟨hnd, hlt, hne, hw, hh⟩ := hwf
  have hi : i < w.agents.length := hlt i (List.mem_append_left _ hmem)
  obtain ⟨x, t, hxt⟩ : ∃ x t, (getAgent w i).pos = x :: t := by
    cases hp : (getAgent w i).pos with
    | nil => exact absurd hp (hne i hmem)
    | cons x t => exact ⟨x, t, rfl⟩
  have hndA : w.alive_agents.Nodup := (List.nodup_append.mp hnd).1
  refine ⟨⟨hnd, ?_, ?_, hw, hh⟩, agentMove_conserved w i d hi hndA hmem (hne i hmem) hc,
    ?_, ?_⟩
  · intro k hk
    rw [agentMove_agents_length]
    exact hlt k hk
  · intro k hk
    rcases eq_or_ne k i with rfl | hki
    · rw [agentMove_pos_self w k d hi x t hxt]
      simp
    · rw [agentMove_agent_ne w i k d hki]
      exact hne k hk
  · intro k hk q hq
    rcases eq_or_ne k i with rfl | hki
    · rw [agentMove_pos_self w k d hi x t hxt] at hq
      rcases List.mem_append.mp hq with hq | hq
      · exact hcg k hmem q (hxt ▸ List.mem_cons_of_mem x hq)
      · rw [List.mem_singleton.mp hq]
        exact get_neighbor_inGrid w _ d hw hh
    · rw [agentMove_agent_ne w i k d hki] at hq
      exact hcg k hk q hq
  · intro k hk s hs
    rcases eq_or_ne k i with rfl | hki
    · rw [agentMove_tail_self w k d hi x t hxt] at hs
      obtain rfl : x = s := by injection hs
      exact hcg k hmem x (hxt ▸ List.mem_cons_self x t)
    · rw [agentMove_agent_ne w i k d hki] at hs
      exact htg k hk s hs

lemma move_fold_frame (l : List (ℕ × Dir)) : ∀ (w : SnakeWorld),
    (l.foldl (fun wa jd => agentMove wa jd.1 jd.2) w).alive_agents = w.alive_agents ∧
    (l.foldl (fun wa jd => agentMove wa jd.1 jd.2) w).dead_agents = w.dead_agents ∧
    (l.foldl (fun wa jd => agentMove wa jd.1 jd.2) w).food_pos = w.food_pos ∧
    (l.foldl (fun wa jd => agentMove wa jd.1 jd.2) w).width = w.width ∧
    (l.foldl (fun wa jd => agentMove wa jd.1 jd.2) w).height = w.height := by
  induction l with
  | nil => exact fun w => ⟨rfl, rfl, rfl, rfl, rfl⟩
  | cons jd rest ih =>
      intro w
      rw [List.foldl_cons]
      exact ih (agentMove w jd.1 jd.2)

lemma move_fold_good (l : List (ℕ × Dir)) : ∀ (w : SnakeWorld),
    wfWorld w → (∀ x ∈ l, x.1 ∈ w.alive_agents) → conserved w → cellsInGrid w →
    tailsInGrid w →
    wfWorld (l.foldl (fun wa jd => agentMove wa jd.1 jd.2) w) ∧
    conserved (l.foldl (fun wa jd => agentMove wa jd.1 jd.2) w) ∧
    cellsInGrid (l.foldl (fun wa jd => agentMove wa jd.1 jd.2) w) ∧
    tailsInGrid (l.foldl (fun wa jd => agentMove wa jd.1 jd.2) w) := by
  induction l with
  | nil => exact fun w hwf _ hc hcg htg => ⟨hwf, hc, hcg, htg⟩
  | cons jd rest ih =>
      intro w hwf hl hc hcg htg
      rw [List.foldl_cons]
      obtain ⟨hwf', hc', hcg', htg'⟩ :=
        agentMove_good w jd.1 jd.2 hwf (hl jd (List.mem_cons_self jd rest)) hc hcg htg
      exact ih (agentMove w jd.1 jd.2) hwf'
        (fun x hx => hl x (List.mem_cons_of_mem jd hx)) hc' hcg' htg'

lemma foldl_decr_alive (l : List Pos) (w : SnakeWorld) :
    (l.foldl (fun wa p => incr_obstacle_count wa p (-1)) w).alive_agents =
      w.alive_agents := by
  induction l generalizing w with
  | nil => rfl
  | cons p rest ih => rw [List.foldl_cons, ih]; rfl

lemma foldl_decr_dead (l : List Pos) (w : SnakeWorld) :
    (l.foldl (fun wa p => incr_obstacle_count wa p (-1)) w).dead_agents =
      w.dead_agents := by
  induction l generalizing w with
  | nil => rfl
  | cons p rest ih => rw [List.foldl_cons, ih]; rfl

lemma foldl_decr_width (l : List Pos) (w : SnakeWorld) :
    (l.foldl (fun wa p => incr_obstacle_count wa p (-1)) w).width = w.width := by
  induction l generalizing w with
  | nil => rfl
  | cons p rest ih => rw [List.foldl_cons, ih]; rfl

lemma foldl_decr_height (l : List Pos) (w : SnakeWorld) :
    (l.foldl (fun wa p => incr_obstacle_count wa p (-1)) w).height = w.height := by
  induction l generalizing w with
  | nil => rfl
  | cons p rest ih => rw [List.foldl_cons, ih]; rfl

lemma move_phase_good (w : SnakeWorld) (dirs : List Dir)
    (hwf : wfWorld w) (hc : conserved w) (hcg : cellsInGrid w) (htg : tailsInGrid w) :
    (wfWorld (move_phase w dirs) ∧ conserved (move_phase w dirs) ∧
      cellsInGrid (move_phase w dirs) ∧ tailsInGrid (move_phase w dirs)) ∧
    (move_phase w dirs).alive_agents = w.alive_agents ∧
    (move_phase w dirs).dead_agents = w.dead_agents ∧
    (move_phase w dirs).food_pos = w.food_pos ∧
    (move_phase w dirs).width = w.width ∧
    (move_phase w dirs).height = w.height := by
  refine ⟨move_fold_good _ w hwf (fun x hx => ?_) hc hcg htg, move_fold_frame _ w⟩
  exact (List.of_mem_zip hx).1

lemma agentCut_obstacle (w : SnakeWorld) (i : ℕ) (n : ℕ) (q : Pos) :
    (agentCut w i n).obstacle_count q =
      w.obstacle_count q - ((getAgent w i).pos.take n).count q := by
  show (setAgent (((getAgent w i).pos.take n).foldl
    (fun wa p => incr_obstacle_count wa p (-1)) w) i _).obstacle_count q = _
  rw [show ∀ (w' : SnakeWorld) (a : Agent), (setAgent w' i a).obstacle_count q =
    w'.obstacle_count q from fun _ _ => rfl]
  exact foldl_decr_obstacle _ w q

lemma agentCut_agent_ne (w : SnakeWorld) (i k : ℕ) (n : ℕ) (hk : k ≠ i) :
    getAgent (agentCut w i n) k = getAgent w k := by
  show getAgent (setAgent _ i _) k = _
  rw [getAgent_setAgent_ne _ i k _ hk]
  exact getAgent_congr _ _ k (foldl_decr_agents _ w)

lemma agentCut_tail (w : SnakeWorld) (i : ℕ) (n : ℕ) (hi : i < w.agents.length) :
    (getAgent (agentCut w i n) i).last_tail_pos = (getAgent w i).last_tail_pos := by
  unfold agentCut
  rw [getAgent_setAgent_self]
  rw [foldl_decr_agents]
  exact hi

lemma agentCut_alive (w : SnakeWorld) (i : ℕ) (n : ℕ) :
    (agentCut w i n).alive_agents = w.alive_agents := by
  show (setAgent _ i _).alive_agents = _
  show (((getAgent w i).pos.take n).foldl
    (fun wa p => incr_obstacle_count wa p (-1)) w).alive_agents = _
  exact foldl_decr_alive _ w

lemma agentCut_dead (w : SnakeWorld) (i : ℕ) (n : ℕ) :
    (agentCut w i n).dead_agents = w.dead_agents := by
  show (((getAgent w i).pos.take n).foldl
    (fun wa p => incr_obstacle_count wa p (-1)) w).dead_agents = _
  exact foldl_decr_dead _ w

lemma agentCut_food (w : SnakeWorld) (i : ℕ) (n : ℕ) :
    (agentCut w i n).food_pos = w.food_pos := by
  show (((getAgent w i).pos.take n).foldl
    (fun wa p => incr_obstacle_count wa p (-1)) w).food_pos = _
  exact foldl_decr_food _ w

lemma agentCut_width (w : SnakeWorld) (i : ℕ) (n : ℕ) :
    (agentCut w i n).width = w.width := by
  show (((getAgent w i).pos.take n).foldl
    (fun wa p => incr_obstacle_count wa p (-1)) w).width = _
  exact foldl_decr_width _ w

lemma agentCut_height (w : SnakeWorld) (i : ℕ) (n : ℕ) :
    (agentCut w i n).height = w.height := by
  show (((getAgent w i).pos.take n).foldl
    (fun wa p => incr_obstacle_count wa p (-1)) w).height = _
  exact foldl_decr_height _ w

lemma agentCut_agents_length (w : SnakeWorld) (i : ℕ) (n : ℕ) :
    (agentCut w i n).agents.length = w.agents.length := by
  show (setAgent _ i _).agents.length = _
  rw [setAgent_agents_length]
  show (((getAgent w i).pos.take n).foldl
    (fun wa p => incr_obstacle_count wa p (-1)) w).agents.length = _
  rw [foldl_decr_agents]

lemma agentCut_conserved (w : SnakeWorld) (i : ℕ) (n : ℕ)
    (hi : i < w.agents.length) (hnd : w.alive_agents.Nodup)
    (hmem : i ∈ w.alive_agents) (hc : conserved w) : conserved (agentCut w i n) := by
  intro p
  have hperm := List.perm_cons_erase hmem
  have herase : bodySum (w.alive_agents.erase i) (agentCut w i n) p =
      bodySum (w.alive_agents.erase i) w p := by
    refine bodySum_congr _ _ _ (fun k hk => ?_) p
    rw [agentCut_agent_ne w i k n ((hnd.mem_erase_iff.mp hk).1)]
  have hsplit : ((getAgent w i).pos.count p : ℤ) =
      (((getAgent w i).pos.take n).count p : ℤ) +
        (((getAgent w i).pos.drop n).count p : ℤ) := by
    conv_lhs => rw [← List.take_append_drop n (getAgent w i).pos]
    rw [List.count_append]
    push_cast
    ring
  rw [agentCut_alive, bodySum_perm _ _ _ hperm, bodySum_cons, herase,
    agentCut_pos w i n hi, agentCut_obstacle, hc p, bodySum_perm _ _ _ hperm,
    bodySum_cons, hsplit]
  ring

lemma agentCut_good (w : SnakeWorld) (i : ℕ) (n : ℕ)
    (hwf : wfWorld w) (hmem : i ∈ w.alive_agents)
    (hn : n < (getAgent w i).pos.length)
    (hc : conserved w) (hcg : cellsInGrid w) (htg : tailsInGrid w) :
    wfWorld (agentCut w i n) ∧ conserved (agentCut w i n) ∧
      cellsInGrid (agentCut w i n) ∧ tailsInGrid (agentCut w i n) := by
  obtain ⟨hnd, hlt, hne, hw, hh⟩ := hwf
  have hi : i < w.agents.length := hlt i (List.mem_append_left _ hmem)
  have hndA : w.alive_agents.Nodup := (List.nodup_append.mp hnd).1
  refine ⟨⟨?_, ?_, ?_, ?_, ?_⟩,
    agentCut_conserved w i n hi hndA hmem hc, ?_, ?_⟩
  · rw [agentCut_alive, agentCut_dead]
    exact hnd
  · intro k hk
    rw [agentCut_alive, agentCut_dead] at hk
    rw [agentCut_agents_length]
    exact hlt k hk
  · intro k hk
    rw [agentCut_alive] at hk
    rcases eq_or_ne k i with rfl | hki
    · rw [agentCut_pos w k n hi]
      intro hnil
      exact absurd (List.drop_eq_nil_iff.mp hnil) (Nat.not_le.mpr hn)
    · rw [agentCut_agent_ne w i k n hki]
      exact hne k hk
  · rw [agentCut_width]
    exact hw
  · rw [agentCut_height]
    exact hh
  · intro k hk q hq
    rw [agentCut_alive] at hk
    have hgw : inGrid (agentCut w i n) q ↔ inGrid w q := by
      rw [inGrid, inGrid, agentCut_width, agentCut_height]
    rw [hgw]
    rcases eq_or_ne k i with rfl | hki
    · rw [agentCut_pos w k n hi] at hq
      exact hcg k hk q (List.drop_subset n _ hq)
    · rw [agentCut_agent_ne w i k n hki] at hq
      exact hcg k hk q hq
  · intro k hk s hs
    rw [agentCut_alive] at hk
    have hgw : inGrid (agentCut w i n) s ↔ inGrid w s := by
      rw [inGrid, inGrid, agentCut_width, agentCut_height]
    rw [hgw]
    rcases eq_or_ne k i with rfl | hki
    · rw [agentCut_tail w k n hi] at hs
      exact htg k hk s hs
    · rw [agentCut_agent_ne w i k n hki] at hs
      exact htg k hk s hs

lemma check_self_collision_lt (w : SnakeWorld) (i : ℕ)
    (hne : (getAgent w i).pos ≠ []) :
    check_self_collision w i < (getAgent w i).pos.length := by
  have hlen : 0 < (getAgent w i).pos.length := List.length_pos.mpr hne
  simp only [check_self_collision]
  split
  · exact Nat.mod_lt _ hlen
  · exact hlen

lemma cut_fold_frame (l : List (ℕ × ℕ)) : ∀ (w : SnakeWorld),
    (l.foldl (fun wa jc => agentCut wa jc.1 jc.2) w).alive_agents = w.alive_agents ∧
    (l.foldl (fun wa jc => agentCut wa jc.1 jc.2) w).dead_agents = w.dead_agents ∧
    (l.foldl (fun wa jc => agentCut wa jc.1 jc.2) w).food_pos = w.food_pos ∧
    (l.foldl (fun wa jc => agentCut wa jc.1 jc.2) w).width = w.width ∧
    (l.foldl (fun wa jc => agentCut wa jc.1 jc.2) w).height = w.height := by
  induction l with
  | nil => exact fun w => ⟨rfl, rfl, rfl, rfl, rfl⟩
  | cons jc rest ih =>
      intro w
      rw [List.foldl_cons]
      obtain ⟨h1, h2, h3, h4, h5⟩ := ih (agentCut w jc.1 jc.2)
      exact ⟨h1.trans (agentCut_alive w jc.1 jc.2), h2.trans (agentCut_dead w jc.1 jc.2),
        h3.trans (agentCut_food w jc.1 jc.2), h4.trans (agentCut_width w jc.1 jc.2),
        h5.trans (agentCut_height w jc.1 jc.2)⟩

lemma cut_fold_good (l : List (ℕ × ℕ)) : ∀ (w : SnakeWorld),
    wfWorld w → (∀ x ∈ l, x.1 ∈ w.alive_agents) → (l.map Prod.fst).Nodup →
    (∀ x ∈ l, x.2 < (getAgent w x.1).pos.length) →
    conserved w → cellsInGrid w → tailsInGrid w →
    wfWorld (l.foldl (fun wa jc => agentCut wa jc.1 jc.2) w) ∧
    conserved (l.foldl (fun wa jc => agentCut wa jc.1 jc.2) w) ∧
    cellsInGrid (l.foldl (fun wa jc => agentCut wa jc.1 jc.2) w) ∧
    tailsInGrid (l.foldl (fun wa jc => agentCut wa jc.1 jc.2) w) := by
  induction l with
  | nil => exact fun w hwf _ _ _ hc hcg htg => ⟨hwf, hc, hcg, htg⟩
  | cons jc rest ih =>
      intro w hwf hl hfst hlen hc hcg htg
      rw [List.foldl_cons]
      obtain ⟨hwf', hc', hcg', htg'⟩ := agentCut_good w jc.1 jc.2 hwf
        (hl jc (List.mem_cons_self jc rest)) (hlen jc (List.mem_cons_self jc rest))
        hc hcg htg
      have hjne : ∀ x ∈ rest, x.1 ≠ jc.1 := by
        intro x hx
        have hj : jc.1 ∉ rest.map Prod.fst := (List.nodup_cons.mp hfst).1
        exact fun he => hj (he ▸ List.mem_map_of_mem Prod.fst hx)
      refine ih (agentCut w jc.1 jc.2) hwf' (fun x hx => ?_)
        ((List.nodup_cons.mp hfst).2) (fun x hx => ?_) hc' hcg' htg'
      · rw [agentCut_alive]
        exact hl x (List.mem_cons_of_mem jc hx)
      · rw [agentCut_agent_ne w jc.1 x.1 jc.2 (hjne x hx)]
        exact hlen x (List.mem_cons_of_mem jc hx)

lemma cut_phase_good (w : SnakeWorld)
    (hwf : wfWorld w) (hc : conserved w) (hcg : cellsInGrid w) (htg : tailsInGrid w) :
    (wfWorld (cut_phase w) ∧ conserved (cut_phase w) ∧
      cellsInGrid (cut_phase w) ∧ tailsInGrid (cut_phase w)) ∧
    (cut_phase w).alive_agents = w.alive_agents ∧
    (cut_phase w).dead_agents = w.dead_agents ∧
    (cut_phase w).food_pos = w.food_pos ∧
    (cut_phase w).width = w.width ∧
    (cut_phase w).height = w.height := by
  have hzip : w.alive_agents.zip (w.alive_agents.map fun j => check_self_collision w j) =
      w.alive_agents.map fun a => (a, check_self_collision w a) :=
    (List.map_prod_left_eq_zip _).symm
  have hcp : cut_phase w = (w.alive_agents.map fun a => (a, check_self_collision w a)).foldl
      (fun wa jc => agentCut wa jc.1 jc.2) w := by
    rw [cut_phase, hzip]
  have hndA : w.alive_agents.Nodup := (List.nodup_append.mp hwf.1).1
  rw [hcp]
  refine ⟨cut_fold_good _ w hwf (fun x hx => ?_) ?_ (fun x hx => ?_) hc hcg htg,
    cut_fold_frame _ w⟩
  · obtain ⟨a, ha, rfl⟩ := List.mem_map.mp hx
    exact ha
  · rw [List.map_map]
    rw [show (Prod.fst ∘ fun a => ((a, check_self_collision w a) : ℕ × ℕ)) = id from rfl]
    rw [List.map_id]
    exact hndA
  · obtain ⟨a, ha, rfl⟩ := List.mem_map.mp hx
    exact check_self_collision_lt w a (hwf.2.2.1 a ha)

lemma send_arena_event_ok (w : SnakeWorld) (e : ArenaEvent) (w2 : SnakeWorld)
    (h : send_arena_event w e = .ok w2) :
    w2.agents = w.agents ∧ w2.obstacle_count = w.obstacle_count ∧
      w2.alive_agents = w.alive_agents ∧ w2.dead_agents = w.dead_agents ∧
      w2.width = w.width ∧ w2.height = w.height := by
  unfold send_arena_event at h
  split at h
  · exact Except.noConfusion h
  · obtain rfl := Except.ok.inj h
    exact ⟨rfl, rfl, rfl, rfl, rfl, rfl⟩

lemma consume_food_ok (w : SnakeWorld) (p : Pos) (r : Bool × SnakeWorld)
    (h : consume_food w p = .ok r) :
    r.2.agents = w.agents ∧ r.2.obstacle_count = w.obstacle_count ∧
      r.2.alive_agents = w.alive_agents ∧ r.2.dead_agents = w.dead_agents ∧
      r.2.width = w.width ∧ r.2.height = w.height := by
  unfold consume_food at h
  split at h
  · split at h
    · rcases hsend : send_arena_event { w with food_pos := w.food_pos.erase p }
        (ArenaEvent.foodConsumed p) with e2 | w2
      · rw [hsend] at h
        exact Except.noConfusion h
      · rw [hsend] at h
        obtain rfl : (true, w2) = r := Except.ok.inj h
        obtain ⟨g1, g2, g3, g4, g5, g6⟩ := send_arena_event_ok _ _ _ hsend
        exact ⟨g1, g2, g3, g4, g5, g6⟩
    · obtain rfl : ((false, w) : Bool × SnakeWorld) = r := Except.ok.inj h
      exact ⟨rfl, rfl, rfl, rfl, rfl, rfl⟩
  · obtain rfl : ((false, w) : Bool × SnakeWorld) = r := Except.ok.inj h
    exact ⟨rfl, rfl, rfl, rfl, rfl, rfl⟩

lemma food_fold (l : List ℕ) : ∀ (acc r : SnakeWorld × List ℕ),
    (l.foldlM (fun (acc : SnakeWorld × List ℕ) j => do
      let r ← consume_food acc.1 (get_head (getAgent acc.1 j))
      return (r.2, if r.1 then acc.2 ++ [j] else acc.2)) acc : Except SimError _) = .ok r →
    r.1.agents = acc.1.agents ∧ r.1.obstacle_count = acc.1.obstacle_count ∧
      r.1.alive_agents = acc.1.alive_agents ∧ r.1.dead_agents = acc.1.dead_agents ∧
      r.1.width = acc.1.width ∧ r.1.height = acc.1.height ∧
      ∀ j ∈ r.2, j ∈ acc.2 ∨ j ∈ l := by
  induction l with
  | nil =>
      intro acc r h
      rw [List.foldlM_nil] at h
      obtain rfl : acc = r := Except.ok.inj h
      exact ⟨rfl, rfl, rfl, rfl, rfl, rfl, fun j hj => Or.inl hj⟩
  | cons j0 rest ih =>
      intro acc r h
      rw [List.foldlM_cons] at h
      rcases hcf : consume_food acc.1 (get_head (getAgent acc.1 j0)) with e | cr
      · rw [hcf] at h
        exact Except.noConfusion h
      · rw [hcf] at h
        obtain ⟨h1, h2, h3, h4, h5, h6, h7⟩ :=
          ih (cr.2, if cr.1 then acc.2 ++ [j0] else acc.2) r h
        obtain ⟨g1, g2, g3, g4, g5, g6⟩ := consume_food_ok acc.1 _ cr hcf
        refine ⟨h1.trans g1, h2.trans g2, h3.trans g3, h4.trans g4,
          h5.trans g5, h6.trans g6, fun j hj => ?_⟩
        rcases h7 j hj with hj2 | hj2
        · split at hj2
          · rcases List.mem_append.mp hj2 with hj3 | hj3
            · exact Or.inl hj3
            · exact Or.inr (List.mem_singleton.mp hj3 ▸ List.mem_cons_self j0 rest)
          · exact Or.inl hj2
        · exact Or.inr (List.mem_cons_of_mem j0 hj2)

lemma food_phase_good (w : SnakeWorld) (w4 : SnakeWorld) (g : List ℕ)
    (hres : food_phase w = .ok (w4, g))
    (hwf : wfWorld w) (hc : conserved w) (hcg : cellsInGrid w) (htg : tailsInGrid w) :
    (wfWorld w4 ∧ conserved w4 ∧ cellsInGrid w4 ∧ tailsInGrid w4) ∧
    w4.alive_agents = w.alive_agents ∧ w4.dead_agents = w.dead_agents ∧
    w4.width = w.width ∧ w4.height = w.height ∧
    (∀ j ∈ g, j ∈ w.alive_agents) := by
  obtain ⟨h1, h2, h3, h4, h5, h6, h7⟩ := food_fold w.alive_agents (w, []) (w4, g) hres
  have hag : ∀ j, getAgent w4 j = getAgent w j := fun j => getAgent_congr w w4 j h1
  have hgood : wfWorld w4 ∧ conserved w4 ∧ cellsInGrid w4 ∧ tailsInGrid w4 := by
    refine ⟨⟨?_, ?_, ?_, ?_, ?_⟩, ?_, ?_, ?_⟩
    · rw [h3, h4]
      exact hwf.1
    · intro k hk
      rw [h3, h4] at hk
      rw [h1]
      exact hwf.2.1 k hk
    · intro k hk
      rw [h3] at hk
      rw [hag k]
      exact hwf.2.2.1 k hk
    · rw [h5]
      exact hwf.2.2.2.1
    · rw [h6]
      exact hwf.2.2.2.2
    · intro p
      rw [h2, h3, hc p]
      exact (bodySum_congr _ _ _ (fun i _ => by rw [hag i]) p).symm
    · intro k hk q hq
      rw [h3] at hk
      rw [hag k] at hq
      rw [show inGrid w4 q ↔ inGrid w q by rw [inGrid, inGrid, h5, h6]]
      exact hcg k hk q hq
    · intro k hk s hs
      rw [h3] at hk
      rw [hag k] at hs
      rw [show inGrid w4 s ↔ inGrid w s by rw [inGrid, inGrid, h5, h6]]
      exact htg k hk s hs
  refine ⟨hgood, h3, h4, h5, h6, fun j hj => ?_⟩
  rcases h7 j hj with hj' | hj'
  · exact absurd hj' (List.not_mem_nil j)
  · exact hj'

lemma agentGrow_none (w : SnakeWorld) (i : ℕ)
    (hlt : (getAgent w i).last_tail_pos = none) : agentGrow w i = w := by
  simp only [agentGrow, hlt]

lemma agentGrow_some (w : SnakeWorld) (i : ℕ) (t : Pos)
    (hlt : (getAgent w i).last_tail_pos = some t) :
    agentGrow w i = incr_obstacle_count
      (setAgent w i { getAgent w i with
                      pos := t :: (getAgent w i).pos,
                      last_tail_pos := none }) t 1 := by
  simp only [agentGrow, hlt]

lemma agentGrow_good (w : SnakeWorld) (i : ℕ)
    (hwf : wfWorld w) (hmem : i ∈ w.alive_agents)
    (hc : conserved w) (hcg : cellsInGrid w) (htg : tailsInGrid w) :
    (wfWorld (agentGrow w i) ∧ conserved (agentGrow w i) ∧
      cellsInGrid (agentGrow w i) ∧ tailsInGrid (agentGrow w i)) ∧
    (agentGrow w i).alive_agents = w.alive_agents ∧
    (agentGrow w i).dead_agents = w.dead_agents ∧
    (agentGrow w i).food_pos = w.food_pos ∧
    (agentGrow w i).width = w.width ∧ (agentGrow w i).height = w.height := by
  obtain ⟨hnd, hlt', hne, hw, hh⟩ := hwf
  have hi : i < w.agents.length := hlt' i (List.mem_append_left _ hmem)
  have hndA : w.alive_agents.Nodup := (List.nodup_append.mp hnd).1
  rcases hltp : (getAgent w i).last_tail_pos with - | t
  · rw [agentGrow_none w i hltp]
    exact ⟨⟨⟨hnd, hlt', hne, hw, hh⟩, hc, hcg, htg⟩, rfl, rfl, rfl, rfl, rfl⟩
  · rw [agentGrow_some w i t hltp]
    have hsete : ∀ k, k ≠ i → getAgent (incr_obstacle_count
        (setAgent w i { getAgent w i with
                        pos := t :: (getAgent w i).pos,
                        last_tail_pos := none }) t 1) k = getAgent w k := by
      intro k hk
      show getAgent (setAgent w i _) k = getAgent w k
      exact getAgent_setAgent_ne w i k _ hk
    have hsets : getAgent (incr_obstacle_count
        (setAgent w i { getAgent w i with
                        pos := t :: (getAgent w i).pos,
                        last_tail_pos := none }) t 1) i =
        { getAgent w i with pos := t :: (getAgent w i).pos, last_tail_pos := none } := by
      show getAgent (setAgent w i _) i = _
      exact getAgent_setAgent_self w i _ hi
    have hob : ∀ q, (incr_obstacle_count
        (setAgent w i { getAgent w i with
                        pos := t :: (getAgent w i).pos,
                        last_tail_pos := none }) t 1).obstacle_count q =
        w.obstacle_count q + if q = t then 1 else 0 := by
      intro q
      rw [incr_obstacle_count_apply]
      rw [show ∀ (w' : SnakeWorld) (a : Agent) (ii : ℕ),
        (setAgent w' ii a).obstacle_count q = w'.obstacle_count q from fun _ _ _ => rfl]
      split_ifs <;> ring
    have halive : (incr_obstacle_count
        (setAgent w i { getAgent w i with
                        pos := t :: (getAgent w i).pos,
                        last_tail_pos := none }) t 1).alive_agents = w.alive_agents := rfl
    have hdead : (incr_obstacle_count
        (setAgent w i { getAgent w i with
                        pos := t :: (getAgent w i).pos,
                        last_tail_pos := none }) t 1).dead_agents = w.dead_agents := rfl
    have hlen : (incr_obstacle_count
        (setAgent w i { getAgent w i with
                        pos := t :: (getAgent w i).pos,
                        last_tail_pos := none }) t 1).agents.length = w.agents.length := by
      show (setAgent w i _).agents.length = _
      exact setAgent_agents_length w i _
    refine ⟨⟨⟨hnd, ?_, ?_, hw, hh⟩, ?_, ?_, ?_⟩, rfl, rfl, rfl, rfl, rfl⟩
    · intro k hk
      rw [hlen]
      exact hlt' k hk
    · intro k hk
      rcases eq_or_ne k i with rfl | hk2
      · rw [hsets]
        exact List.cons_ne_nil t _
      · rw [hsete k hk2]
        exact hne k hk
    · intro p
      have hperm := List.perm_cons_erase hmem
      have herase : bodySum (w.alive_agents.erase i) (incr_obstacle_count
          (setAgent w i { getAgent w i with
                          pos := t :: (getAgent w i).pos,
                          last_tail_pos := none }) t 1) p =
          bodySum (w.alive_agents.erase i) w p := by
        refine bodySum_congr _ _ _ (fun k hk => ?_) p
        rw [hsete k ((hndA.mem_erase_iff.mp hk).1)]
      rw [hob p, halive, bodySum_perm _ _ _ hperm, bodySum_cons, herase, hsets, hc p,
        bodySum_perm _ _ _ hperm, bodySum_cons]
      show _ = ((((t :: (getAgent w i).pos).count p : ℕ) : ℤ)) + _
      rcases eq_or_ne p t with rfl | hpt
      · rw [List.count_cons_self, if_pos rfl]
        push_cast
        ring
      · rw [List.count_cons_of_ne (by simpa using hpt), if_neg hpt]
        push_cast
        ring
    · intro k hk q hq
      rcases eq_or_ne k i with rfl | hk2
      · rw [hsets] at hq
        show inGrid w q
        rcases List.mem_cons.mp hq with rfl | hq2
        · exact htg k hmem q hltp
        · exact hcg k hmem q hq2
      · rw [hsete k hk2] at hq
        exact hcg k hk q hq
    · intro k hk s hs
      rcases eq_or_ne k i with rfl | hk2
      · rw [hsets] at hs
        exact Option.noConfusion hs
      · rw [hsete k hk2] at hs
        exact htg k hk s hs

lemma grow_fold_good (l : List ℕ) : ∀ (w : SnakeWorld),
    wfWorld w → (∀ j ∈ l, j ∈ w.alive_agents) → conserved w → cellsInGrid w →
    tailsInGrid w →
    (wfWorld (l.foldl (fun wa j => agentGrow wa j) w) ∧
      conserved (l.foldl (fun wa j => agentGrow wa j) w) ∧
      cellsInGrid (l.foldl (fun wa j => agentGrow wa j) w) ∧
      tailsInGrid (l.foldl (fun wa j => agentGrow wa j) w)) ∧
    (l.foldl (fun wa j => agentGrow wa j) w).alive_agents = w.alive_agents ∧
    (l.foldl (fun wa j => agentGrow wa j) w).dead_agents = w.dead_agents ∧
    (l.foldl (fun wa j => agentGrow wa j) w).food_pos = w.food_pos ∧
    (l.foldl (fun wa j => agentGrow wa j) w).width = w.width ∧
    (l.foldl (fun wa j => agentGrow wa j) w).height = w.height := by
  induction l with
  | nil => exact fun w hwf _ hc hcg htg => ⟨⟨hwf, hc, hcg, htg⟩, rfl, rfl, rfl, rfl, rfl⟩
  | cons j rest ih =>
      intro w hwf hl hc hcg htg
      rw [List.foldl_cons]
      obtain ⟨⟨hwf', hc', hcg', htg'⟩, ha, hd, hf, hwi, hhe⟩ :=
        agentGrow_good w j hwf (hl j (List.mem_cons_self j rest)) hc hcg htg
      obtain ⟨hgood, ha2, hd2, hf2, hwi2, hhe2⟩ := ih (agentGrow w j) hwf'
        (fun x hx => ha ▸ hl x (List.mem_cons_of_mem j hx)) hc' hcg' htg'
      exact ⟨hgood, ha2.trans ha, hd2.trans hd, hf2.trans hf, hwi2.trans hwi,
        hhe2.trans hhe⟩

lemma agentDie_agent_self (w : SnakeWorld) (i : ℕ) (hi : i < w.agents.length) :
    (getAgent (agentDie w i) i).pos = (getAgent w i).pos ∧
      (getAgent (agentDie w i) i).last_tail_pos = (getAgent w i).last_tail_pos := by
  simp only [agentDie]
  rcases hpol : (getAgent w i).policy with - | - | -
  all_goals simp only [hpol]
  · rw [getAgent_congr _ _ i (foldl_decr_agents _ _), getAgent_setAgent_self w i _ hi]
    exact ⟨rfl, rfl⟩
  all_goals rw [updAgent, getAgent_setAgent_self _ i _
    (by rw [foldl_decr_agents, setAgent_agents_length]; exact hi),
    getAgent_congr _ _ i (foldl_decr_agents _ _), getAgent_setAgent_self w i _ hi]
  all_goals exact ⟨rfl, rfl⟩

lemma agentDie_alive (w : SnakeWorld) (i : ℕ) :
    (agentDie w i).alive_agents = w.alive_agents := by
  simp only [agentDie]
  rcases hpol : (getAgent w i).policy with - | - | -
  all_goals simp only [hpol]
  · rw [foldl_decr_alive]
    rfl
  all_goals
    show (List.foldl (fun wa p => incr_obstacle_count wa p (-1)) _ _).alive_agents = _
  all_goals rw [foldl_decr_alive]
  all_goals rfl

lemma agentDie_dead (w : SnakeWorld) (i : ℕ) :
    (agentDie w i).dead_agents = w.dead_agents := by
  simp only [agentDie]
  rcases hpol : (getAgent w i).policy with - | - | -
  all_goals simp only [hpol]
  · rw [foldl_decr_dead]
    rfl
  all_goals
    show (List.foldl (fun wa p => incr_obstacle_count wa p (-1)) _ _).dead_agents = _
  all_goals rw [foldl_decr_dead]
  all_goals rfl

lemma agentDie_width (w : SnakeWorld) (i : ℕ) : (agentDie w i).width = w.width := by
  simp only [agentDie]
  rcases hpol : (getAgent w i).policy with - | - | -
  all_goals simp only [hpol]
  · rw [foldl_decr_width]
    rfl
  all_goals
    show (List.foldl (fun wa p => incr_obstacle_count wa p (-1)) _ _).width = _
  all_goals rw [foldl_decr_width]
  all_goals rfl

lemma agentDie_height (w : SnakeWorld) (i : ℕ) : (agentDie w i).height = w.height := by
  simp only [agentDie]
  rcases hpol : (getAgent w i).policy with - | - | -
  all_goals simp only [hpol]
  · rw [foldl_decr_height]
    rfl
  all_goals
    show (List.foldl (fun wa p => incr_obstacle_count wa p (-1)) _ _).height = _
  all_goals rw [foldl_decr_height]
  all_goals rfl

lemma agentDie_agents_length (w : SnakeWorld) (i : ℕ) :
    (agentDie w i).agents.length = w.agents.length := by
  simp only [agentDie]
  rcases hpol : (getAgent w i).policy with - | - | -
  all_goals simp only [hpol]
  · rw [foldl_decr_agents, setAgent_agents_length]
  all_goals
    show (setAgent (List.foldl (fun wa p => incr_obstacle_count wa p (-1)) _ _) i
      _).agents.length = _
  all_goals rw [setAgent_agents_length, foldl_decr_agents, setAgent_agents_length]

lemma agentDie_fields (w : SnakeWorld) (i : ℕ) (hi : i < w.agents.length) (k : ℕ) :
    (getAgent (agentDie w i) k).pos = (getAgent w k).pos ∧
      (getAgent (agentDie w i) k).last_tail_pos = (getAgent w k).last_tail_pos := by
  rcases eq_or_ne k i with rfl | hk
  · exact agentDie_agent_self w k hi
  · rw [agentDie_agent_ne w i k hk]
    exact ⟨rfl, rfl⟩

lemma kill_fold (l : List ℕ) : ∀ (acc res : SnakeWorld × List ℕ),
    l.foldl (fun a j => if collides_another a.1 j then (agentDie a.1 j, a.2 ++ [j]) else a)
      acc = res →
    (∀ j ∈ l, j < acc.1.agents.length) →
    (res.1.alive_agents = acc.1.alive_agents ∧ res.1.dead_agents = acc.1.dead_agents ∧
      res.1.food_pos = acc.1.food_pos ∧ res.1.width = acc.1.width ∧
      res.1.height = acc.1.height ∧ res.1.agents.length = acc.1.agents.length ∧
      (∀ k, (getAgent res.1 k).pos = (getAgent acc.1 k).pos) ∧
      (∀ k, (getAgent res.1 k).last_tail_pos = (getAgent acc.1 k).last_tail_pos)) ∧
    ∃ d2, res.2 = acc.2 ++ d2 ∧ d2.Sublist l ∧
      ∀ p, res.1.obstacle_count p = acc.1.obstacle_count p - bodySum d2 acc.1 p := by
  induction l with
  | nil =>
      intro acc res hres _
      rw [List.foldl_nil] at hres
      subst hres
      exact ⟨⟨rfl, rfl, rfl, rfl, rfl, rfl, fun _ => rfl, fun _ => rfl⟩,
        [], (List.append_nil _).symm, List.nil_sublist _, fun p => by simp [bodySum]⟩
  | cons j0 rest ih =>
      intro acc res hres hbound
      rw [List.foldl_cons] at hres
      have hj0 : j0 < acc.1.agents.length := hbound j0 (List.mem_cons_self j0 rest)
      rcases hcol : collides_another acc.1 j0 with - | -
      · rw [hcol] at hres
        simp only [Bool.false_eq_true, if_false] at hres
        obtain ⟨hfields, d2, hd2, hsub, hob⟩ := ih acc res hres
          (fun j hj => hbound j (List.mem_cons_of_mem j0 hj))
        exact ⟨hfields, d2, hd2, hsub.cons j0, hob⟩
      · rw [hcol] at hres
        simp only [if_true] at hres
        obtain ⟨⟨f1, f2, f3, f4, f5, f6, f7, f8⟩, d2, hd2, hsub, hob⟩ :=
          ih (agentDie acc.1 j0, acc.2 ++ [j0]) res hres
            (fun j hj => by
              show j < (agentDie acc.1 j0).agents.length
              rw [agentDie_agents_length]
              exact hbound j (List.mem_cons_of_mem j0 hj))
        refine ⟨⟨f1.trans (agentDie_alive acc.1 j0), f2.trans (agentDie_dead acc.1 j0),
          f3.trans (agentDie_food_pos acc.1 j0), f4.trans (agentDie_width acc.1 j0),
          f5.trans (agentDie_height acc.1 j0),
          f6.trans (agentDie_agents_length acc.1 j0),
          fun k => (f7 k).trans (agentDie_fields acc.1 j0 hj0 k).1,
          fun k => (f8 k).trans (agentDie_fields acc.1 j0 hj0 k).2⟩,
          j0 :: d2, ?_, hsub.cons₂ j0, ?_⟩
        · rw [hd2]
          simp
        · intro p
          have hcongr : bodySum d2 (agentDie acc.1 j0) p = bodySum d2 acc.1 p := by
            refine bodySum_congr _ _ _ (fun k _ => ?_) p
            exact (agentDie_fields acc.1 j0 hj0 k).1
          rw [hob p, agentDie_obstacle, hcongr, bodySum_cons]
          ring

lemma kill_agents_fields (deads : List ℕ) : ∀ (w : SnakeWorld),
    (kill_agents w deads).alive_agents =
      deads.foldl (fun l2 j => l2.erase j) w.alive_agents ∧
    (kill_agents w deads).dead_agents = w.dead_agents ++ deads ∧
    (kill_agents w deads).obstacle_count = w.obstacle_count ∧
    (kill_agents w deads).agents = w.agents ∧
    (kill_agents w deads).food_pos = w.food_pos ∧
    (kill_agents w deads).width = w.width ∧
    (kill_agents w deads).height = w.height := by
  induction deads with
  | nil => exact fun w => ⟨rfl, (List.append_nil _).symm, rfl, rfl, rfl, rfl, rfl⟩
  | cons j rest ih =>
      intro w
      have hstep : kill_agents w (j :: rest) =
          kill_agents { w with
                        alive_agents := w.alive_agents.erase j,
                        dead_agents := w.dead_agents ++ [j] } rest := by
        rw [kill_agents, List.foldl_cons]
        rfl
      rw [hstep]
      obtain ⟨h1, h2, h3, h4, h5, h6, h7⟩ := ih { w with
        alive_agents := w.alive_agents.erase j,
        dead_agents := w.dead_agents ++ [j] }
      refine ⟨h1.trans (by rw [List.foldl_cons]), h2.trans ?_, h3, h4, h5, h6, h7⟩
      show w.dead_agents ++ [j] ++ rest = w.dead_agents ++ (j :: rest)
      simp

lemma bodySum_foldl_erase (d : List ℕ) : ∀ (l : List ℕ) (w : SnakeWorld) (p : Pos),
    d.Nodup → (∀ j ∈ d, j ∈ l) → l.Nodup →
    bodySum (d.foldl (fun l2 j => l2.erase j) l) w p =
      bodySum l w p - bodySum d w p := by
  induction d with
  | nil =>
      intro l w p _ _ _
      simp [bodySum]
  | cons j rest ih =>
      intro l w p hnd hsub hln
      rw [List.foldl_cons]
      have hj : j ∈ l := hsub j (List.mem_cons_self j rest)
      have hsub' : ∀ k ∈ rest, k ∈ l.erase j := by
        intro k hk
        have hkj : k ≠ j := by
          rintro rfl
          exact (List.nodup_cons.mp hnd).1 hk
        exact (hln.mem_erase_iff).mpr ⟨hkj, hsub k (List.mem_cons_of_mem j hk)⟩
      rw [ih (l.erase j) w p (List.nodup_cons.mp hnd).2 hsub' (hln.erase j),
        bodySum_erase l j w hj, bodySum_cons]
      ring

lemma foldl_erase_facts (d : List ℕ) : ∀ (l : List ℕ), l.Nodup →
    (d.foldl (fun l2 j => l2.erase j) l).Nodup ∧
    (∀ k ∈ d.foldl (fun l2 j => l2.erase j) l, k ∈ l ∧ k ∉ d) := by
  induction d with
  | nil => exact fun l h => ⟨h, fun k hk => ⟨hk, List.not_mem_nil k⟩⟩
  | cons j rest ih =>
      intro l hln
      rw [List.foldl_cons]
      obtain ⟨h1, h2⟩ := ih (l.erase j) (hln.erase j)
      refine ⟨h1, fun k hk => ?_⟩
      obtain ⟨hk1, hk2⟩ := h2 k hk
      have hkl : k ∈ l := List.mem_of_mem_erase hk1
      have hkj : k ≠ j := (hln.mem_erase_iff.mp hk1).1
      refine ⟨hkl, fun hmem => ?_⟩
      rcases List.mem_cons.mp hmem with rfl | hmem2
      · exact hkj rfl
      · exact hk2 hmem2

lemma decide_phase_good (w : SnakeWorld) (hwf : wfWorld w) (hc : conserved w)
    (hcg : cellsInGrid w) (htg : tailsInGrid w) :
    (wfWorld (decide_phase w).1 ∧ conserved (decide_phase w).1 ∧
      cellsInGrid (decide_phase w).1 ∧ tailsInGrid (decide_phase w).1) ∧
    (decide_phase w).1.alive_agents = w.alive_agents ∧
    (decide_phase w).1.dead_agents = w.dead_agents ∧
    (decide_phase w).1.width = w.width ∧ (decide_phase w).1.height = w.height := by
  obtain ⟨⟨h1, h2, h3, h4, h5, h6, h7, h8⟩, h9⟩ := decide_phase_inv w
  have hgw : ∀ q, inGrid (decide_phase w).1 q ↔ inGrid w q := by
    intro q
    rw [inGrid, inGrid, h7, h8]
  refine ⟨⟨⟨?_, ?_, ?_, ?_, ?_⟩, ?_, ?_, ?_⟩, h1, h2, h7, h8⟩
  · rw [h1, h2]
    exact hwf.1
  · intro k hk
    rw [h1, h2] at hk
    rw [h4]
    exact hwf.2.1 k hk
  · intro k hk
    rw [h1] at hk
    rw [h5 k]
    exact hwf.2.2.1 k hk
  · rw [h7]
    exact hwf.2.2.2.1
  · rw [h8]
    exact hwf.2.2.2.2
  · intro p
    rw [h9 p, hc p, h1]
    exact (bodySum_congr _ _ _ (fun i _ => h5 i) p).symm
  · intro k hk q hq
    rw [h1] at hk
    rw [h5 k] at hq
    rw [hgw q]
    exact hcg k hk q hq
  · intro k hk s hs
    rw [h1] at hk
    rw [h6 k] at hs
    rw [hgw s]
    exact htg k hk s hs

lemma spawn_food_go_ok (o : Oracle) (n : ℕ) : ∀ (w : SnakeWorld) (k : ℕ)
    (r : SnakeWorld × ℕ), spawn_food_go o n w k = .ok r →
    r.1.agents = w.agents ∧ r.1.obstacle_count = w.obstacle_count ∧
      r.1.alive_agents = w.alive_agents ∧ r.1.dead_agents = w.dead_agents ∧
      r.1.width = w.width ∧ r.1.height = w.height := by
  induction n with
  | zero =>
      intro w k r h
      obtain rfl : (w, k) = r := Except.ok.inj h
      exact ⟨rfl, rfl, rfl, rfl, rfl, rfl⟩
  | succ n ih =>
      intro w k r h
      rw [spawn_food_go] at h
      split at h
      · obtain rfl := Except.ok.inj h
        exact ⟨rfl, rfl, rfl, rfl, rfl, rfl⟩
      · rename_i p k2 heq
        rcases hsend : send_arena_event { w with food_pos := w.food_pos ++ [p] }
          (ArenaEvent.foodCreated p) with e2 | w2
        · rw [hsend] at h
          exact Except.noConfusion h
        · rw [hsend] at h
          obtain ⟨g1, g2, g3, g4, g5, g6⟩ := send_arena_event_ok _ _ _ hsend
          obtain ⟨i1, i2, i3, i4, i5, i6⟩ := ih w2 k2 r h
          exact ⟨i1.trans g1, i2.trans g2, i3.trans g3, i4.trans g4, i5.trans g5,
            i6.trans g6⟩

lemma spawn_missing_food_ok (o : Oracle) (w : SnakeWorld) (k : ℕ)
    (r : SnakeWorld × ℕ) (h : spawn_missing_food o w k = .ok r) :
    r.1.agents = w.agents ∧ r.1.obstacle_count = w.obstacle_count ∧
      r.1.alive_agents = w.alive_agents ∧ r.1.dead_agents = w.dead_agents ∧
      r.1.width = w.width ∧ r.1.height = w.height :=
  spawn_food_go_ok o _ w k r h

lemma agentReset_agent_ne (w : SnakeWorld) (i : ℕ) (p? : Option (List Pos))
    (d? : Option Dir) (k : ℕ) (hk : k ≠ i) :
    getAgent (agentReset w i p? d?) k = getAgent w k := by
  cases hp : (getAgent w i).policy <;> simp only [agentReset, hp] <;>
    exact getAgent_setAgent_ne w i k _ hk

lemma agentReset_width (w : SnakeWorld) (i : ℕ) (p? : Option (List Pos))
    (d? : Option Dir) : (agentReset w i p? d?).width = w.width := by
  cases h : (getAgent w i).policy <;> simp [agentReset, h, setAgent]

lemma agentReset_height (w : SnakeWorld) (i : ℕ) (p? : Option (List Pos))
    (d? : Option Dir) : (agentReset w i p? d?).height = w.height := by
  cases h : (getAgent w i).policy <;> simp [agentReset, h, setAgent]

lemma find_agent_spawn_pos_some (o : Oracle) (w : SnakeWorld) (v : Pos)
    (h : find_agent_spawn_pos o w = some v) :
    o.spawn_vertex = some v ∧ w.obstacle_count v = 0 := by
  unfold find_agent_spawn_pos at h
  split at h
  · exact Option.noConfusion h
  · rename_i v2 heq
    split at h
    · obtain rfl := Option.some.inj h
      exact ⟨heq, by assumption⟩
    · exact Option.noConfusion h

lemma inGrid_mem (w : SnakeWorld) (p : Pos) (h : inGrid w p) : p ∈ gridCells w := by
  obtain ⟨h1, h2, h3, h4⟩ := h
  unfold gridCells
  refine Finset.mem_image.mpr ⟨(p.1.toNat, p.2.toNat), ?_, ?_⟩
  · refine Finset.mem_product.mpr ⟨Finset.mem_range.mpr ?_, Finset.mem_range.mpr ?_⟩
    · omega
    · omega
  · rw [Int.toNat_of_nonneg h1, Int.toNat_of_nonneg h3]

lemma sum_count_list (s : Finset Pos) (l : List Pos) (h : ∀ p ∈ l, p ∈ s) :
    (s.sum fun p => ((l.count p : ℕ) : ℤ)) = l.length := by
  induction l with
  | nil => simp
  | cons a t ih =>
      have hsum : (s.sum fun p => (((a :: t).count p : ℕ) : ℤ)) =
          (s.sum fun p => ((t.count p : ℕ) : ℤ)) +
            (s.sum fun p => if p = a then 1 else 0) := by
        rw [← Finset.sum_add_distrib]
        refine Finset.sum_congr rfl fun p _ => ?_
        rcases eq_or_ne p a with rfl | hpa
        · rw [List.count_cons_self, if_pos rfl]
          push_cast
          ring
        · rw [List.count_cons_of_ne (by simpa using hpa), if_neg hpa]
          ring
      rw [hsum, ih (fun p hp => h p (List.mem_cons_of_mem a hp)),
        Finset.sum_ite_eq' s a (fun _ => (1 : ℤ)), if_pos (h a (List.mem_cons_self a t)),
        List.length_cons]
      push_cast
      ring

lemma conserved_sum (w : SnakeWorld) (hc : conserved w) (hcg : cellsInGrid w) :
    sumGrid w = aliveLen w := by
  unfold sumGrid aliveLen
  rw [Finset.sum_congr rfl (fun p _ => hc p)]
  suffices hgen : ∀ l : List ℕ, (∀ i ∈ l, ∀ p ∈ (getAgent w i).pos, p ∈ gridCells w) →
      ((gridCells w).sum fun p => bodySum l w p) =
        (l.map fun i => (((getAgent w i).pos.length : ℕ) : ℤ)).sum by
    exact hgen w.alive_agents fun i hi p hp => inGrid_mem w p (hcg i hi p hp)
  intro l hl
  induction l with
  | nil => simp [bodySum]
  | cons i t ih =>
      have hsplit : ((gridCells w).sum fun p => bodySum (i :: t) w p) =
          ((gridCells w).sum fun p => (((getAgent w i).pos.count p : ℕ) : ℤ)) +
            ((gridCells w).sum fun p => bodySum t w p) := by
        rw [← Finset.sum_add_distrib]
        exact Finset.sum_congr rfl fun p _ => bodySum_cons i t w p
      rw [hsplit, ih (fun k hk p hp => hl k (List.mem_cons_of_mem i hk) p hp),
        sum_count_list _ _ (hl i (List.mem_cons_self i t)), List.map_cons, List.sum_cons]

lemma kill_stage_good (w5 : SnakeWorld) (deads : List ℕ)
    (hperm : deads.Perm (kill_phase w5).2)
    (hwf : wfWorld w5) (hc : conserved w5) (hcg : cellsInGrid w5) :
    (wfWorld (kill_agents (kill_phase w5).1 deads) ∧
      conserved (kill_agents (kill_phase w5).1 deads) ∧
      cellsInGrid (kill_agents (kill_phase w5).1 deads)) ∧
    (kill_agents (kill_phase w5).1 deads).width = w5.width ∧
    (kill_agents (kill_phase w5).1 deads).height = w5.height := by
  obtain ⟨hnd, hbound, hne, hw, hh⟩ := hwf
  have hndA : w5.alive_agents.Nodup := (List.nodup_append.mp hnd).1
  have hndD : w5.dead_agents.Nodup := (List.nodup_append.mp hnd).2.1
  have hdisj : w5.alive_agents.Disjoint w5.dead_agents := (List.nodup_append.mp hnd).2.2
  obtain ⟨⟨f1, f2, f3, f4, f5, f6, f7, f8⟩, d0, hd0, hsub0, hob6⟩ :=
    kill_fold w5.alive_agents (w5, []) (kill_phase w5) rfl
      (fun j hj => hbound j (List.mem_append_left _ hj))
  have hd0' : (kill_phase w5).2 = d0 := by simpa using hd0
  have hperm' : deads.Perm d0 := hd0' ▸ hperm
  have hndd0 : d0.Nodup := hsub0.nodup hndA
  have hdnd : deads.Nodup := (hperm'.nodup_iff).mpr hndd0
  have hdsub : ∀ j ∈ deads, j ∈ w5.alive_agents :=
    fun j hj => hsub0.subset (hperm'.subset hj)
  obtain ⟨k1, k2, k3, k4, k5, k6, k7⟩ := kill_agents_fields deads (kill_phase w5).1
  have halive7 : (kill_agents (kill_phase w5).1 deads).alive_agents =
      deads.foldl (fun l2 j => l2.erase j) w5.alive_agents := by
    rw [k1, f1]
  have hdead7 : (kill_agents (kill_phase w5).1 deads).dead_agents =
      w5.dead_agents ++ deads := by
    rw [k2, f2]
  have hpos7 : ∀ k, (getAgent (kill_agents (kill_phase w5).1 deads) k).pos =
      (getAgent w5 k).pos :=
    fun k => ((getAgent_congr _ _ k k4) ▸ (f7 k) : _)
  have hlen7 : (kill_agents (kill_phase w5).1 deads).agents.length =
      w5.agents.length := by
    rw [show (kill_agents (kill_phase w5).1 deads).agents.length =
      (kill_phase w5).1.agents.length from by rw [k4], f6]
  obtain ⟨he1, he2⟩ := foldl_erase_facts deads w5.alive_agents hndA
  have hwid : (kill_agents (kill_phase w5).1 deads).width = w5.width := k6.trans f4
  have hhei : (kill_agents (kill_phase w5).1 deads).height = w5.height := k7.trans f5
  refine ⟨⟨⟨?_, ?_, ?_, ?_, ?_⟩, ?_, ?_⟩, hwid, hhei⟩
  · rw [halive7, hdead7]
    refine List.nodup_append.mpr ⟨he1, List.nodup_append.mpr ⟨hndD, hdnd, ?_⟩, ?_⟩
    · intro a ha hamem
      exact hdisj (hdsub a hamem) ha
    · intro a ha
      obtain ⟨ha1, ha2⟩ := he2 a ha
      rw [List.mem_append]
      rintro (hd5 | hds)
      · exact hdisj ha1 hd5
      · exact ha2 hds
  · intro k hk
    rw [halive7, hdead7] at hk
    rw [hlen7]
    rcases List.mem_append.mp hk with hk2 | hk2
    · exact hbound k (List.mem_append_left _ (he2 k hk2).1)
    · rcases List.mem_append.mp hk2 with hk3 | hk3
      · exact hbound k (List.mem_append_right _ hk3)
      · exact hbound k (List.mem_append_left _ (hdsub k hk3))
  · intro k hk
    rw [halive7] at hk
    rw [hpos7 k]
    exact hne k (he2 k hk).1
  · rw [hwid]
    exact hw
  · rw [hhei]
    exact hh
  · intro p
    have hob7 : (kill_agents (kill_phase w5).1 deads).obstacle_count p =
        w5.obstacle_count p - bodySum d0 w5 p := by
      rw [show (kill_agents (kill_phase w5).1 deads).obstacle_count p =
        (kill_phase w5).1.obstacle_count p from by rw [k3]]
      exact hob6 p
    have hbody : bodySum (deads.foldl (fun l2 j => l2.erase j) w5.alive_agents)
        (kill_agents (kill_phase w5).1 deads) p =
        bodySum (deads.foldl (fun l2 j => l2.erase j) w5.alive_agents) w5 p :=
      bodySum_congr _ _ _ (fun i _ => hpos7 i) p
    rw [halive7, hob7, hbody, bodySum_foldl_erase deads w5.alive_agents w5 p hdnd
      hdsub hndA, bodySum_perm deads d0 w5 hperm', hc p]
  · intro k hk q hq
    rw [halive7] at hk
    rw [hpos7 k] at hq
    rw [show inGrid (kill_agents (kill_phase w5).1 deads) q ↔ inGrid w5 q from by
      rw [inGrid, inGrid, hwid, hhei]]
    exact hcg k (he2 k hk).1 q hq

lemma respawn_like_conserved (w A : SnakeWorld) (j : ℕ) (v : Pos) (L : ℕ)
    (hAalive : A.alive_agents = w.alive_agents)
    (hAob : A.obstacle_count = w.obstacle_count)
    (hAj : (getAgent A j).pos = List.replicate L v)
    (hAk : ∀ k, k ≠ j → getAgent A k = getAgent w k)
    (hanej : ∀ k ∈ w.alive_agents, k ≠ j)
    (hc : conserved w) :
    conserved ((fun w4 : SnakeWorld =>
        { w4 with respawn_cooldown := w4.respawn_cooldown + w4.initial_respawn_cooldown })
      (incr_obstacle_count { A with alive_agents := A.alive_agents ++ [j] } v (L : ℤ))) := by
  intro p
  show (incr_obstacle_count { A with alive_agents := A.alive_agents ++ [j] } v
      (L : ℤ)).obstacle_count p = bodySum (A.alive_agents ++ [j]) A p
  rw [incr_obstacle_count_apply,
    show ({ A with alive_agents := A.alive_agents ++ [j] } : SnakeWorld).obstacle_count p =
      A.obstacle_count p from rfl,
    congrFun hAob p, bodySum_append, hAalive,
    bodySum_congr w.alive_agents w A (fun k hk => by rw [hAk k (hanej k hk)]) p,
    show bodySum [j] A p = (((getAgent A j).pos.count p : ℕ) : ℤ) + 0 from rfl,
    hAj, List.count_replicate, hc p]
  rcases eq_or_ne p v with rfl | hpv
  · rw [if_pos rfl, beq_self_eq_true, if_pos rfl]
    push_cast
    ring
  · rw [if_neg hpv, beq_eq_false_iff_ne.mpr (Ne.symm hpv), if_neg (by simp)]
    push_cast
    ring

lemma respawn_like_cells (w A : SnakeWorld) (j : ℕ) (v : Pos) (L : ℕ)
    (hAalive : A.alive_agents = w.alive_agents)
    (hAj : (getAgent A j).pos = List.replicate L v)
    (hAk : ∀ k, k ≠ j → getAgent A k = getAgent w k)
    (hanej : ∀ k ∈ w.alive_agents, k ≠ j)
    (hAwid : A.width = w.width) (hAhei : A.height = w.height)
    (hcg : cellsInGrid w) (hvg : inGrid w v) :
    cellsInGrid ((fun w4 : SnakeWorld =>
        { w4 with respawn_cooldown := w4.respawn_cooldown + w4.initial_respawn_cooldown })
      (incr_obstacle_count { A with alive_agents := A.alive_agents ++ [j] } v (L : ℤ))) := by
  intro k hk q hq
  have hk2 : k ∈ A.alive_agents ++ [j] := hk
  have hq2 : q ∈ (getAgent A k).pos := hq
  show 0 ≤ q.1 ∧ q.1 < (A.width : ℤ) ∧ 0 ≤ q.2 ∧ q.2 < (A.height : ℤ)
  rw [hAwid, hAhei]
  rcases List.mem_append.mp hk2 with hk3 | hk3
  · rw [hAalive] at hk3
    rw [hAk k (hanej k hk3)] at hq2
    exact hcg k hk3 q hq2
  · obtain rfl : k = j := List.mem_singleton.mp hk3
    rw [hAj] at hq2
    obtain rfl : q = v := List.eq_of_mem_replicate hq2
    exact hvg

lemma respawn_stage (o : Oracle) (w : SnakeWorld)
    (hwf : wfWorld w) (hc : conserved w) (hcg : cellsInGrid w)
    (hsp : ∀ v, o.spawn_vertex = some v → inGrid w v) :
    conserved (respawn_dead_agent o w) ∧ cellsInGrid (respawn_dead_agent o w) := by
  obtain ⟨hnd, hbound, hne, hw, hh⟩ := hwf
  have hdisj : w.alive_agents.Disjoint w.dead_agents := (List.nodup_append.mp hnd).2.2
  rcases hdead : w.dead_agents with - | ⟨j, rest⟩
  · have hre : respawn_dead_agent o w = w := by
      simp only [respawn_dead_agent, hdead]
    rw [hre]
    exact ⟨hc, hcg⟩
  · by_cases hpos : 0 < w.respawn_cooldown
    · have hre : respawn_dead_agent o w =
          { w with respawn_cooldown := w.respawn_cooldown - 1 } := by
        simp only [respawn_dead_agent, hdead, if_pos hpos]
      rw [hre]
      exact ⟨fun p => hc p, hcg⟩
    · rcases hfind : find_agent_spawn_pos o w with - | v
      · have hre : respawn_dead_agent o w = w := by
          simp only [respawn_dead_agent, hdead, if_neg hpos, hfind]
        rw [hre]
        exact ⟨hc, hcg⟩
      · have hzero : w.respawn_cooldown = 0 := by simpa using not_lt.mp hpos
        have hre := respawn_success_eq o w j rest v hdead hzero hfind
        obtain ⟨hsv, hob0⟩ := find_agent_spawn_pos_some o w v hfind
        have hvg : inGrid w v := hsp v hsv
        have hjdead : j ∈ w.dead_agents := by
          rw [hdead]
          exact List.mem_cons_self j rest
        have hjlen : j < w.agents.length := hbound j (List.mem_append_right _ hjdead)
        have hjlen2 : j < ({ w with dead_agents := rest } : SnakeWorld).agents.length :=
          hjlen
        have hanej : ∀ k ∈ w.alive_agents, k ≠ j := by
          intro k hk
          rintro rfl
          exact hdisj hk hjdead
        have hAj : (getAgent (agentReset { w with dead_agents := rest } j
            (some (List.replicate (getAgent w j).initial_pos.length v))
            (some (toward_center v.1 v.2 w.width w.height))) j).pos =
            List.replicate (getAgent w j).initial_pos.length v := by
          rw [agentReset_pos _ _ _ _ hjlen2]
          simp [List.reverse_replicate]
        have hAk : ∀ k, k ≠ j → getAgent (agentReset { w with dead_agents := rest } j
            (some (List.replicate (getAgent w j).initial_pos.length v))
            (some (toward_center v.1 v.2 w.width w.height))) k = getAgent w k :=
          fun k hk => agentReset_agent_ne _ _ _ _ k hk
        rw [hre]
        constructor
        · exact respawn_like_conserved w _ j v (getAgent w j).initial_pos.length
            (agentReset_alive_agents _ _ _ _) (agentReset_obstacle_count _ _ _ _)
            hAj hAk hanej hc
        · exact respawn_like_cells w _ j v (getAgent w j).initial_pos.length
            (agentReset_alive_agents _ _ _ _) hAj hAk hanej
            (agentReset_width _ _ _ _) (agentReset_height _ _ _ _) hcg hvg

lemma frame_transfer (w w' : SnakeWorld)
    (h1 : w'.agents = w.agents) (h2 : w'.obstacle_count = w.obstacle_count)
    (h3 : w'.alive_agents = w.alive_agents) (h4 : w'.dead_agents = w.dead_agents)
    (h5 : w'.width = w.width) (h6 : w'.height = w.height)
    (hwf : wfWorld w) (hc : conserved w) (hcg : cellsInGrid w) :
    wfWorld w' ∧ conserved w' ∧ cellsInGrid w' := by
  have hag : ∀ j, getAgent w' j = getAgent w j := fun j => getAgent_congr w w' j h1
  refine ⟨⟨?_, ?_, ?_, ?_, ?_⟩, ?_, ?_⟩
  · rw [h3, h4]
    exact hwf.1
  · intro i hi
    rw [h3, h4] at hi
    rw [show w'.agents.length = w.agents.length from by rw [h1]]
    exact hwf.2.1 i hi
  · intro i hi
    rw [h3] at hi
    rw [hag i]
    exact hwf.2.2.1 i hi
  · rw [h5]
    exact hwf.2.2.2.1
  · rw [h6]
    exact hwf.2.2.2.2
  · intro p
    rw [congrFun h2 p, h3, hc p]
    exact (bodySum_congr _ _ _ (fun i _ => by rw [hag i]) p).symm
  · intro i hi q hq
    rw [h3] at hi
    rw [hag i] at hq
    rw [show inGrid w' q ↔ inGrid w q from by rw [inGrid, inGrid, h5, h6]]
    exact hcg i hi q hq

set_option maxHeartbeats 1000000 in
/-- Claim C2: for every well-formed conserved arena state, after every
successful `simulate` tick the obstacle grid still counts exactly the alive
bodies — pointwise, every cell's counter equals the number of alive body
cells on it, and in total the sum of the counters over the board equals the
sum of the alive agents' body lengths; no transient planning marker or dead
agent's cells remain counted past the tick boundary. -/
theorem grid_conservation (o : Oracle) (w : SnakeWorld) (k : ℕ)
    (hwf : wfWorld w) (hc : conserved w) (hcg : cellsInGrid w) (htg : tailsInGrid w)
    (hshuf : ∀ l, (o.shuffle l).Perm l)
    (hsp : ∀ v, o.spawn_vertex = some v → inGrid w v)
    (r : List ℕ × SnakeWorld × ℕ) (hres : simulate o w k = .ok r) :
    conserved r.2.1 ∧ sumGrid r.2.1 = aliveLen r.2.1 := by
  obtain ⟨⟨hwf1, hc1, hcg1, htg1⟩, ha1, hd1, hw1, hh1⟩ := decide_phase_good w hwf hc hcg htg
  obtain ⟨⟨hwf2, hc2, hcg2, htg2⟩, ha2, hd2, hf2, hw2, hh2⟩ :=
    move_phase_good (decide_phase w).1 (decide_phase w).2 hwf1 hc1 hcg1 htg1
  obtain ⟨⟨hwf3, hc3, hcg3, htg3⟩, ha3, hd3, hf3, hw3, hh3⟩ :=
    cut_phase_good (move_phase (decide_phase w).1 (decide_phase w).2) hwf2 hc2 hcg2 htg2
  simp only [simulate] at hres
  rcases hfp : food_phase (cut_phase (move_phase (decide_phase w).1 (decide_phase w).2))
    with e | fg
  · rw [hfp] at hres
    exact Except.noConfusion hres
  rw [hfp] at hres
  have hres2 : (do
      let w8k ← spawn_missing_food o (kill_agents (kill_phase (grow_phase fg.1 fg.2)).1
        (o.shuffle (kill_phase (grow_phase fg.1 fg.2)).2)) k
      pure (o.shuffle (kill_phase (grow_phase fg.1 fg.2)).2, respawn_dead_agent o w8k.1,
        w8k.2) : Except SimError (List ℕ × SnakeWorld × ℕ)) = Except.ok r := hres
  obtain ⟨⟨hwf4, hc4, hcg4, htg4⟩, ha4, hd4, hw4, hh4, hgsub⟩ :=
    food_phase_good _ fg.1 fg.2 (by rw [hfp]) hwf3 hc3 hcg3 htg3
  obtain ⟨⟨hwf5, hc5, hcg5, htg5⟩, ha5, hd5, hf5, hw5, hh5⟩ :=
    grow_fold_good fg.2 fg.1 hwf4 (fun j hj => by rw [ha4]; exact hgsub j hj) hc4 hcg4 htg4
  obtain ⟨⟨hwf7, hc7, hcg7⟩, hw7, hh7⟩ :=
    kill_stage_good (grow_phase fg.1 fg.2)
      (o.shuffle (kill_phase (grow_phase fg.1 fg.2)).2) (hshuf _) hwf5 hc5 hcg5
  rcases hsmf : spawn_missing_food o (kill_agents (kill_phase (grow_phase fg.1 fg.2)).1
      (o.shuffle (kill_phase (grow_phase fg.1 fg.2)).2)) k with e2 | w8k
  · rw [hsmf] at hres2
    exact Except.noConfusion hres2
  rw [hsmf] at hres2
  obtain ⟨s1, s2, s3, s4, s5, s6⟩ := spawn_missing_food_ok o _ k w8k hsmf
  obtain ⟨hwf8, hc8, hcg8⟩ := frame_transfer _ w8k.1 s1 s2 s3 s4 s5 s6 hwf7 hc7 hcg7
  have hW : w8k.1.width = w.width :=
    (s5.trans hw7).trans ((hw5.trans hw4).trans ((hw3.trans hw2).trans hw1))
  have hH : w8k.1.height = w.height :=
    (s6.trans hh7).trans ((hh5.trans hh4).trans ((hh3.trans hh2).trans hh1))
  have hsp8 : ∀ v, o.spawn_vertex = some v → inGrid w8k.1 v := by
    intro v hv
    rw [show inGrid w8k.1 v ↔ inGrid w v from by rw [inGrid, inGrid, hW, hH]]
    exact hsp v hv
  obtain ⟨hc9, hcg9⟩ := respawn_stage o w8k.1 hwf8 hc8 hcg8 hsp8
  obtain rfl : (o.shuffle (kill_phase (grow_phase fg.1 fg.2)).2,
      respawn_dead_agent o w8k.1, w8k.2) = r := Except.ok.inj hres2
  exact ⟨hc9, conserved_sum _ hc9 hcg9⟩

theorem grid_conservation_witness :
    conserved (simWorld oId cw2 0) ∧
      sumGrid (simWorld oId cw2 0) = aliveLen (simWorld oId cw2 0) := by
  have hcw : conserved cw2 := by
    intro p
    by_cases h1 : p = ((0 : ℤ), (1 : ℤ))
    · subst h1
      decide
    by_cases h2 : p = ((1 : ℤ), (1 : ℤ))
    · subst h2
      decide
    show (if p = ((0 : ℤ), (1 : ℤ)) ∨ p = ((1 : ℤ), (1 : ℤ)) then (1 : ℤ) else 0) =
      bodySum [0] cw2 p
    rw [if_neg (by tauto)]
    show (0 : ℤ) = ((((getAgent cw2 0).pos.count p : ℕ)) : ℤ) + 0
    rw [show (getAgent cw2 0).pos = [((0 : ℤ), (1 : ℤ)), ((1 : ℤ), (1 : ℤ))] from rfl,
      List.count_eq_zero.mpr (by
        intro hmem
        rcases List.mem_cons.mp hmem with h | h
        · exact h1 h
        · exact h2 (List.mem_singleton.mp h))]
    rfl
  have htw : tailsInGrid cw2 := by
    intro i hi t ht
    have hi2 : i ∈ [(0 : ℕ)] := hi
    obtain rfl := List.mem_singleton.mp hi2
    exact Option.noConfusion ht
  rcases hsim : simulate oId cw2 0 with e | r
  · have hn : simError oId cw2 0 = none := by decide
    rw [show simError oId cw2 0 = some e from by rw [simError, hsim]] at hn
    exact Option.noConfusion hn
  · obtain ⟨h1, h2⟩ := grid_conservation oId cw2 0 (by decide) hcw (by decide) htw
      (fun l => List.Perm.refl l) (fun v hv => Option.noConfusion hv) r hsim
    have hsw : simWorld oId cw2 0 = r.2.1 := by rw [simWorld, hsim]
    rw [hsw]
    exact ⟨h1, h2⟩

/-! Termination of the prototype searcher of `src/a_star.py` (claim C7). -/

lemma mem_saCells (g : GridGraph) (q : Pos) :
    q ∈ saCells g ↔ 0 ≤ q.1 ∧ q.1 < (g.width : ℤ) ∧ 0 ≤ q.2 ∧ q.2 < (g.height : ℤ) := by
  unfold saCells
  constructor
  · intro h
    obtain ⟨ab, hab, rfl⟩ := Finset.mem_image.mp h
    obtain ⟨h1, h2⟩ := Finset.mem_product.mp hab
    rw [Finset.mem_range] at h1 h2
    refine ⟨by positivity, ?_, by positivity, ?_⟩
    · show ((ab.1 : ℤ)) < (g.width : ℤ)
      exact_mod_cast h1
    · show ((ab.2 : ℤ)) < (g.height : ℤ)
      exact_mod_cast h2
  · rintro ⟨h1, h2, h3, h4⟩
    refine Finset.mem_image.mpr ⟨(q.1.toNat, q.2.toNat), ?_, ?_⟩
    · refine Finset.mem_product.mpr ⟨Finset.mem_range.mpr ?_, Finset.mem_range.mpr ?_⟩
      · omega
      · omega
    · rw [Int.toNat_of_nonneg h1, Int.toNat_of_nonneg h3]

lemma gg_neighbors_mem (g : GridGraph) (hw : 0 < g.width) (hh : 0 < g.height)
    (p : Pos) (hp : p ∈ saCells g) :
    ∀ q ∈ gg_neighbors g p, q ∈ saCells g := by
  intro q hq
  obtain ⟨hp1, hp2, hp3, hp4⟩ := (mem_saCells g p).mp hp
  have hw' : ((g.width : ℤ)) ≠ 0 := by exact_mod_cast hw.ne'
  have hh' : ((g.height : ℤ)) ≠ 0 := by exact_mod_cast hh.ne'
  have hwp : (0 : ℤ) < (g.width : ℤ) := by exact_mod_cast hw
  have hhp : (0 : ℤ) < (g.height : ℤ) := by exact_mod_cast hh
  simp only [gg_neighbors, List.mem_append, List.mem_ite_nil_right,
    List.mem_singleton] at hq
  rw [mem_saCells]
  rcases hq with ((⟨-, rfl⟩ | ⟨-, rfl⟩) | ⟨-, rfl⟩) | ⟨-, rfl⟩
  · exact ⟨hp1, hp2, Int.emod_nonneg _ hh', Int.emod_lt_of_pos _ hhp⟩
  · exact ⟨hp1, hp2, Int.emod_nonneg _ hh', Int.emod_lt_of_pos _ hhp⟩
  · exact ⟨Int.emod_nonneg _ hw', Int.emod_lt_of_pos _ hwp, hp3, hp4⟩
  · exact ⟨Int.emod_nonneg _ hw', Int.emod_lt_of_pos _ hwp, hp3, hp4⟩

lemma minCostPos_fold_mem (dist : Pos → ℕ∞) (heu : Pos → ℕ) (l : List Pos) :
    ∀ (acc : Option Pos × ℕ∞ × ℕ∞) (p : Pos),
    (l.foldl (fun acc p =>
      if dist p + (heu p : ℕ∞) < acc.2.1 then
        (some p, dist p + (heu p : ℕ∞), (heu p : ℕ∞))
      else if dist p + (heu p : ℕ∞) = acc.2.1 ∧ ((heu p : ℕ∞)) < acc.2.2 then
        (some p, dist p + (heu p : ℕ∞), (heu p : ℕ∞))
      else acc) acc).1 = some p →
    p ∈ l ∨ acc.1 = some p := by
  induction l with
  | nil => exact fun acc p h => Or.inr h
  | cons x rest ih =>
      intro acc p h
      rw [List.foldl_cons] at h
      rcases ih _ p h with hmem | hacc
      · exact Or.inl (List.mem_cons_of_mem x hmem)
      · by_cases h1 : dist x + (heu x : ℕ∞) < acc.2.1
        · rw [if_pos h1] at hacc
          obtain rfl : x = p := Option.some.inj hacc
          exact Or.inl (List.mem_cons_self x rest)
        · rw [if_neg h1] at hacc
          by_cases h2 : dist x + (heu x : ℕ∞) = acc.2.1 ∧ ((heu x : ℕ∞)) < acc.2.2
          · rw [if_pos h2] at hacc
            obtain rfl : x = p := Option.some.inj hacc
            exact Or.inl (List.mem_cons_self x rest)
          · rw [if_neg h2] at hacc
            exact Or.inr hacc

lemma minCostPos_mem (ps : List Pos) (dist : Pos → ℕ∞) (heu : Pos → ℕ) (p : Pos)
    (h : minCostPos ps dist heu = some p) : p ∈ ps := by
  rcases minCostPos_fold_mem dist heu ps (none, ⊤, ⊤) p h with hmem | hacc
  · exact hmem
  · exact Option.noConfusion hacc

lemma en_lt_add_one (a : ℕ∞) (ha : a < ⊤) : a < a + 1 := by
  lift a to ℕ using ha.ne
  exact_mod_cast Nat.lt_succ_self a

lemma en_not_add_one_lt (a : ℕ∞) : ¬ (a + 1 < a) := by
  intro h
  exact lt_irrefl a (lt_of_le_of_lt le_self_add h)

lemma en_add_one_lt_top (a : ℕ∞) (ha : a < ⊤) : a + 1 < ⊤ := by
  lift a to ℕ using ha.ne
  exact_mod_cast WithTop.coe_lt_top (a + 1)

lemma nodup_length_le (l : List Pos) (s : Finset Pos) (hnd : l.Nodup)
    (hsub : ∀ p ∈ l, p ∈ s) : l.length ≤ s.card := by
  classical
  rw [← List.toFinset_card_of_nodup hnd]
  exact Finset.card_le_card fun p hp => hsub p (List.mem_toFinset.mp hp)

lemma saCells_subset_univ (g : GridGraph) (src : Pos) :
    ∀ p ∈ saCells g, p ∈ saUniv g src :=
  fun p hp => Finset.mem_insert_of_mem hp

lemma saRelax_fold (g : GridGraph) (src : Pos) (st : SAState)
    (hcf : st.dist st.current < ⊤)
    (hbnd : st.dist st.current ≤ (st.closed.length : ℕ∞) + 1)
    (l : List Pos) (hl : ∀ nb ∈ l, nb ∈ saCells g) :
    ∀ s : SAState,
      (s.current = st.current ∧ s.closed = st.closed ∧
        (∀ n, s.dist n ≤ st.dist n) ∧ s.dist st.current = st.dist st.current ∧
        s.opened.Nodup ∧ (∀ p ∈ s.opened, p ∈ saCells g ∧ s.dist p < ⊤) ∧
        (∀ p ∈ st.opened, p ∈ s.opened) ∧
        (∀ n, n ≠ src → s.dist n < ⊤ → s.dist (s.par n) < s.dist n) ∧
        (∀ n, s.dist n = 0 → n = src) ∧
        (∀ n, s.dist n < ⊤ → s.dist n ≤ (st.closed.length : ℕ∞) + 2)) →
      (let s' := l.foldl (fun s nb =>
        if s.dist st.current + 1 < s.dist nb then
          { s with dist := Function.update s.dist nb (s.dist st.current + 1),
                   par := Function.update s.par nb st.current,
                   opened := if nb ∈ s.opened then s.opened else s.opened ++ [nb] }
        else s) s
       s'.current = st.current ∧ s'.closed = st.closed ∧
        (∀ n, s'.dist n ≤ st.dist n) ∧ s'.dist st.current = st.dist st.current ∧
        s'.opened.Nodup ∧ (∀ p ∈ s'.opened, p ∈ saCells g ∧ s'.dist p < ⊤) ∧
        (∀ p ∈ st.opened, p ∈ s'.opened) ∧
        (∀ n, n ≠ src → s'.dist n < ⊤ → s'.dist (s'.par n) < s'.dist n) ∧
        (∀ n, s'.dist n = 0 → n = src) ∧
        (∀ n, s'.dist n < ⊤ → s'.dist n ≤ (st.closed.length : ℕ∞) + 2)) := by
  induction l with
  | nil => exact fun s hs => hs
  | cons nb rest ih =>
      intro s hs
      obtain ⟨b1, b2, b3, b4, b5, b6, b7, b8, b9, b10⟩ := hs
      rw [List.foldl_cons]
      by_cases hg : s.dist st.current + 1 < s.dist nb
      · rw [if_pos hg]
        have hnbcell : nb ∈ saCells g := hl nb (List.mem_cons_self nb rest)
        have hnbne : nb ≠ st.current := by
          rintro rfl
          exact en_not_add_one_lt (s.dist st.current) hg
        have hscf : s.dist st.current < ⊤ := by
          rw [b4]
          exact hcf
        have hmono : ∀ m, Function.update s.dist nb (s.dist st.current + 1) m ≤
            s.dist m := by
          intro m
          rcases eq_or_ne m nb with rfl | hm
          · rw [Function.update_same]
            exact le_of_lt hg
          · rw [Function.update_noteq hm]
        refine ih (fun x hx => hl x (List.mem_cons_of_mem nb hx)) _
          ⟨b1, b2, fun n => le_trans (hmono n) (b3 n), ?_, ?_, ?_, ?_, ?_, ?_, ?_⟩
        · show Function.update s.dist nb (s.dist st.current + 1) st.current = _
          rw [Function.update_noteq (Ne.symm hnbne)]
          exact b4
        · show (if nb ∈ s.opened then s.opened else s.opened ++ [nb]).Nodup
          split
          · exact b5
          · rename_i hnmem
            simp [List.nodup_append, b5, hnmem]
        · intro p hp
          have hp2 : p ∈ s.opened ∨ p = nb := by
            rcases (by
              split at hp
              · exact Or.inl hp
              · exact Or.inr hp :
              p ∈ s.opened ∨ p ∈ s.opened ++ [nb]) with h | h
            · exact Or.inl h
            · rcases List.mem_append.mp h with h2 | h2
              · exact Or.inl h2
              · exact Or.inr (List.mem_singleton.mp h2)
          show p ∈ saCells g ∧ Function.update s.dist nb (s.dist st.current + 1) p < ⊤
          rcases hp2 with hp3 | rfl
          · refine ⟨(b6 p hp3).1, ?_⟩
            rcases eq_or_ne p nb with rfl | hpn
            · rw [Function.update_same]
              exact en_add_one_lt_top _ hscf
            · rw [Function.update_noteq hpn]
              exact (b6 p hp3).2
          · refine ⟨hnbcell, ?_⟩
            rw [Function.update_same]
            exact en_add_one_lt_top _ hscf
        · intro p hp
          have hps : p ∈ s.opened := b7 p hp
          show p ∈ if nb ∈ s.opened then s.opened else s.opened ++ [nb]
          split
          · exact hps
          · exact List.mem_append_left _ hps
        · intro n hn hfin
          have hfin2 : Function.update s.dist nb (s.dist st.current + 1) n < ⊤ := hfin
          show Function.update s.dist nb (s.dist st.current + 1)
            (Function.update s.par nb st.current n) <
            Function.update s.dist nb (s.dist st.current + 1) n
          rcases eq_or_ne n nb with rfl | hnnb
          · rw [show Function.update s.par n st.current n = st.current from
              Function.update_same _ _ _,
              Function.update_noteq (Ne.symm hnbne), Function.update_same]
            exact en_lt_add_one _ hscf
          · rw [Function.update_noteq hnnb] at hfin2
            rw [show Function.update s.par nb st.current n = s.par n from
              Function.update_noteq hnnb st.current s.par,
              Function.update_noteq hnnb]
            exact lt_of_le_of_lt (hmono (s.par n)) (b8 n hn hfin2)
        · intro n hzero
          have hzero2 : Function.update s.dist nb (s.dist st.current + 1) n = 0 := hzero
          rcases eq_or_ne n nb with rfl | hnnb
          · rw [Function.update_same] at hzero2
            exact absurd hzero2 (by
              intro h
              have h1 : (1 : ℕ∞) ≤ s.dist st.current + 1 := le_add_self
              rw [h] at h1
              exact absurd h1 (by decide))
          · rw [Function.update_noteq hnnb] at hzero2
            exact b9 n hzero2
        · intro n hfin
          have hfin2 : Function.update s.dist nb (s.dist st.current + 1) n < ⊤ := hfin
          show Function.update s.dist nb (s.dist st.current + 1) n ≤ _
          rcases eq_or_ne n nb with rfl | hnnb
          · rw [Function.update_same]
            calc s.dist st.current + 1 = st.dist st.current + 1 := by rw [b4]
              _ ≤ ((st.closed.length : ℕ∞) + 1) + 1 := add_le_add_right hbnd 1
              _ = (st.closed.length : ℕ∞) + 2 := by ring
          · rw [Function.update_noteq hnnb] at hfin2
            rw [Function.update_noteq hnnb]
            exact b10 n hfin2
      · rw [if_neg hg]
        exact ih (fun x hx => hl x (List.mem_cons_of_mem nb hx)) s
          ⟨b1, b2, b3, b4, b5, b6, b7, b8, b9, b10⟩

lemma saRelax_inv (g : GridGraph) (src : Pos) (st : SAState)
    (hw : 0 < g.width) (hh : 0 < g.height)
    (hinv : saInv g src st) :
    (saRelax g st).current = st.current ∧ (saRelax g st).closed = st.closed ∧
    (∀ n, (saRelax g st).dist n ≤ st.dist n) ∧
    (saRelax g st).dist st.current = st.dist st.current ∧
    (saRelax g st).opened.Nodup ∧
    (∀ p ∈ (saRelax g st).opened, p ∈ saCells g ∧ (saRelax g st).dist p < ⊤) ∧
    (∀ p ∈ st.opened, p ∈ (saRelax g st).opened) ∧
    (∀ n, n ≠ src → (saRelax g st).dist n < ⊤ →
      (saRelax g st).dist ((saRelax g st).par n) < (saRelax g st).dist n) ∧
    (∀ n, (saRelax g st).dist n = 0 → n = src) ∧
    (∀ n, (saRelax g st).dist n < ⊤ →
      (saRelax g st).dist n ≤ (st.closed.length : ℕ∞) + 2) := by
  obtain ⟨i1, i2, i3, i4, i5, i6, i7, i8, i9, i10⟩ := hinv
  exact saRelax_fold g src st i3 (i10 _ i3) (gg_neighbors g st.current)
    (gg_neighbors_mem g hw hh st.current i1) st
    ⟨rfl, rfl, fun n => le_refl _, rfl, i4, i5, fun p hp => hp, i8, i9,
      fun n hfin => le_trans (i10 n hfin) (add_le_add_left (by decide) _)⟩

lemma saLoop_ok (g : GridGraph) (src dst : Pos) (heu : Pos → ℕ)
    (hw : 0 < g.width) (hh : 0 < g.height) :
    ∀ (fuel : ℕ) (st : SAState), saInv g src st → saMeasure g src st < fuel →
    ∃ st', saLoop g dst heu fuel st = some st' ∧
      (∀ n, n ≠ src → st'.dist n < ⊤ → st'.dist (st'.par n) < st'.dist n) ∧
      (∀ n, st'.dist n = 0 → n = src) ∧
      st'.dist st'.current < ⊤ ∧
      st'.dist st'.current ≤ ((saUniv g src).card : ℕ∞) + 1 := by
  intro fuel
  induction fuel with
  | zero => exact fun st _ hm => absurd hm (Nat.not_lt_zero _)
  | succ fuel ih =>
      intro st hinv hm
      obtain ⟨i1, i2, i3, i4, i5, i6, i7, i8, i9, i10⟩ := hinv
      have hclosedlen : st.closed.length ≤ (saUniv g src).card :=
        nodup_length_le _ _ i6 fun p hp => saCells_subset_univ g src p (i7 p hp)
      rw [saLoop]
      by_cases hdst : st.current = dst
      · rw [if_pos hdst]
        exact ⟨st, rfl, i8, i9, i3, le_trans (i10 _ i3)
          (add_le_add_right (by exact_mod_cast hclosedlen) 1)⟩
      rw [if_neg hdst]
      dsimp only
      by_cases hskip : st.current ∈ st.closed
      · rw [show (if st.current ∈ st.closed then st else saRelax g st) = st from
          if_pos hskip]
        rw [show (if st.current ∈ st.closed then st.closed
          else st.current :: st.closed) = st.closed from if_pos hskip]
        have hop1 : (st.opened.erase st.current).length = st.opened.length - 1 :=
          List.length_erase_of_mem i2
        have hoppos : 0 < st.opened.length := List.length_pos.mpr (List.ne_nil_of_mem i2)
        split
        · exact ⟨_, rfl, i8, i9, i3, le_trans (i10 _ i3)
            (add_le_add_right (by exact_mod_cast hclosedlen) 1)⟩
        · rename_i nxt hmc
          have hnxo : nxt ∈ st.opened.erase st.current := minCostPos_mem _ _ _ _ hmc
          have hnx : nxt ∈ st.opened := List.mem_of_mem_erase hnxo
          have hnew : saInv g src
              { st with opened := st.opened.erase st.current, current := nxt } :=
            ⟨(i5 nxt hnx).1, hnxo, (i5 nxt hnx).2, i4.erase _,
              fun p hp => i5 p (List.mem_of_mem_erase hp), i6, i7, i8, i9, i10⟩
          have hmeas : saMeasure g src
              { st with opened := st.opened.erase st.current, current := nxt } < fuel := by
            have h1 : saMeasure g src
                { st with opened := st.opened.erase st.current, current := nxt } =
                ((saUniv g src).card - st.closed.length) * ((saUniv g src).card + 2) +
                  (st.opened.length - 1) := by
              rw [saMeasure, hop1]
            have h2 : saMeasure g src st =
                ((saUniv g src).card - st.closed.length) * ((saUniv g src).card + 2) +
                  st.opened.length := rfl
            rw [h2] at hm
            rw [h1]
            omega
          obtain ⟨st', hst', hp1, hp2, hp3, hp4⟩ := ih _ hnew hmeas
          exact ⟨st', hst', hp1, hp2, hp3, hp4⟩
      · rw [show (if st.current ∈ st.closed then st else saRelax g st) = saRelax g st
          from if_neg hskip]
        obtain ⟨r1, r2, r3, r4, r5, r6, r7, r8, r9, r10⟩ :=
          saRelax_inv g src st hw hh ⟨i1, i2, i3, i4, i5, i6, i7, i8, i9, i10⟩
        rw [show (if st.current ∈ (saRelax g st).closed then (saRelax g st).closed
          else st.current :: (saRelax g st).closed) = st.current :: st.closed from by
            rw [r2, if_neg hskip]]
        have hlen1 : st.closed.length + 1 ≤ (saUniv g src).card := by
          have hnd : (st.current :: st.closed).Nodup := List.nodup_cons.mpr ⟨hskip, i6⟩
          have := nodup_length_le (st.current :: st.closed) (saUniv g src) hnd
            (fun p hp => by
              rcases List.mem_cons.mp hp with rfl | hp2
              · exact saCells_subset_univ g src st.current i1
              · exact saCells_subset_univ g src p (i7 p hp2))
          simpa using this
        have hboundall : ∀ n, (saRelax g st).dist n < ⊤ →
            (saRelax g st).dist n ≤ ((st.current :: st.closed).length : ℕ∞) + 1 := by
          intro n hfin
          refine le_trans (r10 n hfin) ?_
          rw [List.length_cons]
          push_cast
          exact le_of_eq (by ring)
        split
        · refine ⟨_, rfl, r8, r9, ?_, ?_⟩
          · show (saRelax g st).dist (saRelax g st).current < ⊤
            rw [r1, r4]
            exact i3
          · show (saRelax g st).dist (saRelax g st).current ≤ _
            rw [r1, r4]
            exact le_trans (i10 _ i3) (add_le_add_right (by exact_mod_cast hclosedlen) 1)
        · rename_i nxt hmc
          have hnxo : nxt ∈ (saRelax g st).opened.erase st.current :=
            minCostPos_mem _ _ _ _ hmc
          have hnx : nxt ∈ (saRelax g st).opened := List.mem_of_mem_erase hnxo
          have hnew : saInv g src
              { saRelax g st with
                opened := (saRelax g st).opened.erase st.current,
                closed := st.current :: st.closed,
                current := nxt } :=
            ⟨(r6 nxt hnx).1, hnxo, (r6 nxt hnx).2, r5.erase _,
              fun p hp => r6 p (List.mem_of_mem_erase hp),
              List.nodup_cons.mpr ⟨hskip, i6⟩,
              fun p hp => by
                rcases List.mem_cons.mp hp with rfl | hp2
                · exact i1
                · exact i7 p hp2,
              r8, r9, hboundall⟩
          have hople : ((saRelax g st).opened.erase st.current).length ≤
              (saUniv g src).card :=
            nodup_length_le _ _ (r5.erase _) fun p hp =>
              saCells_subset_univ g src p (r6 p (List.mem_of_mem_erase hp)).1
          have hmeas : saMeasure g src
              { saRelax g st with
                opened := (saRelax g st).opened.erase st.current,
                closed := st.current :: st.closed,
                current := nxt } < fuel := by
            have h2 : saMeasure g src st =
                ((saUniv g src).card - st.closed.length) * ((saUniv g src).card + 2) +
                  st.opened.length := rfl
            have h1 : saMeasure g src
                { saRelax g st with
                  opened := (saRelax g st).opened.erase st.current,
                  closed := st.current :: st.closed,
                  current := nxt } =
                ((saUniv g src).card - (st.closed.length + 1)) * ((saUniv g src).card + 2)
                  + ((saRelax g st).opened.erase st.current).length := by
              rw [saMeasure]
              rfl
            have hsplit : ((saUniv g src).card - st.closed.length) *
                ((saUniv g src).card + 2) =
                ((saUniv g src).card - (st.closed.length + 1)) * ((saUniv g src).card + 2)
                  + ((saUniv g src).card + 2) := by
              have : (saUniv g src).card - st.closed.length =
                  ((saUniv g src).card - (st.closed.length + 1)) + 1 := by omega
              rw [this]
              ring
            rw [h2, hsplit] at hm
            rw [h1]
            omega
          obtain ⟨st', hst', hp1, hp2, hp3, hp4⟩ := ih _ hnew hmeas
          exact ⟨st', hst', hp1, hp2, hp3, hp4⟩

lemma en_toNat_lt (a b : ℕ∞) (h : a < b) (hb : b < ⊤) : a.toNat < b.toNat := by
  lift b to ℕ using hb.ne
  lift a to ℕ using (lt_trans h hb).ne
  simpa using h

lemma en_toNat_le (a b : ℕ∞) (h : a ≤ b) (hb : b < ⊤) : a.toNat ≤ b.toNat := by
  lift b to ℕ using hb.ne
  lift a to ℕ using (lt_of_le_of_lt h hb).ne
  simpa using h

lemma en_toNat_zero (a : ℕ∞) (h : a.toNat = 0) (hfin : a < ⊤) : a = 0 := by
  lift a to ℕ using hfin.ne
  simpa using h

lemma saGetPath_ok (src : Pos) (par : Pos → Pos) (dist : Pos → ℕ∞)
    (hchain : ∀ n, n ≠ src → dist n < ⊤ → dist (par n) < dist n) :
    ∀ (k : ℕ) (cur : Pos), dist cur < ⊤ → (dist cur).toNat ≤ k →
      (saGetPath src par (k + 1) cur).isSome = true := by
  intro k
  induction k with
  | zero =>
      intro cur hfin htn
      have h0 : dist cur = 0 := en_toNat_zero _ (Nat.le_zero.mp htn) hfin
      by_cases hcur : cur = src
      · rw [saGetPath, if_pos hcur]
        rfl
      · exact absurd (hchain cur hcur hfin)
          (by rw [h0]; exact fun hlt => absurd hlt (by simp))
  | succ k ih =>
      intro cur hfin htn
      rw [saGetPath]
      by_cases hcur : cur = src
      · rw [if_pos hcur]
        rfl
      · rw [if_neg hcur]
        have hlt := hchain cur hcur hfin
        have hfin2 : dist (par cur) < ⊤ := lt_trans hlt hfin
        have htn2 : (dist (par cur)).toNat ≤ k := by
          have := en_toNat_lt _ _ hlt hfin
          omega
        have hrec := ih (par cur) hfin2 htn2
        rcases hsg : saGetPath src par (k + 1) (par cur) with - | r
        · rw [hsg] at hrec
          exact absurd hrec (by simp)
        · rfl

set_option maxHeartbeats 1000000 in
/-- Claim C7: on every prototype grid with positive dimensions and an
in-grid source, `_shortest_path` of `src/a_star.py` terminates normally for
every destination — including an unreachable one, where the `NO_PATH_FOUND`
break returns the reconstructed path to the last selected node instead of
raising; and `compute_shortest_path` installs a candidate as the agent's
cached path only when it returns a destination index, in which case the
cached path's first reconstructed coordinates equal that destination, while
a `None` return leaves the agent's cached path unchanged. -/
theorem pathfinder_unreachable_and_cache_guard
    (g : GridGraph) (src dst : Pos) (heu : Pos → ℕ)
    (hw : 0 < g.width) (hh : 0 < g.height) (hsrc : src ∈ saCells g) :
    (∃ st xs ys, sa_shortest_path g src dst heu = some (st, xs, ys)) ∧
    (∀ (sp : PathFinder) (w : SnakeWorld) (i : ℕ) (dsts : List Pos)
        (inf_len : ℤ) (sup_len : ℕ∞),
      ((compute_shortest_path sp w i dsts inf_len sup_len).1 = none →
        getAgent (compute_shortest_path sp w i dsts inf_len sup_len).2 i =
          getAgent w i) ∧
      (i < w.agents.length →
        ∀ j, (compute_shortest_path sp w i dsts inf_len sup_len).1 = some j →
          ∃ d, dsts.get? j = some d ∧
            (getAgent (compute_shortest_path sp w i dsts inf_len sup_len).2
              i).x_path.head? = some d.1 ∧
            (getAgent (compute_shortest_path sp w i dsts inf_len sup_len).2
              i).y_path.head? = some d.2)) := by
  constructor
  · have hinv : saInv g src
        { dist := Function.update (fun _ => (⊤ : ℕ∞)) src 0, par := fun p => p,
          opened := [src], closed := [], current := src } := by
      refine ⟨hsrc, List.mem_singleton.mpr rfl, ?_, List.nodup_singleton src,
        ?_, List.nodup_nil, ?_, ?_, ?_, ?_⟩
      · show Function.update (fun _ => (⊤ : ℕ∞)) src 0 src < ⊤
        rw [Function.update_same]
        exact lt_of_lt_of_le zero_lt_one le_top
      · intro p hp
        rw [List.mem_singleton] at hp
        subst hp
        refine ⟨hsrc, ?_⟩
        show Function.update (fun _ => (⊤ : ℕ∞)) p 0 p < ⊤
        rw [Function.update_same]
        exact lt_of_lt_of_le zero_lt_one le_top
      · intro p hp
        exact absurd hp (List.not_mem_nil p)
      · intro n hn hfin
        have hfin2 : Function.update (fun _ => (⊤ : ℕ∞)) src 0 n < ⊤ := hfin
        rw [Function.update_noteq hn] at hfin2
        exact absurd hfin2 (lt_irrefl ⊤)
      · intro n h0
        by_cases hn : n = src
        · exact hn
        · have h02 : Function.update (fun _ => (⊤ : ℕ∞)) src 0 n = 0 := h0
          rw [Function.update_noteq hn] at h02
          exact absurd h02 (by simp)
      · intro n hfin
        by_cases hn : n = src
        · subst hn
          show Function.update (fun _ => (⊤ : ℕ∞)) n 0 n ≤ _
          rw [Function.update_same]
          exact zero_le _
        · have hfin2 : Function.update (fun _ => (⊤ : ℕ∞)) src 0 n < ⊤ := hfin
          rw [Function.update_noteq hn] at hfin2
          exact absurd hfin2 (lt_irrefl ⊤)
    have hmeas : saMeasure g src
        { dist := Function.update (fun _ => (⊤ : ℕ∞)) src 0, par := fun p => p,
          opened := [src], closed := [], current := src } < saFuel g src := by
      show ((saUniv g src).card - List.length ([] : List Pos)) *
          ((saUniv g src).card + 2) + List.length [src] <
          ((saUniv g src).card + 1) * ((saUniv g src).card + 2) + 1
      simp only [List.length_nil, Nat.sub_zero, List.length_singleton]
      have hx : ((saUniv g src).card + 1) * ((saUniv g src).card + 2) =
          (saUniv g src).card * ((saUniv g src).card + 2) +
            ((saUniv g src).card + 2) := by
        ring
      linarith [hx]
    obtain ⟨st', hloop, hchain, hzero, hfin, hbnd⟩ :=
      saLoop_ok g src dst heu hw hh (saFuel g src)
        { dist := Function.update (fun _ => (⊤ : ℕ∞)) src 0, par := fun p => p,
          opened := [src], closed := [], current := src } hinv hmeas
    have hcardfin : ((saUniv g src).card : ℕ∞) + 1 < ⊤ :=
      en_add_one_lt_top _ (WithTop.coe_lt_top _)
    have htn0 : (st'.dist st'.current).toNat ≤
        (((saUniv g src).card : ℕ∞) + 1).toNat :=
      en_toNat_le _ _ hbnd hcardfin
    have hcast : (((saUniv g src).card : ℕ∞) + 1).toNat =
        (saUniv g src).card + 1 := by
      rw [show ((saUniv g src).card : ℕ∞) + 1 =
        (((saUniv g src).card + 1 : ℕ) : ℕ∞) from by push_cast; ring]
      exact ENat.toNat_coe _
    have htn : (st'.dist st'.current).toNat ≤ saFuel g src + 1 := by
      rw [hcast] at htn0
      have hfe : saFuel g src =
          ((saUniv g src).card + 1) * ((saUniv g src).card + 2) + 1 := rfl
      have hge : (saUniv g src).card + 1 ≤
          ((saUniv g src).card + 1) * ((saUniv g src).card + 2) :=
        Nat.le_mul_of_pos_right _ (by omega)
      rw [hfe]
      linarith
    have hwk := saGetPath_ok src st'.par st'.dist hchain (saFuel g src + 1)
      st'.current hfin htn
    have hwk2 : (saGetPath src st'.par (saFuel g src + 2) st'.current).isSome =
        true := hwk
    rcases hget : saGetPath src st'.par (saFuel g src + 2) st'.current
      with - | pr
    · rw [hget] at hwk2
      exact absurd hwk2 (by simp)
    · refine ⟨st', pr.1, pr.2, ?_⟩
      show (match saLoop g dst heu (saFuel g src)
          { dist := Function.update (fun _ => (⊤ : ℕ∞)) src 0,
            par := fun p => p,
            opened := [src], closed := [], current := src } with
        | none => none
        | some st =>
            match saGetPath src st.par (saFuel g src + 2) st.current with
            | none => none
            | some p => some (st, p)) = some (st', pr.1, pr.2)
      rw [hloop]
      show (match saGetPath src st'.par (saFuel g src + 2) st'.current with
        | none => none
        | some p => some (st', p)) = some (st', pr.1, pr.2)
      rw [hget]
  · intro sp w i dsts inf_len sup_len
    exact compute_shortest_path_cache sp w i dsts inf_len sup_len

/-- Witness for C7: the hypotheses hold on the 2x2 grid `cw7g` with source
`(0,0)`, and the searcher returns a result there even though the destination
`(1,1)` is unreachable. -/
theorem pathfinder_unreachable_and_cache_guard_witness :
    (0 < cw7g.width ∧ 0 < cw7g.height ∧ ((0 : ℤ), (0 : ℤ)) ∈ saCells cw7g) ∧
    (∃ st xs ys,
      sa_shortest_path cw7g (0, 0) (1, 1) (fun _ => 0) = some (st, xs, ys)) :=
  ⟨⟨by decide, by decide, by decide⟩,
    (pathfinder_unreachable_and_cache_guard cw7g (0, 0) (1, 1) (fun _ => 0)
      (by decide) (by decide) (by decide)).1⟩

end Snaketron
